import Mathlib

/-!
# The market-maker strategy of `examples/market_maker/main.go`

A shallow embedding of the decision engine of the market maker: the mid-price
feed, the account snapshot, the pricing-parameter store, the quote
computation and the per-tick order lifecycle (`Strategy.step`).

Conventions of the embedding.

* In the embedding of the control flow `float64` values are exact rationals
  (`ℚ`): comparisons and arithmetic are the ideal ones, without rounding,
  infinities or NaN. The numeric lines whose result depends on these
  (`placeOrder`, `handleOrderBook`, `refreshAccount`, `calculateTargetPrice`)
  are embedded a second time in IEEE 754 binary64 arithmetic (`placeOrder64`,
  `handleOrderBook64`, `refreshAccount64`, `calculateTargetPrice64`).
* `time.Time` and `time.Duration` are integer nanosecond counts; every
  reading of the clock (`time.Now`, `time.Since`) is an input named after the
  place that reads it.
* The exchange, the signer, the file system and the number parser are
  inputs: each call site receives the outcome of its call.
* The lock `mu` is left out: one call of a method runs without interleaving.
* A method that calls a collaborator returns the new strategy state
  together with the list of the externally visible actions it performed,
  oldest first; the other methods return the new state.
-/

namespace MarketMaker

/-! ## Data model -/

/-- A point in time, in nanoseconds (Go: `time.Time`). -/
abbrev Time := Int

/-- A span of time, in nanoseconds (Go: `time.Duration`). -/
abbrev Duration := Int

/-- One second (Go: `time.Second`). -/
def Second : Duration := 1000000000

/-- One minute (Go: `time.Minute`). -/
def Minute : Duration := 60 * Second

/-- The knobs of the strategy (Go: `Config`). -/
structure Config where
  BaseURL : String
  MarketSymbol : String
  Spread : ℚ
  BaseAmount : ℚ
  UseDynamicSizing : Bool
  CapitalUsage : ℚ
  SafetyMargin : ℚ
  OrderTimeout : Duration
  ParamsDir : String
  AvellanedaRefresh : Duration
  RequireParams : Bool
  CloseLongOnStartup : Bool
  AccountRefresh : Duration
  MinPositionValueUSD : ℚ
  AvellanedaCandidates : List String
  deriving DecidableEq, Repr

/-- The traded market (Go: `MarketInfo`); `ID` is a `uint8`. -/
structure MarketInfo where
  ID : Nat
  Symbol : String
  PriceTick : ℚ
  SizeTick : ℚ
  deriving DecidableEq, Repr

/-- The tracked order (Go: `OrderState`). -/
structure OrderState where
  ID : Int
  Side : String
  Price : ℚ
  BaseAmount : ℚ
  PlacedAt : Time
  ReduceOnly : Bool
  deriving DecidableEq, Repr

/-- The pricing offsets (Go: `avellanedaParams`, its `LimitOrders` member
flattened): `DeltaA` is the ask offset, `DeltaB` the bid offset. -/
structure avellanedaParams where
  DeltaA : ℚ
  DeltaB : ℚ
  deriving DecidableEq, Repr

/-- The mutable state of the strategy (Go: `Strategy`, without the clients
and the lock). `openOrder` and `avaParams` are nil-able pointers in Go. -/
structure Strategy where
  cfg : Config
  market : MarketInfo
  accountID : Int
  midPrice : ℚ
  midPriceUpdatedAt : Time
  availableCapital : ℚ
  portfolioValue : ℚ
  positionSize : ℚ
  lastAccountFetch : Time
  currentSide : String
  lastMidPrice : ℚ
  lastOrderBase : ℚ
  openOrder : Option OrderState
  avaParams : Option avellanedaParams
  lastParamsLoad : Time
  deriving DecidableEq, Repr

/-! ## The collaborators -/

/-- A position of an account, as the exchange reports it
(Go: element of `client.Account.Positions`). -/
structure AccountPosition where
  MarketId : Nat
  Position : String
  deriving DecidableEq, Repr

/-- An account, as the exchange reports it (Go: `client.Account`). -/
structure Account where
  Index : Int
  AvailableBalance : String
  TotalAssetValue : String
  Positions : List AccountPosition
  deriving DecidableEq, Repr

/-- What `s.http.GetAccount` returned: an error, a nil response, or a
response with its `Accounts`. -/
inductive GetAccountResult where
  | failed (msg : String)
  | nilResp
  | accounts (as : List Account)
  deriving DecidableEq, Repr

/-- One price level of an order-book push (Go: element of `resp.Bids`). -/
structure PriceLevel where
  Price : String
  deriving DecidableEq, Repr

/-- An order-book push (Go: `client.LighterOrderBookResponse`). -/
structure LighterOrderBookResponse where
  Bids : List PriceLevel
  Asks : List PriceLevel
  deriving DecidableEq, Repr

/-- The outcome of reading one candidate parameter file and decoding it:
`os.ReadFile` failed, `json.Unmarshal` failed, or both succeeded. -/
inductive CandidateFile where
  | unreadable
  | invalid
  | parsed (p : avellanedaParams)
  deriving DecidableEq, Repr

/-- The outcome of building and sending one transaction: the error of the
signer (`GetCancelAllOrdersTransaction`, `GetCreateOrderTransaction`) and
the error of `SendRawTx`, `none` for a nil error. The second is only looked
at when the first is nil. -/
structure TxEnv where
  signErr : Option String
  sendErr : Option String
  deriving DecidableEq, Repr

/-- The request `placeOrder` builds (Go: `lighterTypes.CreateOrderTxReq`).
`Type` and `TimeInForce` are the constants `txtypes.LimitOrder` and
`txtypes.PostOnly` in every request and are left out. `BaseAmount` and
`Price` hold the step counts before their conversion to `int64` and
`uint32` (`placeOrder64` gives them converted). -/
structure CreateOrderTxReq where
  MarketIndex : Nat
  ClientOrderIndex : Int
  BaseAmount : Int
  Price : Int
  IsAsk : Nat
  ReduceOnly : Nat
  OrderExpiry : Int
  deriving DecidableEq, Repr

/-- The externally visible actions of the strategy.

* `accountQuery`: a call of `s.http.GetAccount` (in `refreshAccount`);
* `cancelAll ok`: a call of `cancelAllOrders` (in `cancelAll`) and whether
  it returned nil;
* `placeOrder tracked`: an entry into `placeOrder`, with the value of
  `s.openOrder` at that moment;
* `submit req ok`: a call of `s.http.SendRawTx` on the create-order
  transaction of `req`, and whether it returned nil;
* `evaluate`: a call of `evaluatePostCycle`;
* `readFile path`: a call of `os.ReadFile` (in `loadAvellaneda`). -/
inductive Action where
  | accountQuery
  | cancelAll (ok : Bool)
  | placeOrder (tracked : Option OrderState)
  | submit (req : CreateOrderTxReq) (ok : Bool)
  | evaluate
  | readFile (path : String)
  deriving DecidableEq, Repr

/-- The result of a method that can fail: the state it leaves, the error it
returns (`none` for nil) and the actions it performed. -/
structure Outcome where
  state : Strategy
  err : Option String
  trace : List Action
  deriving DecidableEq, Repr

/-! ## The mid-price feed -/

/-- Go: `Strategy.handleOrderBook`. `parseFloat` is `strconv.ParseFloat`
(its value and whether its error is nil) and `now` the reading of
`time.Now()`. The parsed values are finite numbers and the mid price is the
exact mean; `handleOrderBook64` has the float64 values. -/
def handleOrderBook (s : Strategy) (parseFloat : String → ℚ × Bool)
    (resp : LighterOrderBookResponse) (now : Time) : Strategy :=
  match resp.Bids, resp.Asks with
  | [], _ => s
  | _ :: _, [] => s
  | bid :: _, ask :: _ =>
    let bestBid := (parseFloat bid.Price).1
    let err1 := !(parseFloat bid.Price).2
    let bestAsk := (parseFloat ask.Price).1
    let err2 := !(parseFloat ask.Price).2
    if err1 = true ∨ err2 = true ∨ bestBid ≤ 0 ∨ bestAsk ≤ 0 then s
    else
      let mid := (bestBid + bestAsk) / 2
      { s with midPrice := mid, midPriceUpdatedAt := now }

/-- Go: `Strategy.setSide`. -/
def setSide (s : Strategy) (side : String) : Strategy :=
  { s with currentSide := side }

/-- Go: `Strategy.getMidPrice`; `now` is the clock that `time.Since` reads.
Returns the price and the freshness flag. -/
def getMidPrice (s : Strategy) (now : Time) : ℚ × Bool :=
  if now - s.midPriceUpdatedAt > 10 * Second then (0, false)
  else (s.midPrice, true)

/-! ## The account snapshot -/

/-- The first account whose `Index` is `accountID` (the first loop of
`refreshAccount`). -/
def findAccount (accountID : Int) : List Account → Option Account
  | [] => none
  | a :: rest => if a.Index = accountID then some a else findAccount accountID rest

/-- The position text of the first position in market `marketID` (the
second loop of `refreshAccount`, up to the parse). -/
def findPosition (marketID : Nat) : List AccountPosition → Option String
  | [] => none
  | p :: rest => if p.MarketId = marketID then some p.Position else findPosition marketID rest

/-- Go: `Strategy.refreshAccount`. `resp` is what `GetAccount` returned and
`now` the reading of `time.Now()` when the snapshot is stored. The parsed
values are finite numbers; `refreshAccount64` has the float64 values. -/
def refreshAccount (s : Strategy) (parseFloat : String → ℚ × Bool)
    (resp : GetAccountResult) (now : Time) : Outcome :=
  match resp with
  | .failed msg => ⟨s, some msg, [.accountQuery]⟩
  | .nilResp => ⟨s, some "account response empty", [.accountQuery]⟩
  | .accounts [] => ⟨s, some "account response empty", [.accountQuery]⟩
  | .accounts (first :: rest) =>
    let account := (findAccount s.accountID (first :: rest)).getD first
    let available := (parseFloat account.AvailableBalance).1
    let portfolio := (parseFloat account.TotalAssetValue).1
    let position : ℚ :=
      match findPosition s.market.ID account.Positions with
      | some text => (parseFloat text).1
      | none => 0
    ⟨{ s with availableCapital := available, portfolioValue := portfolio,
              positionSize := position, lastAccountFetch := now },
     none, [.accountQuery]⟩

/-! ## The parameter store -/

/-- The clock readings and the files `loadAvellaneda` sees: `now` is read by
`time.Since(lastLoad)`, `file path` is the outcome of reading and decoding
`path`, `nowLoad` is the `time.Now()` stored with a loaded candidate. -/
structure ParamsEnv where
  now : Time
  file : String → CandidateFile
  nowLoad : Time

/-- The candidate loop of `loadAvellaneda`: the first candidate that reads,
decodes and has two positive deltas, with the paths read on the way. -/
def scanCandidates (file : String → CandidateFile) :
    List String → Option avellanedaParams × List Action
  | [] => (none, [])
  | path :: rest =>
    match file path with
    | .unreadable => ((scanCandidates file rest).1, .readFile path :: (scanCandidates file rest).2)
    | .invalid => ((scanCandidates file rest).1, .readFile path :: (scanCandidates file rest).2)
    | .parsed p =>
      if p.DeltaA ≤ 0 ∨ p.DeltaB ≤ 0 then
        ((scanCandidates file rest).1, .readFile path :: (scanCandidates file rest).2)
      else (some p, [.readFile path])

/-- The part of `loadAvellaneda` after the cache test: scan the candidates
and cache the first good one together with the time of loading. -/
def loadFromCandidates (s : Strategy) (env : ParamsEnv) :
    Option avellanedaParams × Strategy × List Action :=
  match (scanCandidates env.file s.cfg.AvellanedaCandidates).1 with
  | some p =>
    (some p, { s with avaParams := some p, lastParamsLoad := env.nowLoad },
     (scanCandidates env.file s.cfg.AvellanedaCandidates).2)
  | none => (none, s, (scanCandidates env.file s.cfg.AvellanedaCandidates).2)

/-- Go: `Strategy.loadAvellaneda`. Returns the parameters (or `none` for
nil), the state with its cache, and the files read. -/
def loadAvellaneda (s : Strategy) (env : ParamsEnv) :
    Option avellanedaParams × Strategy × List Action :=
  match s.avaParams with
  | some p =>
    if env.now - s.lastParamsLoad < s.cfg.AvellanedaRefresh then (some p, s, [])
    else loadFromCandidates s env
  | none => loadFromCandidates s env

/-! ## The quote engine -/

/-- Go: `Strategy.calculateTargetPrice`. Returns the price, the `ok` flag,
the state (whose parameter cache `loadAvellaneda` may have filled) and the
files read. -/
def calculateTargetPrice (s : Strategy) (env : ParamsEnv) (mid : ℚ) (side : String) :
    (ℚ × Bool) × Strategy × List Action :=
  let loaded := loadAvellaneda s env
  match loaded.1 with
  | some params =>
    if side = "buy" then ((mid - params.DeltaB, true), loaded.2)
    else ((mid + params.DeltaA, true), loaded.2)
  | none =>
    if s.cfg.RequireParams = true then ((0, false), loaded.2)
    else if side = "buy" then ((mid * (1 - s.cfg.Spread), true), loaded.2)
    else ((mid * (1 + s.cfg.Spread), true), loaded.2)

/-- Go: `Strategy.determineBaseAmount`. -/
def determineBaseAmount (s : Strategy) (side : String) (mid position : ℚ) : ℚ :=
  if side = "sell" then
    if position ≤ 0 then 0
    else
      let value := position * mid
      if value < s.cfg.MinPositionValueUSD then 0 else position
  else if s.cfg.UseDynamicSizing = false then s.cfg.BaseAmount
  else
    let capital := s.availableCapital
    if capital ≤ 0 then s.cfg.BaseAmount
    else
      let usable := capital * (1 - s.cfg.SafetyMargin)
      let orderCapital := usable * s.cfg.CapitalUsage
      if mid ≤ 0 then s.cfg.BaseAmount
      else
        let dynamic := orderCapital / mid
        if dynamic < s.market.SizeTick then s.market.SizeTick else dynamic

/-! ## Placing and cancelling -/

/-- Go: `boolToUint8`. -/
def boolToUint8 (v : Bool) : Nat := if v = true then 1 else 0

/-- Go: `nextOrderID`; `now` is the reading of `time.Now()` in nanoseconds
since the Unix epoch (not negative for any time after 1970). -/
def nextOrderID (now : Time) : Int := now % 1000000000000

/-- The inputs of one `placeOrder` call: the clock read by `nextOrderID`,
the clock read for `OrderExpiry`, the outcome of signing and sending, and
the clock read for `PlacedAt`. -/
structure PlaceEnv where
  nowID : Time
  nowExpiry : Time
  tx : TxEnv
  nowPlaced : Time
  deriving DecidableEq, Repr

/-- The request `placeOrder` builds (`req`), from the rounded price and the
step counts; `math.Floor` is the integer floor. The quotients and the
product are the exact ones; `placeOrder64` computes the same numbers in
float64 arithmetic. -/
def orderRequest (s : Strategy) (env : PlaceEnv) (side : String) (price baseAmount : ℚ)
    (reduceOnly : Bool) : CreateOrderTxReq :=
  let priceRounded : ℚ := (⌊price / s.market.PriceTick⌋ : ℤ) * s.market.PriceTick
  let sizeSteps : ℤ := ⌊baseAmount / s.market.SizeTick⌋
  let priceSteps0 : ℤ := ⌊priceRounded / s.market.PriceTick⌋
  let priceSteps : ℤ := if priceSteps0 < 1 then 1 else priceSteps0
  { MarketIndex := s.market.ID
    ClientOrderIndex := nextOrderID env.nowID
    BaseAmount := sizeSteps
    Price := priceSteps
    IsAsk := boolToUint8 (decide (side = "sell"))
    ReduceOnly := boolToUint8 reduceOnly
    OrderExpiry := (env.nowExpiry + 30 * Minute) / 1000000 }

/-- The order `placeOrder` records in `s.openOrder` after a successful
submission. -/
def orderRecord (s : Strategy) (env : PlaceEnv) (side : String) (price baseAmount : ℚ)
    (reduceOnly : Bool) : OrderState :=
  let priceRounded : ℚ := (⌊price / s.market.PriceTick⌋ : ℤ) * s.market.PriceTick
  let sizeSteps : ℤ := ⌊baseAmount / s.market.SizeTick⌋
  let baseRounded : ℚ := sizeSteps * s.market.SizeTick
  { ID := (orderRequest s env side price baseAmount reduceOnly).ClientOrderIndex
    Side := side
    Price := priceRounded
    BaseAmount := baseRounded
    PlacedAt := env.nowPlaced
    ReduceOnly := reduceOnly }

/-- Go: `Strategy.placeOrder`. -/
def placeOrder (s : Strategy) (env : PlaceEnv) (side : String) (price baseAmount : ℚ)
    (reduceOnly : Bool) : Outcome :=
  let sizeSteps : ℤ := ⌊baseAmount / s.market.SizeTick⌋
  if sizeSteps < 1 then
    ⟨s, some "order size below minimum tick", [.placeOrder s.openOrder]⟩
  else
    let req := orderRequest s env side price baseAmount reduceOnly
    match env.tx.signErr with
    | some e => ⟨s, some e, [.placeOrder s.openOrder]⟩
    | none =>
      match env.tx.sendErr with
      | some e => ⟨s, some e, [.placeOrder s.openOrder, .submit req false]⟩
      | none =>
        ⟨{ s with openOrder := some (orderRecord s env side price baseAmount reduceOnly) },
         none, [.placeOrder s.openOrder, .submit req true]⟩

/-- Go: `cancelAllOrders`: the error it returns, `none` for nil. -/
def cancelAllOrders (env : TxEnv) : Option String :=
  match env.signErr with
  | some e => some e
  | none => env.sendErr

/-- Go: `Strategy.cancelAll`. -/
def cancelAll (s : Strategy) (env : TxEnv) : Outcome :=
  match cancelAllOrders env with
  | some e => ⟨s, some e, [.cancelAll false]⟩
  | none => ⟨{ s with openOrder := none }, none, [.cancelAll true]⟩

/-! ## The order lifecycle -/

/-- Go: `Strategy.evaluatePostCycle` (the `switch` on `s.currentSide`). -/
def evaluatePostCycle (s : Strategy) (mid : ℚ) : Strategy :=
  let position := s.positionSize
  let value := position * mid
  if s.currentSide = "buy" then
    if position > 0 then
      if value ≥ s.cfg.MinPositionValueUSD then { s with currentSide := "sell" }
      else s
    else s
  else if s.currentSide = "sell" then
    if |position| < 1 / 1000000000 then { s with currentSide := "buy", lastOrderBase := 0 }
    else if value < s.cfg.MinPositionValueUSD then { s with currentSide := "buy" }
    else s
  else s

/-- The inputs of one tick of `step`, in the order the code asks for them:
the clock of `getMidPrice`; the clock of the account-interval test, then the
account response and the clock of the refresh it may trigger; the inputs of
`loadAvellaneda`; the clock of the timeout test; the outcome of the
cancel-all; the account response and the clock of the refresh after a
timeout cancel; the inputs of `placeOrder`. -/
structure StepEnv where
  parseFloat : String → ℚ × Bool
  nowMid : Time
  nowAccountCheck : Time
  account : GetAccountResult
  nowAccount : Time
  params : ParamsEnv
  nowTimeout : Time
  cancel : TxEnv
  accountAfterCancel : GetAccountResult
  nowAccountAfterCancel : Time
  place : PlaceEnv

/-- The price-move test of `step`: `priceChanged`. -/
def priceChanged (mid lastMid : ℚ) : Bool :=
  if lastMid > 0 then decide (|mid - lastMid| / lastMid > 1 / 1000) else false

/-- The tail of `step` that is reached with the local `order` nil: size the
order, place it, and record the mid price and the size. `pre` holds the
actions of the tick so far. -/
def stepPlace (s : Strategy) (env : PlaceEnv) (side : String) (mid targetPrice pos : ℚ)
    (pre : List Action) : Outcome :=
  let baseAmount := determineBaseAmount s side mid pos
  if baseAmount ≤ 0 then ⟨s, none, pre⟩
  else
    let reduceOnly : Bool := decide (side = "sell")
    let r := placeOrder s env side targetPrice baseAmount reduceOnly
    match r.err with
    | some e => ⟨r.state, some ("place order: " ++ e), pre ++ r.trace⟩
    | none =>
      ⟨{ r.state with lastMidPrice := mid, lastOrderBase := baseAmount }, none,
       pre ++ r.trace⟩

/-- The interval-driven refresh at the top of `step`: `refreshAccount` runs
when the last fetch is older than `AccountRefresh`; its error is only
logged. -/
def stepRefresh (s : Strategy) (env : StepEnv) : Outcome :=
  if env.nowAccountCheck - s.lastAccountFetch > s.cfg.AccountRefresh then
    refreshAccount s env.parseFloat env.account env.nowAccount
  else ⟨s, none, []⟩

/-- Go: `Strategy.step`, one tick of the control loop. -/
def step (s : Strategy) (env : StepEnv) : Outcome :=
  let mid := (getMidPrice s env.nowMid).1
  let fresh := (getMidPrice s env.nowMid).2
  if fresh = false ∨ mid ≤ 0 then ⟨s, some "stale mid price", []⟩
  else
    let r1 : Outcome := stepRefresh s env
    let side := r1.state.currentSide
    let lastMid := r1.state.lastMidPrice
    let order := r1.state.openOrder
    let pos := r1.state.positionSize
    let changed := priceChanged mid lastMid
    let tp := calculateTargetPrice r1.state env.params mid side
    let targetPrice := tp.1.1
    let ok := tp.1.2
    let s2 := tp.2.1
    let t2 := r1.trace ++ tp.2.2
    if ok = false then ⟨s2, none, t2⟩
    else
      match order with
      | some o =>
        if changed = true then
          let c := cancelAll s2 env.cancel
          stepPlace c.state env.place side mid targetPrice pos (t2 ++ c.trace)
        else if env.nowTimeout - o.PlacedAt > s2.cfg.OrderTimeout then
          let c := cancelAll s2 env.cancel
          let r := refreshAccount c.state env.parseFloat env.accountAfterCancel
            env.nowAccountAfterCancel
          ⟨evaluatePostCycle r.state mid, none, t2 ++ c.trace ++ r.trace ++ [.evaluate]⟩
        else ⟨s2, none, t2⟩
      | none => stepPlace s2 env.place side mid targetPrice pos t2

/-- The state in which `step` reaches its order logic: after the
interval-driven refresh and the pricing step. -/
def quoteState (s : Strategy) (env : StepEnv) : Strategy :=
  (loadAvellaneda (stepRefresh s env).state env.params).2.1

/-- The actions of `step` before its order logic: those of the
interval-driven refresh, then the file reads of the pricing step. -/
def quoteTrace (s : Strategy) (env : StepEnv) : List Action :=
  (stepRefresh s env).trace ++ (loadAvellaneda s env.params).2.2

/-- What the control loop of `Run` sees after startup: an order-book push
(handled by `handleOrderBook`) or a tick of the 3-second ticker (handled by
`step`). -/
inductive Event where
  | book (parseFloat : String → ℚ × Bool) (resp : LighterOrderBookResponse) (now : Time)
  | tick (env : StepEnv)

/-- The loop of `Run` over a finite sequence of events: every tick runs
`step`, whose error is only logged. Returns the final state and the actions
of all ticks. -/
def run (s : Strategy) : List Event → Strategy × List Action
  | [] => (s, [])
  | .book parseFloat resp now :: rest => run (handleOrderBook s parseFloat resp now) rest
  | .tick env :: rest =>
    ((run (step s env).state rest).1, (step s env).trace ++ (run (step s env).state rest).2)

/-- Whether the feed reports no fresh mid price at any tick of a run: at
every tick, `getMidPrice` on the state of that moment returns `fresh =
false`. -/
def staleAtEveryTick : Strategy → List Event → Bool
  | _, [] => true
  | s, .book parseFloat resp now :: rest =>
    staleAtEveryTick (handleOrderBook s parseFloat resp now) rest
  | s, .tick env :: rest =>
    !(getMidPrice s env.nowMid).2 && staleAtEveryTick (step s env).state rest

/-! ## The quote price of the specification -/

/-- The `Side` of the specification: the enum `Buy`, `Sell`. -/
inductive SpecSide where
  | Buy
  | Sell
  deriving DecidableEq, Repr

/-- The string the code uses for a side of the specification. -/
def SpecSide.toGo : SpecSide → String
  | .Buy => "buy"
  | .Sell => "sell"

/-- The `target_price(mid, side, params, require_params)` of the
specification, written from its words, with the configured `spread` as a
further argument: the price when `ok` is true, `none` when `ok` is false.
With `params` present the price is `mid - delta_bid` for Buy and
`mid + delta_ask` for Sell; absent and required gives `ok = false`; absent
and not required gives `mid*(1 - spread)` for Buy and `mid*(1 + spread)` for
Sell. -/
def target_price (mid : ℚ) (side : SpecSide) (params : Option avellanedaParams)
    (require_params : Bool) (spread : ℚ) : Option ℚ :=
  match params, side with
  | some p, .Buy => some (mid - p.DeltaB)
  | some p, .Sell => some (mid + p.DeltaA)
  | none, .Buy => if require_params = true then none else some (mid * (1 - spread))
  | none, .Sell => if require_params = true then none else some (mid * (1 + spread))

/-! ## Sample configurations, states and ticks -/

/-- A configuration with the static spread of 1% and the fixed size 1. -/
def exConfig : Config :=
  { BaseURL := "https://mainnet.zklighter.elliot.ai", MarketSymbol := "PAXG",
    Spread := 1 / 100, BaseAmount := 1, UseDynamicSizing := false,
    CapitalUsage := 99 / 100, SafetyMargin := 1 / 100, OrderTimeout := 90 * Second,
    ParamsDir := "params", AvellanedaRefresh := 900 * Second, RequireParams := false,
    CloseLongOnStartup := false, AccountRefresh := 15 * Second, MinPositionValueUSD := 15,
    AvellanedaCandidates := ["params/avellaneda_parameters_PAXG.json"] }

/-- The configuration `exConfig` with `REQUIRE_PARAMS` set. -/
def exStrictConfig : Config := { exConfig with RequireParams := true }

/-- A market with price tick 0.01 and size tick 0.1. -/
def exMarket : MarketInfo :=
  { ID := 1, Symbol := "PAXG", PriceTick := 1 / 100, SizeTick := 1 / 10 }

/-- A buy order placed at second 1000. -/
def exOrder : OrderState :=
  { ID := 7, Side := "buy", Price := 99, BaseAmount := 1, PlacedAt := 1000 * Second,
    ReduceOnly := false }

/-- A buy order placed at second 900. -/
def exOldOrder : OrderState := { exOrder with PlacedAt := 900 * Second }

/-- A state that tracks `exOrder`, quoted at the mid price 100, while the
mid price is now 101, observed at second 1009. -/
def exHeld : Strategy :=
  { cfg := exConfig, market := exMarket, accountID := 5, midPrice := 101,
    midPriceUpdatedAt := 1009 * Second, availableCapital := 1000, portfolioValue := 1000,
    positionSize := 0, lastAccountFetch := 1005 * Second, currentSide := "buy",
    lastMidPrice := 100, lastOrderBase := 1, openOrder := some exOrder, avaParams := none,
    lastParamsLoad := 0 }

/-- The state `exHeld` under `exStrictConfig`. -/
def exHeldStrict : Strategy := { exHeld with cfg := exStrictConfig }

/-- The state `exHeld` with the mid price still at 100. -/
def exCalm : Strategy := { exHeld with midPrice := 100 }

/-- The state `exCalm` tracking the older order `exOldOrder`. -/
def exAged : Strategy := { exCalm with openOrder := some exOldOrder }

/-- The state `exAged` under `exStrictConfig`. -/
def exAgedStrict : Strategy := { exAged with cfg := exStrictConfig }

/-- The state `exHeld` with no order tracked. -/
def exIdle : Strategy := { exHeld with openOrder := none }

/-- The state `exHeld` with its mid price observed at second 990. -/
def exStale : Strategy := { exHeld with midPriceUpdatedAt := 990 * Second }

/-- A buy-side state holding a position of 2. -/
def exBuyFilled : Strategy := { exIdle with positionSize := 2 }

/-- A sell-side state holding a position of 1/10. -/
def exSellDust : Strategy := { exIdle with currentSide := "sell", positionSize := 1 / 10 }

/-- A tick at second 1010 in which no parameter file is readable, the
account query fails, and the exchange accepts the cancel-all and the order,
the order being recorded at second 1011. -/
def exEnv : StepEnv :=
  { parseFloat := fun _ => (0, false), nowMid := 1010 * Second,
    nowAccountCheck := 1010 * Second, account := .failed "unreachable",
    nowAccount := 1010 * Second,
    params := { now := 1010 * Second, file := fun _ => .unreadable, nowLoad := 1010 * Second },
    nowTimeout := 1010 * Second, cancel := { signErr := none, sendErr := none },
    accountAfterCancel := .failed "unreachable", nowAccountAfterCancel := 1010 * Second,
    place := { nowID := 1010 * Second, nowExpiry := 1010 * Second,
               tx := { signErr := none, sendErr := none }, nowPlaced := 1011 * Second } }

/-- The tick `exEnv` in which the exchange rejects the cancel-all. -/
def exEnvCancelFails : StepEnv :=
  { exEnv with cancel := { signErr := none, sendErr := some "rejected" } }

/-- The request `step` submits on the tick `exEnv` from the sample states. -/
def exRequest : CreateOrderTxReq :=
  { MarketIndex := 1, ClientOrderIndex := 10000000000, BaseAmount := 10, Price := 9999,
    IsAsk := 0, ReduceOnly := 0, OrderExpiry := 2810000 }

/-- The order `step` records on the tick `exEnv` from the sample states. -/
def exNewOrder : OrderState :=
  { ID := 10000000000, Side := "buy", Price := 9999 / 100, BaseAmount := 1,
    PlacedAt := 1011 * Second, ReduceOnly := false }

/-- An order-book push with an empty ask side. -/
def exEmptyPush : LighterOrderBookResponse := { Bids := [{ Price := "100" }], Asks := [] }

/-- A run of two ticks with an unusable order-book push in between. -/
def exStaleRun : List Event :=
  [.tick exEnv, .book (fun _ => (0, false)) exEmptyPush (1012 * Second), .tick exEnv]

/-! ## Candidates and snapshots, named -/

/-- The parameters of a candidate source that reads, parses and has
`delta_ask > 0` and `delta_bid > 0` (specification, 4.3), and `none` for a
candidate that fails one of these. -/
def goodCandidate (file : String → CandidateFile) (path : String) : Option avellanedaParams :=
  match file path with
  | .unreadable => none
  | .invalid => none
  | .parsed p => if 0 < p.DeltaA ∧ 0 < p.DeltaB then some p else none

/-- The state `refreshAccount` stores once it has selected `account`: the
parsed balance, asset value and position of the tracked market (0 without
such a position), and the time of the fetch. -/
def snapshotFrom (s : Strategy) (parseFloat : String → ℚ × Bool) (account : Account)
    (now : Time) : Strategy :=
  { s with
    availableCapital := (parseFloat account.AvailableBalance).1
    portfolioValue := (parseFloat account.TotalAssetValue).1
    positionSize :=
      match findPosition s.market.ID account.Positions with
      | some text => (parseFloat text).1
      | none => 0
    lastAccountFetch := now }

/-! ## Further sample inputs -/

/-- The configuration `exConfig` with dynamic sizing enabled. -/
def exDynamicConfig : Config := { exConfig with UseDynamicSizing := true }

/-- A state with dynamic sizing and an available capital of 1000. -/
def exDynamic : Strategy := { exIdle with cfg := exDynamicConfig }

/-- The state `exDynamic` with no available capital. -/
def exBroke : Strategy := { exDynamic with availableCapital := 0 }

/-- A number parser that knows the texts `100`, `102` and `2.5`. -/
def exParse (text : String) : ℚ × Bool :=
  if text = "100" then (100, true)
  else if text = "102" then (102, true)
  else if text = "2.5" then (5 / 2, true)
  else (0, false)

/-- An order-book push with best bid 100 and best ask 102. -/
def exPush : LighterOrderBookResponse :=
  { Bids := [{ Price := "100" }, { Price := "99" }], Asks := [{ Price := "102" }] }

/-- Pricing offsets with a zero ask offset. -/
def exZeroAsk : avellanedaParams := { DeltaA := 0, DeltaB := 1 / 4 }

/-- Pricing offsets with two positive offsets. -/
def exParams : avellanedaParams := { DeltaA := 1 / 2, DeltaB := 1 / 4 }

/-- A state whose parameter cache holds `exParams`, loaded at second 1000. -/
def exCached : Strategy :=
  { exIdle with avaParams := some exParams, lastParamsLoad := 1000 * Second }

/-- The state `exCached` with its parameters loaded at second 100. -/
def exExpired : Strategy := { exCached with lastParamsLoad := 100 * Second }

/-- A configuration with two candidate files. -/
def exTwoConfig : Config := { exConfig with AvellanedaCandidates := ["a.json", "b.json"] }

/-- A state with an empty parameter cache and two candidate files. -/
def exTwo : Strategy := { exIdle with cfg := exTwoConfig }

/-- A file system in which `a.json` holds `exZeroAsk`, `b.json` holds
`exParams` and nothing else is readable. -/
def exFiles (path : String) : CandidateFile :=
  if path = "a.json" then .parsed exZeroAsk
  else if path = "b.json" then .parsed exParams
  else .unreadable

/-- The inputs of a `loadAvellaneda` call at second 1010 on `exFiles`. -/
def exParamsEnv : ParamsEnv :=
  { now := 1010 * Second, file := exFiles, nowLoad := 1011 * Second }

/-- An account of index 9. -/
def exOtherAccount : Account :=
  { Index := 9, AvailableBalance := "100", TotalAssetValue := "100", Positions := [] }

/-- An account of index 5 with a position of 2.5 in market 1. -/
def exOwnAccount : Account :=
  { Index := 5, AvailableBalance := "102", TotalAssetValue := "100",
    Positions := [{ MarketId := 1, Position := "2.5" }] }

/-! ## The initial state and the parameter invariant -/

/-- The zero `time.Time` (1 January of year 1), in nanoseconds relative to
the Unix epoch. -/
def zeroTime : Time := -62135596800 * Second

/-- Go: `newStrategy`: side `buy`, no reference price, and the zero value in
every other field. -/
def newStrategy (cfg : Config) (market : MarketInfo) (accountID : Int) : Strategy :=
  { cfg := cfg, market := market, accountID := accountID, midPrice := 0,
    midPriceUpdatedAt := zeroTime, availableCapital := 0, portfolioValue := 0,
    positionSize := 0, lastAccountFetch := zeroTime, currentSide := "buy", lastMidPrice := 0,
    lastOrderBase := 0, openOrder := none, avaParams := none, lastParamsLoad := zeroTime }

/-- The cached pricing parameters, when there are any, have a positive ask
offset and a positive bid offset. -/
def paramsValid (s : Strategy) : Prop :=
  match s.avaParams with
  | some p => 0 < p.DeltaA ∧ 0 < p.DeltaB
  | none => True

instance (s : Strategy) : Decidable (paramsValid s) := by
  unfold paramsValid
  split <;> infer_instance

/-! ## More sample inputs -/

/-- An account of index 5 whose balance and position texts are not numbers. -/
def exGarbledAccount : Account :=
  { Index := 5, AvailableBalance := "n/a", TotalAssetValue := "100",
    Positions := [{ MarketId := 1, Position := "?" }] }

/-- The state `exDynamic` with an available capital of 1. -/
def exPoor : Strategy := { exDynamic with availableCapital := 1 }

/-- The request `placeOrder` submits from `exIdle` for the price 0.005 and
the size 1: one price step, ten size steps. -/
def exLowRequest : CreateOrderTxReq := { exRequest with Price := 1 }

/-- The order `placeOrder` records from `exIdle` for the price 0.005 and the
size 1: the price 0. -/
def exLowOrder : OrderState := { exNewOrder with Price := 0 }

/-! ## The numeric code in float64 arithmetic

The definitions above compute with exact rationals. What a claim says about
tick rounding, or about the values `strconv.ParseFloat` returns, depends on
what float64 does beyond that: the rounding of every operation, the
infinities and NaN. This section embeds the numeric lines of `placeOrder`,
`handleOrderBook`, `refreshAccount` and `calculateTargetPrice` once more, in
IEEE 754 binary64 arithmetic. The sign of zero is not kept. -/

/-- The integer nearest to `x`; for an `x` halfway between two integers, the
even one. -/
def roundHalfEven (x : ℚ) : ℤ :=
  if x - ⌊x⌋ < 1 / 2 then ⌊x⌋
  else if 1 / 2 < x - ⌊x⌋ then ⌊x⌋ + 1
  else if ⌊x⌋ % 2 = 0 then ⌊x⌋ else ⌊x⌋ + 1

/-- The distance between neighbouring float64 values around `x`:
`2^(e - 52)` for `2^e ≤ |x| < 2^(e + 1)` (53 significant bits), and
`2^(-1074)` for every `|x| < 2^(-1022)` (the subnormal range). -/
def ulp64 (x : ℚ) : ℚ := 2 ^ (max (Int.log 2 |x|) (-1022) - 52)

/-- The multiple of `ulp64 x` nearest to `x`, ties to the even multiple:
the float64 that IEEE 754 round-to-nearest gives for the real `x`, as long
as it does not overflow. -/
def round64 (x : ℚ) : ℚ := roundHalfEven (x / ulp64 x) * ulp64 x

/-- A float64 value (Go: `float64`): a finite number, an infinity or NaN. -/
inductive Float64 where
  | finite (q : ℚ)
  | posInf
  | negInf
  | nan
  deriving DecidableEq, Repr

/-- The float64 result of an operation whose real result is `x`: `x` rounded
to nearest, and an infinity when the rounded value reaches `2^1024`. -/
def Float64.ofRat (x : ℚ) : Float64 :=
  if (2 : ℚ) ^ 1024 ≤ |round64 x| then (if 0 < x then .posInf else .negInf)
  else .finite (round64 x)

/-- Go: `x + y` on `float64`. -/
def Float64.add : Float64 → Float64 → Float64
  | .nan, _ => .nan
  | _, .nan => .nan
  | .finite a, .finite b => Float64.ofRat (a + b)
  | .posInf, .negInf => .nan
  | .negInf, .posInf => .nan
  | .posInf, _ => .posInf
  | .negInf, _ => .negInf
  | .finite _, y => y

/-- Go: `-x` on `float64`. -/
def Float64.neg : Float64 → Float64
  | .finite a => .finite (-a)
  | .posInf => .negInf
  | .negInf => .posInf
  | .nan => .nan

/-- Go: `x - y` on `float64`. -/
def Float64.sub (x y : Float64) : Float64 := Float64.add x (Float64.neg y)

/-- Go: `x * y` on `float64`. -/
def Float64.mul : Float64 → Float64 → Float64
  | .nan, _ => .nan
  | _, .nan => .nan
  | .finite a, .finite b => Float64.ofRat (a * b)
  | .finite a, .posInf => if a = 0 then .nan else if 0 < a then .posInf else .negInf
  | .finite a, .negInf => if a = 0 then .nan else if 0 < a then .negInf else .posInf
  | .posInf, .finite b => if b = 0 then .nan else if 0 < b then .posInf else .negInf
  | .negInf, .finite b => if b = 0 then .nan else if 0 < b then .negInf else .posInf
  | .posInf, .posInf => .posInf
  | .posInf, .negInf => .negInf
  | .negInf, .posInf => .negInf
  | .negInf, .negInf => .posInf

/-- Go: `x / y` on `float64`; a zero divisor counts as `+0`. -/
def Float64.div : Float64 → Float64 → Float64
  | .nan, _ => .nan
  | _, .nan => .nan
  | .finite a, .finite b =>
    if b = 0 then (if a = 0 then .nan else if 0 < a then .posInf else .negInf)
    else Float64.ofRat (a / b)
  | .finite _, .posInf => .finite 0
  | .finite _, .negInf => .finite 0
  | .posInf, .finite b => if 0 ≤ b then .posInf else .negInf
  | .negInf, .finite b => if 0 ≤ b then .negInf else .posInf
  | .posInf, .posInf => .nan
  | .posInf, .negInf => .nan
  | .negInf, .posInf => .nan
  | .negInf, .negInf => .nan

/-- Go: `math.Floor`; the floor of a float64 is a float64, and `math.Floor`
returns an infinity or NaN as it is. -/
def Float64.floor : Float64 → Float64
  | .finite q => .finite ⌊q⌋
  | .posInf => .posInf
  | .negInf => .negInf
  | .nan => .nan

/-- Go: `x < y` on `float64`; false whenever one side is NaN. -/
def Float64.lt : Float64 → Float64 → Bool
  | .nan, _ => false
  | _, .nan => false
  | .finite a, .finite b => decide (a < b)
  | .finite _, .posInf => true
  | .finite _, .negInf => false
  | .posInf, _ => false
  | .negInf, .negInf => false
  | .negInf, _ => true

/-- Go: `x <= y` on `float64`; false whenever one side is NaN. -/
def Float64.le : Float64 → Float64 → Bool
  | .nan, _ => false
  | _, .nan => false
  | .finite a, .finite b => decide (a ≤ b)
  | .finite _, .posInf => true
  | .finite _, .negInf => false
  | .posInf, .posInf => true
  | .posInf, _ => false
  | .negInf, _ => true

/-- Go: `int64(x)` for a `float64`: the value truncated toward zero when it
lies in the range of `int64`. Go leaves the other conversions to the
implementation; the value here is the one of amd64, `-2^63`. -/
def Float64.toInt64 : Float64 → ℤ
  | .finite q =>
    let z : ℤ := if 0 ≤ q then ⌊q⌋ else ⌈q⌉
    if -9223372036854775808 ≤ z ∧ z < 9223372036854775808 then z else -9223372036854775808
  | _ => -9223372036854775808

/-- Go: `uint32(x)` for a `float64`: the truncated value when it lies in the
range of `uint32`. Go leaves the other conversions to the implementation;
the value here is the one of amd64, the low 32 bits of `int64(x)`. -/
def Float64.toUint32 (x : Float64) : ℤ := Float64.toInt64 x % 4294967296

/-- The tick rounding of `placeOrder`, `math.Floor(x / t) * t`, in float64:
it gives `priceRounded` from the price and the price tick, and `baseRounded`
from the size and the size tick. -/
def roundToTick64 (t x : Float64) : Float64 :=
  Float64.mul (Float64.floor (Float64.div x t)) t

/-- The numbers `placeOrder` computes: the price and the size it logs and
records, and the fields `BaseAmount` (an `int64`) and `Price` (a `uint32`) of
the request it builds. -/
structure OrderNumbers where
  priceRounded : Float64
  baseRounded : Float64
  BaseAmount : ℤ
  Price : ℤ
  deriving DecidableEq, Repr

/-- Go: `Strategy.placeOrder`, its arithmetic (lines 570 to 586) in float64,
with `priceTick` for `s.market.PriceTick` and `sizeTick` for
`s.market.SizeTick`: `none` when it returns the sizing error, and otherwise
the numbers of the request it goes on to sign and send. -/
def placeOrder64 (priceTick sizeTick price baseAmount : Float64) : Option OrderNumbers :=
  let priceRounded := Float64.mul (Float64.floor (Float64.div price priceTick)) priceTick
  let sizeSteps := Float64.floor (Float64.div baseAmount sizeTick)
  if Float64.lt sizeSteps (.finite 1) = true then none
  else
    let baseRounded := Float64.mul sizeSteps sizeTick
    let priceSteps0 := Float64.floor (Float64.div priceRounded priceTick)
    let priceSteps := if Float64.lt priceSteps0 (.finite 1) = true then .finite 1 else priceSteps0
    some { priceRounded := priceRounded, baseRounded := baseRounded,
           BaseAmount := Float64.toInt64 sizeSteps, Price := Float64.toUint32 priceSteps }

/-- Go: `Strategy.calculateTargetPrice`, its arithmetic in float64, with
`requireParams` for `s.cfg.RequireParams`, `spread` for `s.cfg.Spread` and
`params` for what `loadAvellaneda` returned (its offsets are numbers decoded
from JSON, hence finite). -/
def calculateTargetPrice64 (requireParams : Bool) (spread : Float64)
    (params : Option avellanedaParams) (mid : Float64) (side : String) : Float64 × Bool :=
  match params with
  | some p =>
    if side = "buy" then (Float64.sub mid (.finite p.DeltaB), true)
    else (Float64.add mid (.finite p.DeltaA), true)
  | none =>
    if requireParams = true then (.finite 0, false)
    else if side = "buy" then (Float64.mul mid (Float64.sub (.finite 1) spread), true)
    else (Float64.mul mid (Float64.add (.finite 1) spread), true)

/-- The fields of `Strategy` that `handleOrderBook` writes. -/
structure MidSample where
  midPrice : Float64
  midPriceUpdatedAt : Time
  deriving DecidableEq, Repr

/-- Go: `Strategy.handleOrderBook`, on float64 values: `parseFloat` is
`strconv.ParseFloat` (its value, which may be an infinity or NaN, and whether
its error is nil) and `now` the reading of `time.Now()`. -/
def handleOrderBook64 (sample : MidSample) (parseFloat : String → Float64 × Bool)
    (resp : LighterOrderBookResponse) (now : Time) : MidSample :=
  match resp.Bids, resp.Asks with
  | [], _ => sample
  | _ :: _, [] => sample
  | bid :: _, ask :: _ =>
    let bestBid := (parseFloat bid.Price).1
    let err1 := !(parseFloat bid.Price).2
    let bestAsk := (parseFloat ask.Price).1
    let err2 := !(parseFloat ask.Price).2
    if err1 = true ∨ err2 = true ∨ Float64.le bestBid (.finite 0) = true ∨
        Float64.le bestAsk (.finite 0) = true then sample
    else
      let mid := Float64.div (Float64.add bestBid bestAsk) (.finite 2)
      { midPrice := mid, midPriceUpdatedAt := now }

/-- The fields of `Strategy` that `refreshAccount` writes. -/
structure AccountSnapshot where
  availableCapital : Float64
  portfolioValue : Float64
  positionSize : Float64
  lastAccountFetch : Time
  deriving DecidableEq, Repr

/-- Go: `Strategy.refreshAccount`, on float64 values: the snapshot it leaves
and the error it returns (`none` for nil). `parseFloat` is
`strconv.ParseFloat` (its value and whether its error is nil), `resp` what
`GetAccount` returned and `now` the reading of `time.Now()`. -/
def refreshAccount64 (snap : AccountSnapshot) (accountID : Int) (marketID : Nat)
    (parseFloat : String → Float64 × Bool) (resp : GetAccountResult) (now : Time) :
    AccountSnapshot × Option String :=
  match resp with
  | .failed msg => (snap, some msg)
  | .nilResp => (snap, some "account response empty")
  | .accounts [] => (snap, some "account response empty")
  | .accounts (first :: rest) =>
    let account := (findAccount accountID (first :: rest)).getD first
    let available := (parseFloat account.AvailableBalance).1
    let portfolio := (parseFloat account.TotalAssetValue).1
    let position : Float64 :=
      match findPosition marketID account.Positions with
      | some text => (parseFloat text).1
      | none => .finite 0
    ({ availableCapital := available, portfolioValue := portfolio,
       positionSize := position, lastAccountFetch := now }, none)

/-! ## Sample float64 inputs -/

/-- The float64 nearest to 0.01, a price tick. -/
def tick001 : ℚ := 5764607523034235 / 576460752303423488

/-- The float64 nearest to 0.1, a size tick. -/
def tick01 : ℚ := 3602879701896397 / 36028797018963968

/-- The float64 nearest to 1.05. -/
def size105 : ℚ := 4728779608739021 / 4503599627370496

/-- The float64 nearest to 128.205. -/
def price128205 : ℚ := 4510812423648707 / 35184372088832

/-- The float64 nearest to 128.2. -/
def price1282 : ℚ := 2255318250894131 / 17592186044416

/-- The float64 nearest to 128.19. -/
def price12819 : ℚ := 2255142329033687 / 17592186044416

/-- The parser `strconv.ParseFloat(text, 64)` on the texts `100`, `102`,
`2.5`, `NaN` (a valid text, read as NaN) and `1e999` (out of range: `+Inf`
with `ErrRange`); every other text is taken for a syntax error, for which
`ParseFloat` returns 0 with its error. -/
def exParse64 (text : String) : Float64 × Bool :=
  if text = "100" then (.finite 100, true)
  else if text = "102" then (.finite 102, true)
  else if text = "2.5" then (.finite (5 / 2), true)
  else if text = "NaN" then (.nan, true)
  else if text = "1e999" then (.posInf, false)
  else (.finite 0, false)

/-- An order-book push whose best bid is the text `NaN`. -/
def exNaNPush : LighterOrderBookResponse :=
  { Bids := [{ Price := "NaN" }], Asks := [{ Price := "102" }] }

/-- A stored sample: the mid price 101, observed at second 1009. -/
def exSample : MidSample := { midPrice := .finite 101, midPriceUpdatedAt := 1009 * Second }

/-- An account of index 5 whose available balance is out of the float64
range. -/
def exHugeAccount : Account :=
  { Index := 5, AvailableBalance := "1e999", TotalAssetValue := "100",
    Positions := [{ MarketId := 1, Position := "2.5" }] }

/-- A snapshot with every value at 0, fetched at second 1005. -/
def exSnapshot : AccountSnapshot :=
  { availableCapital := .finite 0, portfolioValue := .finite 0, positionSize := .finite 0,
    lastAccountFetch := 1005 * Second }

/-- The float64 nearest to 100.005, a mid price. -/
def mid100005 : ℚ := 879653282685911 / 8796093022208

/-- The float64 nearest to 0.001, an ask offset. -/
def delta0001 : ℚ := 1152921504606847 / 1152921504606846976

/-- The float64 nearest to 99.99. -/
def price9999 : ℚ := 7036170730324623 / 70368744177664

/-- The float64 nearest to 0.005. -/
def price0005 : ℚ := 5764607523034235 / 1152921504606846976

/-- The float64 nearest to 1e-15, an offset below half the distance between
the float64 values around 100.005. -/
def delta1e15 : ℚ := 2535301200456459 / 2535301200456458802993406410752

/-- The float64 nearest to 100.006. -/
def target100006 : ℚ := 3518648315115733 / 35184372088832

/-! ## A sell quote with an offset below the price tick -/

/-- Pricing offsets of a tenth of the price tick of `exMarket`. -/
def exTightParams : avellanedaParams := { DeltaA := 1 / 1000, DeltaB := 1 / 1000 }

/-- A sell-side state holding a position of 1 at the mid price 100.005,
whose parameter cache holds `exTightParams`, loaded at second 1000. -/
def exTight : Strategy :=
  { exIdle with currentSide := "sell", positionSize := 1, midPrice := 100005 / 1000,
                avaParams := some exTightParams, lastParamsLoad := 1000 * Second }

/-- The request `step` submits on the tick `exEnv` from `exTight`: an ask of
10000 price steps. -/
def exTightRequest : CreateOrderTxReq :=
  { exRequest with Price := 10000, IsAsk := 1, ReduceOnly := 1 }

/-- The order `step` records on the tick `exEnv` from `exTight`. -/
def exTightOrder : OrderState :=
  { exNewOrder with Side := "sell", Price := 100, ReduceOnly := true }

end MarketMaker

/-! # The REST client of `client/`

The parts of `client/options.go`, `client/client.go` and
`client/transactions.go` that decide the form `SendTx` sends. The HTTP
client and the request editors are named by numbers. -/

namespace client

/-- Go: `lighterapi.ReqSendTx`, as `SendTx` reads it: `TxType` is a `uint8`
and `PriceProtection` a `*bool`. -/
structure ReqSendTx where
  TxType : Nat
  TxInfo : String
  PriceProtection : Option Bool
  deriving DecidableEq, Repr

/-- Go: `options`. -/
structure options where
  httpClient : Option Nat
  requestEditors : List Nat
  priceProtection : Option Bool
  deriving DecidableEq, Repr

/-- Go: `defaultOptions`; `DefaultHTTPClient()` is the HTTP client 0. -/
def defaultOptions : options :=
  { httpClient := some 0, requestEditors := [], priceProtection := none }

/-- Go: `WithHTTPClient`. -/
def WithHTTPClient (client : Option Nat) : options → options :=
  fun o =>
    match client with
    | some c => { o with httpClient := some c }
    | none => o

/-- Go: `WithRequestEditor`. -/
def WithRequestEditor (fn : Option Nat) : options → options :=
  fun o =>
    match fn with
    | some f => { o with requestEditors := o.requestEditors ++ [f] }
    | none => o

/-- Go: `WithPriceProtection`. -/
def WithPriceProtection (enabled : Bool) : options → options :=
  fun o => { o with priceProtection := some enabled }

/-- Go: `Client`, without its API handle. -/
structure Client where
  opts : options
  deriving DecidableEq, Repr

/-- One round of the option loop of `New`: a nil option is skipped. -/
def applyOption (cfg : options) (opt : Option (options → options)) : options :=
  match opt with
  | some f => f cfg
  | none => cfg

/-- The option loop of `New`: every non-nil option is applied, in order, to
the default options. -/
def applyOptions (opts : List (Option (options → options))) : options :=
  opts.foldl applyOption defaultOptions

/-- Go: `New`; `apiErr` is the error of `lighterapi.NewClientWithResponses`,
`none` for nil. -/
def New (baseURL : String) (opts : List (Option (options → options)))
    (apiErr : Option String) : Except String Client :=
  if baseURL = "" then .error "baseURL cannot be empty"
  else
    match apiErr with
    | some e => .error e
    | none => .ok { opts := applyOptions opts }

/-- Go: `url.Values`, a map from a key to its values. -/
abbrev Values := String → Option (List String)

/-- Go: `url.Values{}`. -/
def Values.empty : Values := fun _ => none

/-- Go: `url.Values.Set`: the key gets the single value. -/
def Values.Set (form : Values) (key value : String) : Values :=
  fun k => if k = key then some [value] else form k

/-- Go: `strconv.Itoa` on the `int` of a `uint8`: the decimal digits. -/
def Itoa (n : Nat) : String := toString n

/-- Go: `strconv.FormatBool`. -/
def FormatBool (b : Bool) : String := if b = true then "true" else "false"

/-- Go: `Client.SendTx`, up to the call of the API: the form it encodes as
the body of the request. What it makes of the response is left out. -/
def SendTx (c : Client) (req : ReqSendTx) : Values :=
  let form := Values.empty
  let form := form.Set "tx_type" (Itoa req.TxType)
  let form := form.Set "tx_info" req.TxInfo
  let priceProtection :=
    match req.PriceProtection with
    | some b => some b
    | none => c.opts.priceProtection
  match priceProtection with
  | some b => form.Set "price_protection" (FormatBool b)
  | none => form

/-- A request of type 14 that sets no price protection. -/
def exReq : ReqSendTx := { TxType := 14, TxInfo := "0xab12", PriceProtection := none }

/-- The request `exReq` with price protection switched off. -/
def exReqOff : ReqSendTx := { exReq with PriceProtection := some false }

/-- A client built with price protection on by default. -/
def exProtected : Client :=
  { opts := applyOptions [some (WithPriceProtection false), none,
      some (WithRequestEditor (some 3)), some (WithPriceProtection true)] }

/-- A client built without a price-protection option. -/
def exPlain : Client := { opts := applyOptions [some (WithHTTPClient (some 2))] }

end client

namespace MarketMaker

/-! ## Auxiliary facts -/

theorem buy_ne_sell : ("buy" : String) ≠ "sell" := by decide

theorem refreshAccount_trace (s : Strategy) (pf : String → ℚ × Bool) (r : GetAccountResult)
    (now : Time) : (refreshAccount s pf r now).trace = [.accountQuery] := by
  unfold refreshAccount
  split <;> rfl

theorem refreshAccount_frame (s : Strategy) (pf : String → ℚ × Bool) (r : GetAccountResult)
    (now : Time) :
    (refreshAccount s pf r now).state.openOrder = s.openOrder ∧
    (refreshAccount s pf r now).state.currentSide = s.currentSide ∧
    (refreshAccount s pf r now).state.lastMidPrice = s.lastMidPrice ∧
    (refreshAccount s pf r now).state.cfg = s.cfg ∧
    (refreshAccount s pf r now).state.market = s.market ∧
    (refreshAccount s pf r now).state.avaParams = s.avaParams ∧
    (refreshAccount s pf r now).state.lastParamsLoad = s.lastParamsLoad := by
  unfold refreshAccount
  split <;> simp

theorem stepRefresh_frame (s : Strategy) (env : StepEnv) :
    (stepRefresh s env).state.openOrder = s.openOrder ∧
    (stepRefresh s env).state.currentSide = s.currentSide ∧
    (stepRefresh s env).state.lastMidPrice = s.lastMidPrice ∧
    (stepRefresh s env).state.cfg = s.cfg ∧
    (stepRefresh s env).state.market = s.market ∧
    (stepRefresh s env).state.avaParams = s.avaParams ∧
    (stepRefresh s env).state.lastParamsLoad = s.lastParamsLoad := by
  unfold stepRefresh
  split
  · exact refreshAccount_frame s _ _ _
  · simp

theorem stepRefresh_trace (s : Strategy) (env : StepEnv) :
    (stepRefresh s env).trace =
      if env.nowAccountCheck - s.lastAccountFetch > s.cfg.AccountRefresh then [.accountQuery]
      else [] := by
  unfold stepRefresh
  split
  · exact refreshAccount_trace s _ _ _
  · rfl

theorem scanCandidates_reads (file : String → CandidateFile) (paths : List String) :
    ∀ a ∈ (scanCandidates file paths).2, ∃ p, a = Action.readFile p := by
  induction paths with
  | nil => simp [scanCandidates]
  | cons path rest ih =>
    intro a ha
    unfold scanCandidates at ha
    cases hf : file path with
    | unreadable =>
      simp only [hf, List.mem_cons] at ha
      rcases ha with h | h
      · exact ⟨path, h⟩
      · exact ih a h
    | invalid =>
      simp only [hf, List.mem_cons] at ha
      rcases ha with h | h
      · exact ⟨path, h⟩
      · exact ih a h
    | parsed q =>
      simp only [hf] at ha
      split_ifs at ha
      · simp only [List.mem_cons] at ha
        rcases ha with h | h
        · exact ⟨path, h⟩
        · exact ih a h
      · simp only [List.mem_singleton] at ha
        exact ⟨path, ha⟩

theorem loadFromCandidates_frame (s : Strategy) (env : ParamsEnv) :
    (loadFromCandidates s env).2.1.openOrder = s.openOrder ∧
    (loadFromCandidates s env).2.1.currentSide = s.currentSide ∧
    (loadFromCandidates s env).2.1.lastMidPrice = s.lastMidPrice ∧
    (loadFromCandidates s env).2.1.cfg = s.cfg ∧
    (loadFromCandidates s env).2.1.market = s.market ∧
    (loadFromCandidates s env).2.1.positionSize = s.positionSize ∧
    (loadFromCandidates s env).2.1.availableCapital = s.availableCapital := by
  unfold loadFromCandidates
  cases (scanCandidates env.file s.cfg.AvellanedaCandidates).1 <;> simp

theorem loadAvellaneda_frame (s : Strategy) (env : ParamsEnv) :
    (loadAvellaneda s env).2.1.openOrder = s.openOrder ∧
    (loadAvellaneda s env).2.1.currentSide = s.currentSide ∧
    (loadAvellaneda s env).2.1.lastMidPrice = s.lastMidPrice ∧
    (loadAvellaneda s env).2.1.cfg = s.cfg ∧
    (loadAvellaneda s env).2.1.market = s.market ∧
    (loadAvellaneda s env).2.1.positionSize = s.positionSize ∧
    (loadAvellaneda s env).2.1.availableCapital = s.availableCapital := by
  unfold loadAvellaneda
  cases s.avaParams with
  | none => exact loadFromCandidates_frame s env
  | some p =>
    simp only
    split_ifs
    · simp
    · exact loadFromCandidates_frame s env

theorem loadAvellaneda_reads (s : Strategy) (env : ParamsEnv) :
    ∀ a ∈ (loadAvellaneda s env).2.2, ∃ p, a = Action.readFile p := by
  have hscan : ∀ a ∈ (loadFromCandidates s env).2.2, ∃ p, a = Action.readFile p := by
    unfold loadFromCandidates
    cases (scanCandidates env.file s.cfg.AvellanedaCandidates).1 <;>
      exact scanCandidates_reads env.file s.cfg.AvellanedaCandidates
  unfold loadAvellaneda
  cases s.avaParams with
  | none => exact hscan
  | some p =>
    simp only
    split_ifs
    · simp
    · exact hscan

theorem calculateTargetPrice_snd (s : Strategy) (env : ParamsEnv) (mid : ℚ) (side : String) :
    (calculateTargetPrice s env mid side).2 = (loadAvellaneda s env).2 := by
  rcases h : (loadAvellaneda s env).1 with _ | p <;>
    simp only [calculateTargetPrice, h] <;> split_ifs <;> rfl

theorem calculateTargetPrice_ok (s : Strategy) (env : ParamsEnv) (mid : ℚ) (side : String) :
    (calculateTargetPrice s env mid side).1.2 = false ↔
      (loadAvellaneda s env).1 = none ∧ s.cfg.RequireParams = true := by
  rcases h : (loadAvellaneda s env).1 with _ | p <;>
    simp only [calculateTargetPrice, h] <;> split_ifs <;> simp_all



theorem loadAvellaneda_congr (s s' : Strategy) (env : ParamsEnv)
    (hp : s'.avaParams = s.avaParams) (hl : s'.lastParamsLoad = s.lastParamsLoad)
    (hc : s'.cfg = s.cfg) :
    (loadAvellaneda s' env).1 = (loadAvellaneda s env).1 ∧
    (loadAvellaneda s' env).2.2 = (loadAvellaneda s env).2.2 := by
  have hscan : (loadFromCandidates s' env).1 = (loadFromCandidates s env).1 ∧
      (loadFromCandidates s' env).2.2 = (loadFromCandidates s env).2.2 := by
    unfold loadFromCandidates
    rw [hc]
    cases (scanCandidates env.file s.cfg.AvellanedaCandidates).1 <;> simp
  unfold loadAvellaneda
  rw [hp, hl, hc]
  cases s.avaParams with
  | none => exact hscan
  | some p =>
    simp only
    split_ifs
    · simp
    · exact hscan

theorem priceChanged_iff (mid lastMid : ℚ) :
    priceChanged mid lastMid = true ↔ |mid - lastMid| / lastMid > 1 / 1000 := by
  unfold priceChanged
  split_ifs with h
  · simp
  · have h0 : |mid - lastMid| / lastMid ≤ 0 :=
      div_nonpos_of_nonneg_of_nonpos (abs_nonneg _) (not_lt.mp h)
    constructor
    · intro hf
      cases hf
    · intro hgt
      have : (0 : ℚ) < 1 / 1000 := by norm_num
      linarith

theorem cancelAll_trace (s : Strategy) (env : TxEnv) :
    (cancelAll s env).trace = [.cancelAll (cancelAllOrders env).isNone] := by
  unfold cancelAll
  cases cancelAllOrders env <;> rfl

theorem cancelAll_frame (s : Strategy) (env : TxEnv) :
    (cancelAll s env).state.currentSide = s.currentSide ∧
    (cancelAll s env).state.lastMidPrice = s.lastMidPrice ∧
    (cancelAll s env).state.cfg = s.cfg ∧
    (cancelAll s env).state.market = s.market ∧
    (cancelAll s env).state.positionSize = s.positionSize ∧
    (cancelAll s env).state.availableCapital = s.availableCapital := by
  unfold cancelAll
  cases cancelAllOrders env <;> simp

theorem cancelAll_openOrder (s : Strategy) (env : TxEnv) :
    (cancelAll s env).state.openOrder =
      if (cancelAllOrders env).isNone = true then none else s.openOrder := by
  unfold cancelAll
  cases cancelAllOrders env <;> simp


theorem calculateTargetPrice_fst_congr (s s' : Strategy) (env : ParamsEnv) (mid : ℚ)
    (side : String) (hp : s'.avaParams = s.avaParams)
    (hl : s'.lastParamsLoad = s.lastParamsLoad) (hc : s'.cfg = s.cfg) :
    (calculateTargetPrice s' env mid side).1 = (calculateTargetPrice s env mid side).1 := by
  have h := (loadAvellaneda_congr s s' env hp hl hc).1
  unfold calculateTargetPrice
  simp only [h, hc]
  cases (loadAvellaneda s env).1 <;> simp only [] <;> split_ifs <;> rfl

theorem step_fresh (s : Strategy) (env : StepEnv) (mid : ℚ)
    (hmid : getMidPrice s env.nowMid = (mid, true)) (hpos : 0 < mid) :
    step s env =
      if (calculateTargetPrice s env.params mid s.currentSide).1.2 = false then
        ⟨quoteState s env, none, quoteTrace s env⟩
      else
        match s.openOrder with
        | some o =>
          if priceChanged mid s.lastMidPrice = true then
            stepPlace (cancelAll (quoteState s env) env.cancel).state env.place s.currentSide mid
              (calculateTargetPrice s env.params mid s.currentSide).1.1
              (stepRefresh s env).state.positionSize
              (quoteTrace s env ++ [.cancelAll (cancelAllOrders env.cancel).isNone])
          else if env.nowTimeout - o.PlacedAt > s.cfg.OrderTimeout then
            ⟨evaluatePostCycle (refreshAccount (cancelAll (quoteState s env) env.cancel).state
                env.parseFloat env.accountAfterCancel env.nowAccountAfterCancel).state mid,
              none,
              quoteTrace s env ++
                [.cancelAll (cancelAllOrders env.cancel).isNone, .accountQuery, .evaluate]⟩
          else ⟨quoteState s env, none, quoteTrace s env⟩
        | none =>
          stepPlace (quoteState s env) env.place s.currentSide mid
            (calculateTargetPrice s env.params mid s.currentSide).1.1
            (stepRefresh s env).state.positionSize (quoteTrace s env) := by
  obtain ⟨ho, hs, hl, hc, -, hp, hpl⟩ := stepRefresh_frame s env
  obtain ⟨-, -, -, hc2, -, -, -⟩ := loadAvellaneda_frame (stepRefresh s env).state env.params
  have hfst := calculateTargetPrice_fst_congr s (stepRefresh s env).state env.params mid
    s.currentSide hp hpl hc
  have hreads := (loadAvellaneda_congr s (stepRefresh s env).state env.params hp hpl hc).2
  unfold step
  simp only [hmid, hs, hl, ho, hfst, calculateTargetPrice_snd, cancelAll_trace,
    refreshAccount_trace, hreads, hc2, hc]
  have hn : ¬ mid ≤ 0 := not_le.mpr hpos
  simp only [hn, or_false, Bool.true_eq_false, if_false]
  unfold quoteState quoteTrace
  split_ifs <;> first | rfl | (cases s.openOrder <;> simp [List.append_assoc])


theorem stepPlace_spec (s : Strategy) (env : PlaceEnv) (side : String) (mid targetPrice pos : ℚ)
    (pre : List Action) :
    ∃ post, (stepPlace s env side mid targetPrice pos pre).trace = pre ++ post ∧
      (∀ a ∈ post, a = Action.placeOrder s.openOrder ∨ ∃ req ok, a = Action.submit req ok) ∧
      (Action.placeOrder s.openOrder ∈ post ↔ 0 < determineBaseAmount s side mid pos) ∧
      (((∀ req, Action.submit req true ∉ post) ∧
          (stepPlace s env side mid targetPrice pos pre).state = s) ∨
        ∃ req placed, Action.submit req true ∈ post ∧
          (stepPlace s env side mid targetPrice pos pre).err = none ∧
          (stepPlace s env side mid targetPrice pos pre).state =
            { s with openOrder := some placed, lastMidPrice := mid,
                     lastOrderBase := determineBaseAmount s side mid pos } ∧
          placed.PlacedAt = env.nowPlaced ∧
          placed.Price = (⌊targetPrice / s.market.PriceTick⌋ : ℤ) * s.market.PriceTick ∧
          placed.ID = req.ClientOrderIndex) := by
  unfold stepPlace
  by_cases hb : determineBaseAmount s side mid pos ≤ 0
  · refine ⟨[], ?_⟩
    simp [hb, not_lt.mpr hb]
  · have hb' : 0 < determineBaseAmount s side mid pos := not_le.mp hb
    simp only [hb, if_false]
    unfold placeOrder
    by_cases hsz : ⌊determineBaseAmount s side mid pos / s.market.SizeTick⌋ < 1
    · refine ⟨[.placeOrder s.openOrder], ?_⟩
      simp [hsz, hb']
    · simp only [hsz, if_false]
      rcases hsign : env.tx.signErr with _ | e
      · rcases hsend : env.tx.sendErr with _ | e
        · refine ⟨[.placeOrder s.openOrder, .submit (orderRequest s env side targetPrice
            (determineBaseAmount s side mid pos) (decide (side = "sell"))) true], ?_⟩
          simp [hb', orderRecord]
        · refine ⟨[.placeOrder s.openOrder, .submit (orderRequest s env side targetPrice
            (determineBaseAmount s side mid pos) (decide (side = "sell"))) false], ?_⟩
          simp [hb']
      · refine ⟨[.placeOrder s.openOrder], ?_⟩
        simp [hb']

theorem quoteState_frame (s : Strategy) (env : StepEnv) :
    (quoteState s env).openOrder = s.openOrder ∧
    (quoteState s env).currentSide = s.currentSide ∧
    (quoteState s env).lastMidPrice = s.lastMidPrice ∧
    (quoteState s env).cfg = s.cfg ∧
    (quoteState s env).market = s.market ∧
    (quoteState s env).positionSize = (stepRefresh s env).state.positionSize ∧
    (quoteState s env).availableCapital = (stepRefresh s env).state.availableCapital := by
  obtain ⟨h1, h2, h3, h4, h5, -, -⟩ := stepRefresh_frame s env
  obtain ⟨k1, k2, k3, k4, k5, k6, k7⟩ := loadAvellaneda_frame (stepRefresh s env).state env.params
  unfold quoteState
  exact ⟨k1.trans h1, k2.trans h2, k3.trans h3, k4.trans h4, k5.trans h5, k6, k7⟩

theorem quoteTrace_mem (s : Strategy) (env : StepEnv) :
    ∀ a ∈ quoteTrace s env, a = Action.accountQuery ∨ ∃ p, a = Action.readFile p := by
  intro a ha
  unfold quoteTrace at ha
  rw [List.mem_append, stepRefresh_trace] at ha
  rcases ha with h | h
  · split_ifs at h
    · left
      simpa using h
    · simp at h
  · exact Or.inr (loadAvellaneda_reads s env.params a h)

theorem step_stale (s : Strategy) (env : StepEnv)
    (h : (getMidPrice s env.nowMid).2 = false ∨ (getMidPrice s env.nowMid).1 ≤ 0) :
    step s env = ⟨s, some "stale mid price", []⟩ := by
  unfold step
  simp only [h, if_true]

theorem not_priceChanged (mid lastMid : ℚ) (h : ¬ |mid - lastMid| / lastMid > 1 / 1000) :
    priceChanged mid lastMid = false := by
  cases hpc : priceChanged mid lastMid with
  | false => rfl
  | true => exact absurd ((priceChanged_iff mid lastMid).1 hpc) h

theorem step_price_move (s : Strategy) (env : StepEnv) (mid : ℚ) (o : OrderState)
    (hmid : getMidPrice s env.nowMid = (mid, true)) (hpos : 0 < mid)
    (hprice : (calculateTargetPrice s env.params mid s.currentSide).1.2 = true)
    (horder : s.openOrder = some o)
    (hmove : |mid - s.lastMidPrice| / s.lastMidPrice > 1 / 1000) :
    step s env =
      stepPlace (cancelAll (quoteState s env) env.cancel).state env.place s.currentSide mid
        (calculateTargetPrice s env.params mid s.currentSide).1.1
        (stepRefresh s env).state.positionSize
        (quoteTrace s env ++ [.cancelAll (cancelAllOrders env.cancel).isNone]) := by
  have hpc := (priceChanged_iff mid s.lastMidPrice).2 hmove
  rw [step_fresh s env mid hmid hpos]
  simp only [hprice, horder, hpc, Bool.true_eq_false, if_false, if_true]

theorem step_timeout (s : Strategy) (env : StepEnv) (mid : ℚ) (o : OrderState)
    (hmid : getMidPrice s env.nowMid = (mid, true)) (hpos : 0 < mid)
    (hprice : (calculateTargetPrice s env.params mid s.currentSide).1.2 = true)
    (horder : s.openOrder = some o)
    (hcalm : ¬ |mid - s.lastMidPrice| / s.lastMidPrice > 1 / 1000)
    (hold : env.nowTimeout - o.PlacedAt > s.cfg.OrderTimeout) :
    step s env =
      ⟨evaluatePostCycle (refreshAccount (cancelAll (quoteState s env) env.cancel).state
          env.parseFloat env.accountAfterCancel env.nowAccountAfterCancel).state mid,
        none,
        quoteTrace s env ++
          [.cancelAll (cancelAllOrders env.cancel).isNone, .accountQuery, .evaluate]⟩ := by
  have hpc := not_priceChanged mid s.lastMidPrice hcalm
  rw [step_fresh s env mid hmid hpos]
  simp only [hprice, horder, hpc, hold, Bool.true_eq_false, Bool.false_eq_true, if_false,
    if_true]

theorem step_unpriced (s : Strategy) (env : StepEnv) (mid : ℚ)
    (hmid : getMidPrice s env.nowMid = (mid, true)) (hpos : 0 < mid)
    (hprice : (calculateTargetPrice s env.params mid s.currentSide).1.2 = false) :
    step s env = ⟨quoteState s env, none, quoteTrace s env⟩ := by
  rw [step_fresh s env mid hmid hpos]
  simp only [hprice, if_true]

theorem step_no_order (s : Strategy) (env : StepEnv) (mid : ℚ)
    (hmid : getMidPrice s env.nowMid = (mid, true)) (hpos : 0 < mid)
    (hprice : (calculateTargetPrice s env.params mid s.currentSide).1.2 = true)
    (horder : s.openOrder = none) :
    step s env =
      stepPlace (quoteState s env) env.place s.currentSide mid
        (calculateTargetPrice s env.params mid s.currentSide).1.1
        (stepRefresh s env).state.positionSize (quoteTrace s env) := by
  rw [step_fresh s env mid hmid hpos]
  simp only [hprice, horder, Bool.true_eq_false, if_false]

theorem determineBaseAmount_congr (s s' : Strategy) (side : String) (mid pos : ℚ)
    (hc : s'.cfg = s.cfg) (hm : s'.market = s.market)
    (ha : s'.availableCapital = s.availableCapital) :
    determineBaseAmount s' side mid pos = determineBaseAmount s side mid pos := by
  unfold determineBaseAmount
  rw [hc, hm, ha]

theorem evaluatePostCycle_openOrder (s : Strategy) (mid : ℚ) :
    (evaluatePostCycle s mid).openOrder = s.openOrder := by
  unfold evaluatePostCycle
  simp only
  split_ifs <;> rfl

theorem mem_quote_cancel_append (s : Strategy) (env : StepEnv) (b : Bool) (post : List Action)
    (a : Action) (hne : ∀ ok, a ≠ Action.cancelAll ok) (hq : a ≠ Action.accountQuery)
    (hr : ∀ p, a ≠ Action.readFile p) :
    a ∈ (quoteTrace s env ++ [Action.cancelAll b]) ++ post ↔ a ∈ post := by
  constructor
  · intro h
    rcases List.mem_append.1 h with h | h
    · rcases List.mem_append.1 h with h | h
      · rcases quoteTrace_mem s env a h with h | ⟨p, h⟩
        · exact absurd h hq
        · exact absurd h (hr p)
      · rw [List.mem_singleton] at h
        exact absurd h (hne b)
    · exact h
  · intro h
    exact List.mem_append.2 (Or.inr h)

/-! ## The sample ticks, evaluated -/

theorem step_exHeld_exEnvCancelFails :
    step exHeld exEnvCancelFails =
      ⟨{ exHeld with openOrder := some exNewOrder, lastMidPrice := 101, lastOrderBase := 1 },
        none,
        [.readFile "params/avellaneda_parameters_PAXG.json", .cancelAll false,
          .placeOrder (some exOrder), .submit exRequest true]⟩ := by
  norm_num [step, getMidPrice, exHeld, exEnv, exEnvCancelFails, exConfig, exMarket, exRequest,
    exNewOrder, Second, Minute, stepRefresh, priceChanged, calculateTargetPrice, loadAvellaneda,
    loadFromCandidates, scanCandidates, cancelAll, cancelAllOrders, stepPlace,
    determineBaseAmount, placeOrder, orderRequest, orderRecord, nextOrderID, boolToUint8,
    buy_ne_sell]

theorem step_exHeld_exEnv :
    step exHeld exEnv =
      ⟨{ exHeld with openOrder := some exNewOrder, lastMidPrice := 101, lastOrderBase := 1 },
        none,
        [.readFile "params/avellaneda_parameters_PAXG.json", .cancelAll true,
          .placeOrder none, .submit exRequest true]⟩ := by
  norm_num [step, getMidPrice, exHeld, exEnv, exConfig, exMarket, exRequest,
    exNewOrder, Second, Minute, stepRefresh, priceChanged, calculateTargetPrice, loadAvellaneda,
    loadFromCandidates, scanCandidates, cancelAll, cancelAllOrders, stepPlace,
    determineBaseAmount, placeOrder, orderRequest, orderRecord, nextOrderID, boolToUint8,
    buy_ne_sell]

theorem step_exIdle_exEnv :
    step exIdle exEnv =
      ⟨{ exIdle with openOrder := some exNewOrder, lastMidPrice := 101, lastOrderBase := 1 },
        none,
        [.readFile "params/avellaneda_parameters_PAXG.json",
          .placeOrder none, .submit exRequest true]⟩ := by
  norm_num [step, getMidPrice, exIdle, exHeld, exEnv, exConfig, exMarket, exRequest,
    exNewOrder, Second, Minute, stepRefresh, priceChanged, calculateTargetPrice, loadAvellaneda,
    loadFromCandidates, scanCandidates, cancelAll, cancelAllOrders, stepPlace,
    determineBaseAmount, placeOrder, orderRequest, orderRecord, nextOrderID, boolToUint8,
    buy_ne_sell]

theorem step_exHeldStrict_exEnv :
    step exHeldStrict exEnv =
      ⟨exHeldStrict, none, [.readFile "params/avellaneda_parameters_PAXG.json"]⟩ := by
  norm_num [step, getMidPrice, exHeldStrict, exHeld, exEnv, exConfig, exStrictConfig, exMarket,
    Second, Minute, stepRefresh, priceChanged, calculateTargetPrice, loadAvellaneda,
    loadFromCandidates, scanCandidates]

theorem step_exAgedStrict_exEnv :
    step exAgedStrict exEnv =
      ⟨exAgedStrict, none, [.readFile "params/avellaneda_parameters_PAXG.json"]⟩ := by
  norm_num [step, getMidPrice, exAgedStrict, exAged, exCalm, exHeld, exEnv, exConfig,
    exStrictConfig, exMarket,
    Second, Minute, stepRefresh, priceChanged, calculateTargetPrice, loadAvellaneda,
    loadFromCandidates, scanCandidates]

/-! ## Facts about the sample inputs -/

theorem getMidPrice_exHeld : getMidPrice exHeld exEnv.nowMid = (101, true) := by
  norm_num [getMidPrice, exHeld, exEnv, Second]

theorem getMidPrice_exHeldStrict : getMidPrice exHeldStrict exEnv.nowMid = (101, true) := by
  norm_num [getMidPrice, exHeldStrict, exHeld, exEnv, Second]

theorem getMidPrice_exIdle : getMidPrice exIdle exEnv.nowMid = (101, true) := by
  norm_num [getMidPrice, exIdle, exHeld, exEnv, Second]

theorem getMidPrice_exCalm : getMidPrice exCalm exEnv.nowMid = (100, true) := by
  norm_num [getMidPrice, exCalm, exHeld, exEnv, Second]

theorem getMidPrice_exAged : getMidPrice exAged exEnv.nowMid = (100, true) := by
  norm_num [getMidPrice, exAged, exCalm, exHeld, exEnv, Second]

theorem getMidPrice_exAgedStrict : getMidPrice exAgedStrict exEnv.nowMid = (100, true) := by
  norm_num [getMidPrice, exAgedStrict, exAged, exCalm, exHeld, exEnv, Second]

theorem getMidPrice_exStale : (getMidPrice exStale exEnv.nowMid).2 = false := by
  norm_num [getMidPrice, exStale, exHeld, exEnv, Second]

theorem calculateTargetPrice_exHeld :
    (calculateTargetPrice exHeld exEnv.params 101 exHeld.currentSide).1 = (9999 / 100, true) := by
  norm_num [calculateTargetPrice, loadAvellaneda, loadFromCandidates, scanCandidates, exHeld,
    exEnv, exConfig]

theorem calculateTargetPrice_exIdle :
    (calculateTargetPrice exIdle exEnv.params 101 exIdle.currentSide).1 = (9999 / 100, true) := by
  norm_num [calculateTargetPrice, loadAvellaneda, loadFromCandidates, scanCandidates, exIdle,
    exHeld, exEnv, exConfig]

theorem calculateTargetPrice_exAged :
    (calculateTargetPrice exAged exEnv.params 100 exAged.currentSide).1 = (99, true) := by
  norm_num [calculateTargetPrice, loadAvellaneda, loadFromCandidates, scanCandidates, exAged,
    exCalm, exHeld, exEnv, exConfig]

theorem exHeld_moved : |(101 : ℚ) - exHeld.lastMidPrice| / exHeld.lastMidPrice > 1 / 1000 := by
  norm_num [exHeld]

theorem exAged_calm : ¬ |(100 : ℚ) - exAged.lastMidPrice| / exAged.lastMidPrice > 1 / 1000 := by
  norm_num [exAged, exCalm, exHeld]

theorem exAged_timed_out : exEnv.nowTimeout - exOldOrder.PlacedAt > exAged.cfg.OrderTimeout := by
  norm_num [exEnv, exOldOrder, exOrder, exAged, exCalm, exHeld, exConfig, Second]

/-- Whenever `step` enters `placeOrder` while an order is still tracked, a
cancel-all of the same tick has failed. -/
theorem step_placeOrder_tracked_only_after_failed_cancel (s : Strategy) (env : StepEnv)
    (t : Option OrderState) (hin : Action.placeOrder t ∈ (step s env).trace) :
    t = none ∨ Action.cancelAll false ∈ (step s env).trace := by
  by_cases hfresh : (getMidPrice s env.nowMid).2 = false ∨ (getMidPrice s env.nowMid).1 ≤ 0
  · rw [step_stale s env hfresh] at hin
    simp at hin
  · have hf : (getMidPrice s env.nowMid).2 = true := by
      cases h : (getMidPrice s env.nowMid).2 with
      | true => rfl
      | false => exact absurd (Or.inl h) hfresh
    have hpos : 0 < (getMidPrice s env.nowMid).1 :=
      not_le.mp (fun h => hfresh (Or.inr h))
    have hmid : getMidPrice s env.nowMid = ((getMidPrice s env.nowMid).1, true) :=
      Prod.ext rfl hf
    obtain ⟨q1, -, -, -, -, -, -⟩ := quoteState_frame s env
    cases hprice : (calculateTargetPrice s env.params (getMidPrice s env.nowMid).1
        s.currentSide).1.2 with
    | false =>
      rw [step_unpriced s env _ hmid hpos hprice] at hin
      rcases quoteTrace_mem s env _ hin with h | ⟨p, h⟩ <;> cases h
    | true =>
      cases horder : s.openOrder with
      | none =>
        rw [step_no_order s env _ hmid hpos hprice horder] at hin
        obtain ⟨post, htr, hpost, -, -⟩ :=
          stepPlace_spec (quoteState s env) env.place s.currentSide (getMidPrice s env.nowMid).1
            (calculateTargetPrice s env.params (getMidPrice s env.nowMid).1 s.currentSide).1.1
            (stepRefresh s env).state.positionSize (quoteTrace s env)
        rw [htr] at hin
        rcases List.mem_append.1 hin with h | h
        · rcases quoteTrace_mem s env _ h with h | ⟨p, h⟩ <;> cases h
        · rcases hpost _ h with h | ⟨req, ok, h⟩
          · rw [q1, horder] at h
            exact Or.inl (Action.placeOrder.inj h)
          · cases h
      | some o =>
        by_cases hmove : |(getMidPrice s env.nowMid).1 - s.lastMidPrice| / s.lastMidPrice
            > 1 / 1000
        · rw [step_price_move s env _ o hmid hpos hprice horder hmove] at hin ⊢
          obtain ⟨post, htr, hpost, -, -⟩ :=
            stepPlace_spec (cancelAll (quoteState s env) env.cancel).state env.place
              s.currentSide (getMidPrice s env.nowMid).1
              (calculateTargetPrice s env.params (getMidPrice s env.nowMid).1
                s.currentSide).1.1
              (stepRefresh s env).state.positionSize
              (quoteTrace s env ++ [.cancelAll (cancelAllOrders env.cancel).isNone])
          rw [htr] at hin ⊢
          have hpostin := (mem_quote_cancel_append s env _ post _ (fun _ h => by cases h)
            (fun h => by cases h) (fun _ h => by cases h)).1 hin
          rcases hpost _ hpostin with h | ⟨req, ok, h⟩
          · have ht := Action.placeOrder.inj h
            rw [cancelAll_openOrder] at ht
            cases hc : cancelAllOrders env.cancel with
            | none =>
              rw [hc] at ht
              exact Or.inl ht
            | some e =>
              right
              simp
          · cases h
        · by_cases hold : env.nowTimeout - o.PlacedAt > s.cfg.OrderTimeout
          · rw [step_timeout s env _ o hmid hpos hprice horder hmove hold] at hin
            rcases List.mem_append.1 hin with h | h
            · rcases quoteTrace_mem s env _ h with h | ⟨p, h⟩ <;> cases h
            · simp at h
          · have hstep : step s env = ⟨quoteState s env, none, quoteTrace s env⟩ := by
              rw [step_fresh s env _ hmid hpos]
              simp only [hprice, horder, not_priceChanged _ _ hmove, hold, Bool.false_eq_true,
                Bool.true_eq_false, if_false]
            rw [hstep] at hin
            rcases quoteTrace_mem s env _ hin with h | ⟨p, h⟩ <;> cases h

/-! ## The claims -/

/-- C1, evaluated where the code departs from it: `exHeld` tracks `exOrder`
and its mid price has moved by 1%; on the tick `exEnvCancelFails` the
cancel-all is rejected, and `step` nevertheless enters `placeOrder` while
`exOrder` is still tracked, submits a second order and tracks that one
instead. -/
theorem step_places_while_order_tracked :
    exHeld.openOrder = some exOrder ∧
    (step exHeld exEnvCancelFails).trace =
      [Action.readFile "params/avellaneda_parameters_PAXG.json", Action.cancelAll false,
        Action.placeOrder (some exOrder), Action.submit exRequest true] ∧
    (step exHeld exEnvCancelFails).state.openOrder = some exNewOrder := by
  rw [step_exHeld_exEnvCancelFails]
  exact ⟨rfl, rfl, rfl⟩

/-- C2 as stated fails: under `REQUIRE_PARAMS` with no readable parameter
file, a fresh mid price that moved by 1% away from the reference of the
tracked order leads to no cancel-all at all, and the order stays tracked. -/
theorem step_price_move_unpriced_does_not_cancel :
    getMidPrice exHeldStrict exEnv.nowMid = (101, true) ∧
    exHeldStrict.openOrder = some exOrder ∧
    |(101 : ℚ) - exHeldStrict.lastMidPrice| / exHeldStrict.lastMidPrice > 1 / 1000 ∧
    (∀ ok, Action.cancelAll ok ∉ (step exHeldStrict exEnv).trace) ∧
    (step exHeldStrict exEnv).state.openOrder = some exOrder := by
  rw [step_exHeldStrict_exEnv]
  refine ⟨getMidPrice_exHeldStrict, rfl, ?_, ?_, rfl⟩
  · norm_num [exHeldStrict, exHeld]
  · intro ok h
    simp at h

/-- C2, amended: on a tick whose mid price is fresh and positive, with
pricing available, an order tracked and
`|mid - reference| / reference > 0.001`, `step` issues exactly one
cancel-all (preceded only by account queries and parameter-file reads,
followed only by the placement of a replacement), and the quoting side is
unchanged. When that cancel-all succeeds the tracked order is cleared:
`placeOrder` is entered with no order tracked, and the tick ends with no
order tracked exactly when no replacement is submitted successfully. -/
theorem step_price_move_cancels (s : Strategy) (env : StepEnv) (mid : ℚ) (o : OrderState)
    (hmid : getMidPrice s env.nowMid = (mid, true)) (hpos : 0 < mid)
    (hprice : (calculateTargetPrice s env.params mid s.currentSide).1.2 = true)
    (horder : s.openOrder = some o)
    (hmove : |mid - s.lastMidPrice| / s.lastMidPrice > 1 / 1000) :
    (∃ pre post,
      (step s env).trace =
        pre ++ Action.cancelAll (cancelAllOrders env.cancel).isNone :: post ∧
      (∀ a ∈ pre, a = Action.accountQuery ∨ ∃ p, a = Action.readFile p) ∧
      (∀ a ∈ post, (∃ t, a = Action.placeOrder t) ∨ ∃ req ok, a = Action.submit req ok) ∧
      (cancelAllOrders env.cancel = none →
        (∀ t, Action.placeOrder t ∈ post → t = none) ∧
        ((step s env).state.openOrder = none ↔ ∀ req, Action.submit req true ∉ post))) ∧
    (step s env).state.currentSide = s.currentSide := by
  rw [step_price_move s env mid o hmid hpos hprice horder hmove]
  obtain ⟨q1, q2, -, -, -, -, -⟩ := quoteState_frame s env
  obtain ⟨c2, -, -, -, -, -⟩ := cancelAll_frame (quoteState s env) env.cancel
  have c1 := cancelAll_openOrder (quoteState s env) env.cancel
  obtain ⟨post, htr, hpost, -, hfin⟩ :=
    stepPlace_spec (cancelAll (quoteState s env) env.cancel).state env.place s.currentSide mid
      (calculateTargetPrice s env.params mid s.currentSide).1.1
      (stepRefresh s env).state.positionSize
      (quoteTrace s env ++ [.cancelAll (cancelAllOrders env.cancel).isNone])
  refine ⟨⟨quoteTrace s env, post, ?_, quoteTrace_mem s env, ?_, ?_⟩, ?_⟩
  · rw [htr, List.append_assoc, List.singleton_append]
  · intro a ha
    rcases hpost a ha with h | h
    · exact Or.inl ⟨_, h⟩
    · exact Or.inr h
  · intro hok
    have hnone : (cancelAll (quoteState s env) env.cancel).state.openOrder = none := by
      rw [c1, hok]
      rfl
    refine ⟨?_, ?_⟩
    · intro t ht
      rcases hpost _ ht with h | ⟨req, ok, h⟩
      · rw [hnone] at h
        exact Action.placeOrder.inj h
      · cases h
    · rcases hfin with ⟨hno, hst⟩ | ⟨req, placed, hsub, -, hst, -⟩
      · rw [hst, hnone]
        exact ⟨fun _ => hno, fun _ => rfl⟩
      · rw [hst]
        constructor
        · intro h
          cases h
        · intro h
          exact absurd hsub (h req)
  · rcases hfin with ⟨-, hst⟩ | ⟨req, placed, -, -, hst, -⟩
    · rw [hst, c2, q2]
    · rw [hst]
      exact c2.trans q2

/-- C2, amended, at the sample state `exHeld` on the tick `exEnv`. -/
theorem step_price_move_cancels_witness :
    getMidPrice exHeld exEnv.nowMid = (101, true) ∧
    (calculateTargetPrice exHeld exEnv.params 101 exHeld.currentSide).1.2 = true ∧
    exHeld.openOrder = some exOrder ∧
    |(101 : ℚ) - exHeld.lastMidPrice| / exHeld.lastMidPrice > 1 / 1000 ∧
    (∃ pre post,
      (step exHeld exEnv).trace =
        pre ++ Action.cancelAll (cancelAllOrders exEnv.cancel).isNone :: post ∧
      (∀ a ∈ pre, a = Action.accountQuery ∨ ∃ p, a = Action.readFile p) ∧
      (∀ a ∈ post, (∃ t, a = Action.placeOrder t) ∨ ∃ req ok, a = Action.submit req ok) ∧
      (cancelAllOrders exEnv.cancel = none →
        (∀ t, Action.placeOrder t ∈ post → t = none) ∧
        ((step exHeld exEnv).state.openOrder = none ↔
          ∀ req, Action.submit req true ∉ post))) ∧
    (step exHeld exEnv).state.currentSide = exHeld.currentSide := by
  have hprice := congrArg Prod.snd calculateTargetPrice_exHeld
  have h := step_price_move_cancels exHeld exEnv 101 exOrder getMidPrice_exHeld (by norm_num)
    hprice rfl exHeld_moved
  exact ⟨getMidPrice_exHeld, hprice, rfl, exHeld_moved, h.1, h.2⟩

/-- C3 as stated fails: on the tick `exEnv` the reference of the tracked
order of `exHeld` has moved by 1%; `step` cancels, enters `placeOrder`,
submits a replacement in the same tick and ends the tick tracking it. -/
theorem step_price_move_replaces_in_same_tick :
    getMidPrice exHeld exEnv.nowMid = (101, true) ∧
    exHeld.openOrder = some exOrder ∧
    |(101 : ℚ) - exHeld.lastMidPrice| / exHeld.lastMidPrice > 1 / 1000 ∧
    Action.cancelAll true ∈ (step exHeld exEnv).trace ∧
    Action.placeOrder none ∈ (step exHeld exEnv).trace ∧
    Action.submit exRequest true ∈ (step exHeld exEnv).trace ∧
    (step exHeld exEnv).state.openOrder = some exNewOrder := by
  rw [step_exHeld_exEnv]
  refine ⟨getMidPrice_exHeld, rfl, exHeld_moved, ?_, ?_, ?_, rfl⟩ <;> simp

/-- C3, amended: on a tick whose mid price is fresh and positive, with
pricing available, the reference price of the tracked order moved by more
than 0.1% and the cancel-all accepted, `step` re-quotes in the same tick: it
enters `placeOrder` exactly when the size computed after the cancel-all is
positive, and the tick ends with no order tracked exactly when no
replacement was submitted successfully. -/
theorem step_price_move_requotes (s : Strategy) (env : StepEnv) (mid : ℚ) (o : OrderState)
    (hmid : getMidPrice s env.nowMid = (mid, true)) (hpos : 0 < mid)
    (hprice : (calculateTargetPrice s env.params mid s.currentSide).1.2 = true)
    (horder : s.openOrder = some o)
    (hmove : |mid - s.lastMidPrice| / s.lastMidPrice > 1 / 1000)
    (hcancel : cancelAllOrders env.cancel = none) :
    Action.cancelAll true ∈ (step s env).trace ∧
    ((∃ t, Action.placeOrder t ∈ (step s env).trace) ↔
      0 < determineBaseAmount (stepRefresh s env).state s.currentSide mid
        (stepRefresh s env).state.positionSize) ∧
    ((step s env).state.openOrder = none ↔
      ∀ req, Action.submit req true ∉ (step s env).trace) := by
  rw [step_price_move s env mid o hmid hpos hprice horder hmove]
  obtain ⟨-, -, -, q4, q5, -, q7⟩ := quoteState_frame s env
  obtain ⟨-, -, -, r4, r5, -, -⟩ := stepRefresh_frame s env
  obtain ⟨-, -, c3, c4, -, c6⟩ := cancelAll_frame (quoteState s env) env.cancel
  have c1 := cancelAll_openOrder (quoteState s env) env.cancel
  have hsize := determineBaseAmount_congr (stepRefresh s env).state
    (cancelAll (quoteState s env) env.cancel).state s.currentSide mid
    (stepRefresh s env).state.positionSize (c3.trans (q4.trans r4.symm))
    (c4.trans (q5.trans r5.symm)) (c6.trans q7)
  obtain ⟨post, htr, hpost, hentry, hfin⟩ :=
    stepPlace_spec (cancelAll (quoteState s env) env.cancel).state env.place s.currentSide mid
      (calculateTargetPrice s env.params mid s.currentSide).1.1
      (stepRefresh s env).state.positionSize
      (quoteTrace s env ++ [.cancelAll (cancelAllOrders env.cancel).isNone])
  rw [htr]
  have hsubmit : ∀ req, Action.submit req true ∈
      (quoteTrace s env ++ [.cancelAll (cancelAllOrders env.cancel).isNone]) ++ post ↔
      Action.submit req true ∈ post := fun req =>
    mem_quote_cancel_append s env _ post _ (fun _ h => by cases h) (fun h => by cases h)
      (fun _ h => by cases h)
  have hplace : ∀ t, Action.placeOrder t ∈
      (quoteTrace s env ++ [.cancelAll (cancelAllOrders env.cancel).isNone]) ++ post ↔
      Action.placeOrder t ∈ post := fun t =>
    mem_quote_cancel_append s env _ post _ (fun _ h => by cases h) (fun h => by cases h)
      (fun _ h => by cases h)
  simp only [hsubmit, hplace]
  rw [← hsize]
  refine ⟨?_, ?_, ?_⟩
  · rw [hcancel]
    simp
  · constructor
    · rintro ⟨t, ht⟩
      rcases hpost _ ht with h | ⟨req, ok, h⟩
      · rw [h] at ht
        exact hentry.1 ht
      · cases h
    · intro h
      exact ⟨_, hentry.2 h⟩
  · rcases hfin with ⟨hno, hst⟩ | ⟨req, placed, hsub, -, hst, -⟩
    · rw [hst, c1, hcancel]
      simpa using hno
    · rw [hst]
      constructor
      · intro h
        cases h
      · intro h
        exact absurd hsub (h req)

/-- C3, amended, at the sample state `exHeld` on the tick `exEnv`. -/
theorem step_price_move_requotes_witness :
    getMidPrice exHeld exEnv.nowMid = (101, true) ∧
    (calculateTargetPrice exHeld exEnv.params 101 exHeld.currentSide).1.2 = true ∧
    exHeld.openOrder = some exOrder ∧
    |(101 : ℚ) - exHeld.lastMidPrice| / exHeld.lastMidPrice > 1 / 1000 ∧
    cancelAllOrders exEnv.cancel = none ∧
    Action.cancelAll true ∈ (step exHeld exEnv).trace ∧
    ((∃ t, Action.placeOrder t ∈ (step exHeld exEnv).trace) ↔
      0 < determineBaseAmount (stepRefresh exHeld exEnv).state exHeld.currentSide 101
        (stepRefresh exHeld exEnv).state.positionSize) ∧
    ((step exHeld exEnv).state.openOrder = none ↔
      ∀ req, Action.submit req true ∉ (step exHeld exEnv).trace) := by
  have hprice := congrArg Prod.snd calculateTargetPrice_exHeld
  have h := step_price_move_requotes exHeld exEnv 101 exOrder getMidPrice_exHeld (by norm_num)
    hprice rfl exHeld_moved rfl
  exact ⟨getMidPrice_exHeld, hprice, rfl, exHeld_moved, rfl, h.1, h.2.1, h.2.2⟩

/-- C4 as stated fails: under `REQUIRE_PARAMS` with no readable parameter
file, a fresh mid price, a tracked order whose reference has not moved and
whose age of 110 s exceeds the timeout of 90 s lead to no cancel-all, no
account refresh and no side evaluation; the order stays tracked. -/
theorem step_timeout_unpriced_does_nothing :
    getMidPrice exAgedStrict exEnv.nowMid = (100, true) ∧
    exAgedStrict.openOrder = some exOldOrder ∧
    ¬ |(100 : ℚ) - exAgedStrict.lastMidPrice| / exAgedStrict.lastMidPrice > 1 / 1000 ∧
    exEnv.nowTimeout - exOldOrder.PlacedAt > exAgedStrict.cfg.OrderTimeout ∧
    (step exAgedStrict exEnv).trace =
      [Action.readFile "params/avellaneda_parameters_PAXG.json"] ∧
    (step exAgedStrict exEnv).state.openOrder = some exOldOrder := by
  rw [step_exAgedStrict_exEnv]
  refine ⟨getMidPrice_exAgedStrict, rfl, ?_, ?_, rfl, rfl⟩
  · norm_num [exAgedStrict, exAged, exCalm, exHeld]
  · norm_num [exEnv, exOldOrder, exOrder, exAgedStrict, exAged, exCalm, exHeld, exStrictConfig,
      exConfig, Second]

/-- C4, amended: on a tick whose mid price is fresh and positive, with
pricing available, an order tracked, no price move and
`now - placed_at > order_timeout`, the actions of `step` are: the account
query of the interval-driven refresh when it is due, the parameter-file
reads of the pricing step, and then exactly one cancel-all, one account
query and one post-cycle side evaluation, in this order; the state is the
one `evaluatePostCycle` returns on the state refreshed after the cancel-all;
`step` returns no error and does not enter `placeOrder`; and when the
cancel-all succeeds no order is tracked after the tick. -/
theorem step_timeout_cancels_refreshes_evaluates (s : Strategy) (env : StepEnv) (mid : ℚ)
    (o : OrderState)
    (hmid : getMidPrice s env.nowMid = (mid, true)) (hpos : 0 < mid)
    (hprice : (calculateTargetPrice s env.params mid s.currentSide).1.2 = true)
    (horder : s.openOrder = some o)
    (hcalm : ¬ |mid - s.lastMidPrice| / s.lastMidPrice > 1 / 1000)
    (hold : env.nowTimeout - o.PlacedAt > s.cfg.OrderTimeout) :
    (step s env).trace =
      (if env.nowAccountCheck - s.lastAccountFetch > s.cfg.AccountRefresh
        then [Action.accountQuery] else []) ++
      (loadAvellaneda s env.params).2.2 ++
      [Action.cancelAll (cancelAllOrders env.cancel).isNone, Action.accountQuery,
        Action.evaluate] ∧
    (∀ a ∈ (loadAvellaneda s env.params).2.2, ∃ p, a = Action.readFile p) ∧
    (step s env).state =
      evaluatePostCycle (refreshAccount (cancelAll (quoteState s env) env.cancel).state
        env.parseFloat env.accountAfterCancel env.nowAccountAfterCancel).state mid ∧
    (step s env).err = none ∧
    (cancelAllOrders env.cancel = none → (step s env).state.openOrder = none) := by
  rw [step_timeout s env mid o hmid hpos hprice horder hcalm hold]
  refine ⟨?_, loadAvellaneda_reads s env.params, rfl, rfl, ?_⟩
  · simp only [quoteTrace, stepRefresh_trace]
  · intro hok
    simp only
    rw [evaluatePostCycle_openOrder, (refreshAccount_frame _ _ _ _).1, cancelAll_openOrder, hok]
    rfl

/-- C4, amended, at the sample state `exAged` on the tick `exEnv`. -/
theorem step_timeout_cancels_refreshes_evaluates_witness :
    getMidPrice exAged exEnv.nowMid = (100, true) ∧
    (calculateTargetPrice exAged exEnv.params 100 exAged.currentSide).1.2 = true ∧
    exAged.openOrder = some exOldOrder ∧
    ¬ |(100 : ℚ) - exAged.lastMidPrice| / exAged.lastMidPrice > 1 / 1000 ∧
    exEnv.nowTimeout - exOldOrder.PlacedAt > exAged.cfg.OrderTimeout ∧
    (step exAged exEnv).trace =
      (if exEnv.nowAccountCheck - exAged.lastAccountFetch > exAged.cfg.AccountRefresh
        then [Action.accountQuery] else []) ++
      (loadAvellaneda exAged exEnv.params).2.2 ++
      [Action.cancelAll (cancelAllOrders exEnv.cancel).isNone, Action.accountQuery,
        Action.evaluate] ∧
    (step exAged exEnv).err = none ∧
    (cancelAllOrders exEnv.cancel = none → (step exAged exEnv).state.openOrder = none) := by
  have hprice := congrArg Prod.snd calculateTargetPrice_exAged
  have h := step_timeout_cancels_refreshes_evaluates exAged exEnv 100 exOldOrder
    getMidPrice_exAged (by norm_num) hprice rfl exAged_calm exAged_timed_out
  exact ⟨getMidPrice_exAged, hprice, rfl, exAged_calm, exAged_timed_out, h.1, h.2.2.2.1,
    h.2.2.2.2⟩

/-- C5: when the mid price is not fresh, `step` returns the stale-data
error, performs no action (no submission, no cancel, no account query, no
file read) and leaves the state as it was; and a run in which the feed
reports no fresh mid price at any tick performs no action at all, so it
submits no order. -/
theorem step_stale_skips_cycle :
    (∀ (s : Strategy) (env : StepEnv), (getMidPrice s env.nowMid).2 = false →
      step s env = ⟨s, some "stale mid price", []⟩) ∧
    (∀ (s : Strategy) (events : List Event), staleAtEveryTick s events = true →
      (run s events).2 = []) := by
  refine ⟨fun s env h => step_stale s env (Or.inl h), ?_⟩
  intro s events
  induction events generalizing s with
  | nil => intro _; rfl
  | cons e rest ih =>
    intro h
    cases e with
    | book pf resp now =>
      simp only [staleAtEveryTick] at h
      simp only [run]
      exact ih _ h
    | tick env =>
      simp only [staleAtEveryTick, Bool.and_eq_true, Bool.not_eq_true'] at h
      have hs := step_stale s env (Or.inl h.1)
      simp only [run]
      rw [hs] at h ⊢
      simp only [List.nil_append]
      exact ih _ h.2

/-- C5 at the sample state `exStale`, on the tick `exEnv` and on the run
`exStaleRun`. -/
theorem step_stale_skips_cycle_witness :
    (getMidPrice exStale exEnv.nowMid).2 = false ∧
    step exStale exEnv = ⟨exStale, some "stale mid price", []⟩ ∧
    staleAtEveryTick exStale exStaleRun = true ∧
    (run exStale exStaleRun).2 = [] := by
  have hstep := step_stale_skips_cycle.1 exStale exEnv getMidPrice_exStale
  have hrun : staleAtEveryTick exStale exStaleRun = true := by
    simp only [exStaleRun, staleAtEveryTick, hstep, handleOrderBook, exEmptyPush,
      getMidPrice_exStale]
    rfl
  exact ⟨getMidPrice_exStale, hstep, hrun, step_stale_skips_cycle.2 exStale exStaleRun hrun⟩

/-- C6 as stated fails: from `exIdle` on the tick `exEnv` the order is
submitted and recorded at the price 99.99, while the reference price
recorded for the next price-move test is the mid price 101. -/
theorem step_reference_differs_from_order_price :
    getMidPrice exIdle exEnv.nowMid = (101, true) ∧
    exIdle.openOrder = none ∧
    (calculateTargetPrice exIdle exEnv.params 101 exIdle.currentSide).1 = (9999 / 100, true) ∧
    Action.submit exRequest true ∈ (step exIdle exEnv).trace ∧
    (step exIdle exEnv).err = none ∧
    (step exIdle exEnv).state.openOrder = some exNewOrder ∧
    exNewOrder.Price = 9999 / 100 ∧
    (exRequest.Price : ℚ) * exIdle.market.PriceTick = 9999 / 100 ∧
    (step exIdle exEnv).state.lastMidPrice = 101 ∧
    (step exIdle exEnv).state.lastMidPrice ≠ exNewOrder.Price := by
  rw [step_exIdle_exEnv]
  refine ⟨getMidPrice_exIdle, rfl, calculateTargetPrice_exIdle, ?_, rfl, rfl, rfl, ?_, rfl, ?_⟩
  · simp
  · norm_num [exRequest, exIdle, exHeld, exMarket]
  · norm_num [exNewOrder]

/-- C6, amended: on a tick whose mid price is fresh, with no order tracked,
in which `step` submits an order successfully (so pricing is available and
the computed size is positive), `step` returns no error and leaves an order
tracked whose `PlacedAt` is the time read right after the submission and
whose price is the target price floored to the price tick; the reference
price recorded for the next price-move test (`lastMidPrice`) is the mid
price of this tick. -/
theorem step_place_records_mid_and_time (s : Strategy) (env : StepEnv) (mid : ℚ)
    (req : CreateOrderTxReq)
    (hmid : getMidPrice s env.nowMid = (mid, true))
    (horder : s.openOrder = none)
    (hsubmit : Action.submit req true ∈ (step s env).trace) :
    (step s env).err = none ∧
    (∃ placed, (step s env).state.openOrder = some placed ∧
      placed.PlacedAt = env.place.nowPlaced ∧
      placed.Price =
        (⌊(calculateTargetPrice s env.params mid s.currentSide).1.1 / s.market.PriceTick⌋ : ℤ)
          * s.market.PriceTick) ∧
    (step s env).state.lastMidPrice = mid := by
  by_cases hpos : 0 < mid
  · cases hprice : (calculateTargetPrice s env.params mid s.currentSide).1.2 with
    | false =>
      rw [step_unpriced s env mid hmid hpos hprice] at hsubmit
      rcases quoteTrace_mem s env _ hsubmit with h | ⟨p, h⟩ <;> cases h
    | true =>
      rw [step_no_order s env mid hmid hpos hprice horder] at hsubmit ⊢
      obtain ⟨-, -, -, -, q5, -, -⟩ := quoteState_frame s env
      obtain ⟨post, htr, hpost, -, hfin⟩ :=
        stepPlace_spec (quoteState s env) env.place s.currentSide mid
          (calculateTargetPrice s env.params mid s.currentSide).1.1
          (stepRefresh s env).state.positionSize (quoteTrace s env)
      rw [htr] at hsubmit
      have hin : Action.submit req true ∈ post := by
        rcases List.mem_append.1 hsubmit with h | h
        · rcases quoteTrace_mem s env _ h with h | ⟨p, h⟩ <;> cases h
        · exact h
      rcases hfin with ⟨hno, -⟩ | ⟨req', placed, hsub, herr, hst, hat, hpr, hid⟩
      · exact absurd hin (hno req)
      · refine ⟨herr, ⟨placed, ?_, hat, ?_⟩, ?_⟩
        · rw [hst]
        · rw [hpr, q5]
        · rw [hst]
  · rw [step_stale s env (Or.inr (by rw [hmid]; exact not_lt.mp hpos))] at hsubmit
    simp at hsubmit

/-- C6, amended, at the sample state `exIdle` on the tick `exEnv`. -/
theorem step_place_records_mid_and_time_witness :
    getMidPrice exIdle exEnv.nowMid = (101, true) ∧
    exIdle.openOrder = none ∧
    Action.submit exRequest true ∈ (step exIdle exEnv).trace ∧
    (step exIdle exEnv).err = none ∧
    (∃ placed, (step exIdle exEnv).state.openOrder = some placed ∧
      placed.PlacedAt = exEnv.place.nowPlaced ∧
      placed.Price =
        (⌊(calculateTargetPrice exIdle exEnv.params 101 exIdle.currentSide).1.1 /
            exIdle.market.PriceTick⌋ : ℤ) * exIdle.market.PriceTick) ∧
    (step exIdle exEnv).state.lastMidPrice = 101 := by
  have hsub : Action.submit exRequest true ∈ (step exIdle exEnv).trace := by
    rw [step_exIdle_exEnv]
    simp
  have h := step_place_records_mid_and_time exIdle exEnv 101 exRequest getMidPrice_exIdle rfl
    hsub
  exact ⟨getMidPrice_exIdle, rfl, hsub, h.1, h.2.1, h.2.2⟩

/-- C7: on a tick whose mid price is fresh, with an order tracked whose
reference price has moved by at most 0.1% and whose age is at most
`OrderTimeout`, `step` issues no cancel-all, does not enter `placeOrder` and
submits nothing, and the tracked order, the quoting side and the reference
price are the same after the tick as before it. -/
theorem step_hold_keeps_order (s : Strategy) (env : StepEnv) (mid : ℚ) (o : OrderState)
    (hmid : getMidPrice s env.nowMid = (mid, true))
    (horder : s.openOrder = some o)
    (hcalm : |mid - s.lastMidPrice| / s.lastMidPrice ≤ 1 / 1000)
    (hyoung : env.nowTimeout - o.PlacedAt ≤ s.cfg.OrderTimeout) :
    (∀ ok, Action.cancelAll ok ∉ (step s env).trace) ∧
    (∀ t, Action.placeOrder t ∉ (step s env).trace) ∧
    (∀ req ok, Action.submit req ok ∉ (step s env).trace) ∧
    (step s env).state.openOrder = s.openOrder ∧
    (step s env).state.currentSide = s.currentSide ∧
    (step s env).state.lastMidPrice = s.lastMidPrice := by
  by_cases hpos : 0 < mid
  · have hpc := not_priceChanged mid s.lastMidPrice (not_lt.mpr hcalm)
    have hto : ¬ env.nowTimeout - o.PlacedAt > s.cfg.OrderTimeout := not_lt.mpr hyoung
    obtain ⟨q1, q2, q3, -, -, -, -⟩ := quoteState_frame s env
    have hstep : step s env = ⟨quoteState s env, none, quoteTrace s env⟩ := by
      rw [step_fresh s env mid hmid hpos]
      simp only [horder, hpc, hto, Bool.false_eq_true, if_false, ite_self]
    rw [hstep]
    refine ⟨?_, ?_, ?_, q1, q2, q3⟩
    · intro ok hmem
      rcases quoteTrace_mem s env _ hmem with h | ⟨p, h⟩ <;> cases h
    · intro t hmem
      rcases quoteTrace_mem s env _ hmem with h | ⟨p, h⟩ <;> cases h
    · intro req ok hmem
      rcases quoteTrace_mem s env _ hmem with h | ⟨p, h⟩ <;> cases h
  · have hstep := step_stale s env (Or.inr (by rw [hmid]; exact not_lt.mp hpos))
    rw [hstep]
    simp

/-- C7 at the sample state `exCalm` on the tick `exEnv`. -/
theorem step_hold_keeps_order_witness :
    getMidPrice exCalm exEnv.nowMid = (100, true) ∧
    exCalm.openOrder = some exOrder ∧
    |(100 : ℚ) - exCalm.lastMidPrice| / exCalm.lastMidPrice ≤ 1 / 1000 ∧
    exEnv.nowTimeout - exOrder.PlacedAt ≤ exCalm.cfg.OrderTimeout ∧
    (∀ ok, Action.cancelAll ok ∉ (step exCalm exEnv).trace) ∧
    (∀ t, Action.placeOrder t ∉ (step exCalm exEnv).trace) ∧
    (∀ req ok, Action.submit req ok ∉ (step exCalm exEnv).trace) ∧
    (step exCalm exEnv).state.openOrder = exCalm.openOrder ∧
    (step exCalm exEnv).state.currentSide = exCalm.currentSide ∧
    (step exCalm exEnv).state.lastMidPrice = exCalm.lastMidPrice := by
  have hcalm : |(100 : ℚ) - exCalm.lastMidPrice| / exCalm.lastMidPrice ≤ 1 / 1000 := by
    norm_num [exCalm, exHeld]
  have hyoung : exEnv.nowTimeout - exOrder.PlacedAt ≤ exCalm.cfg.OrderTimeout := by
    norm_num [exEnv, exOrder, exCalm, exHeld, exConfig, Second]
  exact ⟨getMidPrice_exCalm, rfl, hcalm, hyoung,
    step_hold_keeps_order exCalm exEnv 100 exOrder getMidPrice_exCalm rfl hcalm hyoung⟩

/-- C8: started with side `buy`, `evaluatePostCycle` ends with side `sell`
if and only if `position > 0` and `position * mid >= MinPositionValueUSD`;
in every other case the side remains `buy`. -/
theorem evaluatePostCycle_from_buy (s : Strategy) (mid : ℚ) (hside : s.currentSide = "buy") :
    ((evaluatePostCycle s mid).currentSide = "sell" ↔
      (s.positionSize > 0 ∧ s.positionSize * mid ≥ s.cfg.MinPositionValueUSD)) ∧
    (¬ (s.positionSize > 0 ∧ s.positionSize * mid ≥ s.cfg.MinPositionValueUSD) →
      (evaluatePostCycle s mid).currentSide = "buy") := by
  unfold evaluatePostCycle
  simp only [hside, if_true]
  split_ifs with h1 h2
  · simp [h1, h2]
  · simp [h1, h2, buy_ne_sell, hside]
  · simp [h1, buy_ne_sell, hside]

/-- C8 at the sample state `exBuyFilled` (position 2) and the mid price
101: the side flips to `sell`. -/
theorem evaluatePostCycle_from_buy_witness :
    exBuyFilled.currentSide = "buy" ∧
    (exBuyFilled.positionSize > 0 ∧
      exBuyFilled.positionSize * 101 ≥ exBuyFilled.cfg.MinPositionValueUSD) ∧
    (evaluatePostCycle exBuyFilled 101).currentSide = "sell" := by
  have hcond : exBuyFilled.positionSize > 0 ∧
      exBuyFilled.positionSize * 101 ≥ exBuyFilled.cfg.MinPositionValueUSD := by
    norm_num [exBuyFilled, exIdle, exHeld, exConfig]
  exact ⟨rfl, hcond, ((evaluatePostCycle_from_buy exBuyFilled 101 rfl).1).2 hcond⟩

/-- C9: started with side `sell`, `evaluatePostCycle` ends with side `buy`
if and only if `|position| < 1e-9` or `position * mid < MinPositionValueUSD`;
otherwise the side remains `sell`. -/
theorem evaluatePostCycle_from_sell (s : Strategy) (mid : ℚ) (hside : s.currentSide = "sell") :
    ((evaluatePostCycle s mid).currentSide = "buy" ↔
      (|s.positionSize| < 1 / 1000000000 ∨ s.positionSize * mid < s.cfg.MinPositionValueUSD)) ∧
    (¬ (|s.positionSize| < 1 / 1000000000 ∨ s.positionSize * mid < s.cfg.MinPositionValueUSD) →
      (evaluatePostCycle s mid).currentSide = "sell") := by
  have hne : ¬ ("sell" : String) = "buy" := fun h => buy_ne_sell h.symm
  unfold evaluatePostCycle
  simp only [hside, hne, if_false, if_true]
  split_ifs with h1 h2
  · exact ⟨⟨fun _ => Or.inl h1, fun _ => rfl⟩, fun hn => absurd (Or.inl h1) hn⟩
  · exact ⟨⟨fun _ => Or.inr h2, fun _ => rfl⟩, fun hn => absurd (Or.inr h2) hn⟩
  · refine ⟨⟨fun hb => ?_, fun hc => ?_⟩, fun _ => hside⟩
    · rw [hside] at hb
      exact absurd hb hne
    · rcases hc with hc | hc
      · exact absurd hc h1
      · exact absurd hc h2

/-- C9 at the sample state `exSellDust` (position 0.1) and the mid price
101: the notional 10.1 is below the floor 15 and the side flips to `buy`. -/
theorem evaluatePostCycle_from_sell_witness :
    exSellDust.currentSide = "sell" ∧
    (|exSellDust.positionSize| < 1 / 1000000000 ∨
      exSellDust.positionSize * 101 < exSellDust.cfg.MinPositionValueUSD) ∧
    (evaluatePostCycle exSellDust 101).currentSide = "buy" := by
  have hcond : |exSellDust.positionSize| < 1 / 1000000000 ∨
      exSellDust.positionSize * 101 < exSellDust.cfg.MinPositionValueUSD := by
    right
    norm_num [exSellDust, exIdle, exHeld, exConfig]
  exact ⟨rfl, hcond, ((evaluatePostCycle_from_sell exSellDust 101 rfl).1).2 hcond⟩

/-- C10: `calculateTargetPrice` computes the `target_price` of the
specification on the parameters `loadAvellaneda` returns: with parameters
present, `mid - delta_bid` for Buy and `mid + delta_ask` for Sell; absent
and required, `ok = false`; absent and not required, `mid*(1 - spread)` for
Buy and `mid*(1 + spread)` for Sell. And `ok` is false exactly when the
parameters are absent and required. -/
theorem calculateTargetPrice_refines_target_price (s : Strategy) (env : ParamsEnv) (mid : ℚ)
    (side : SpecSide) :
    (if (calculateTargetPrice s env mid side.toGo).1.2 = true
      then some (calculateTargetPrice s env mid side.toGo).1.1 else none) =
      target_price mid side (loadAvellaneda s env).1 s.cfg.RequireParams s.cfg.Spread ∧
    ((calculateTargetPrice s env mid side.toGo).1.2 = false ↔
      ((loadAvellaneda s env).1 = none ∧ s.cfg.RequireParams = true)) := by
  have hne : ¬ ("sell" : String) = "buy" := fun h => buy_ne_sell h.symm
  refine ⟨?_, calculateTargetPrice_ok s env mid side.toGo⟩
  rcases h : (loadAvellaneda s env).1 with _ | p <;> cases side <;>
    simp only [calculateTargetPrice, target_price, h, SpecSide.toGo, hne, if_false, if_true] <;>
    split_ifs <;> simp_all

/-! ## Sizing -/

theorem sell_ne_buy : ¬ ("sell" : String) = "buy" := fun h => buy_ne_sell h.symm

/-- C11: on the sell side `determineBaseAmount` returns 0 when
`position <= 0`, returns 0 when `position > 0` and
`position * mid < MinPositionValueUSD`, and otherwise returns the full
position; with the floor 15 and the mid price 100, the position 2 gives 2
and the position 0.1 gives 0. -/
theorem determineBaseAmount_sell (s : Strategy) (mid position : ℚ) :
    (position ≤ 0 → determineBaseAmount s "sell" mid position = 0) ∧
    (0 < position → position * mid < s.cfg.MinPositionValueUSD →
      determineBaseAmount s "sell" mid position = 0) ∧
    (0 < position → s.cfg.MinPositionValueUSD ≤ position * mid →
      determineBaseAmount s "sell" mid position = position) ∧
    (s.cfg.MinPositionValueUSD = 15 →
      determineBaseAmount s "sell" 100 2 = 2 ∧
      determineBaseAmount s "sell" 100 (1 / 10) = 0) := by
  refine ⟨?_, ?_, ?_, ?_⟩
  · intro h
    simp [determineBaseAmount, h]
  · intro h1 h2
    simp [determineBaseAmount, not_le.mpr h1, h2]
  · intro h1 h2
    simp [determineBaseAmount, not_le.mpr h1, not_lt.mpr h2]
  · intro h
    constructor
    · norm_num [determineBaseAmount, h]
    · norm_num [determineBaseAmount, h]

/-- C11 at the sample state `exIdle`, whose floor is 15. -/
theorem determineBaseAmount_sell_witness :
    ((-1 : ℚ) ≤ 0 ∧ determineBaseAmount exIdle "sell" 100 (-1) = 0) ∧
    ((0 : ℚ) < 1 / 10 ∧ (1 / 10 : ℚ) * 100 < exIdle.cfg.MinPositionValueUSD ∧
      determineBaseAmount exIdle "sell" 100 (1 / 10) = 0) ∧
    ((0 : ℚ) < 2 ∧ exIdle.cfg.MinPositionValueUSD ≤ (2 : ℚ) * 100 ∧
      determineBaseAmount exIdle "sell" 100 2 = 2) ∧
    (exIdle.cfg.MinPositionValueUSD = 15 ∧
      determineBaseAmount exIdle "sell" 100 2 = 2 ∧
      determineBaseAmount exIdle "sell" 100 (1 / 10) = 0) := by
  have hfloor : exIdle.cfg.MinPositionValueUSD = 15 := rfl
  have h := determineBaseAmount_sell exIdle 100
  have h1 : (-1 : ℚ) ≤ 0 := by norm_num
  have h2 : (0 : ℚ) < 1 / 10 := by norm_num
  have h3 : (1 / 10 : ℚ) * 100 < exIdle.cfg.MinPositionValueUSD := by
    rw [hfloor]
    norm_num
  have h4 : (0 : ℚ) < 2 := by norm_num
  have h5 : exIdle.cfg.MinPositionValueUSD ≤ (2 : ℚ) * 100 := by
    rw [hfloor]
    norm_num
  exact ⟨⟨h1, (h (-1)).1 h1⟩, ⟨h2, h3, (h (1 / 10)).2.1 h2 h3⟩,
    ⟨h4, h5, (h 2).2.2.1 h4 h5⟩, ⟨hfloor, (h 0).2.2.2 hfloor⟩⟩

/-- C12 as stated fails: with dynamic sizing enabled and no available
capital the buy size is the fixed base amount 1, not
`max(0 * (1 - 0.01) * 0.99 / 100, 0.1) = 0.1`. -/
theorem determineBaseAmount_buy_without_capital :
    exBroke.cfg.UseDynamicSizing = true ∧
    exBroke.availableCapital = 0 ∧
    determineBaseAmount exBroke "buy" 100 0 = 1 ∧
    max (exBroke.availableCapital * (1 - exBroke.cfg.SafetyMargin) * exBroke.cfg.CapitalUsage
      / 100) exBroke.market.SizeTick = 1 / 10 ∧
    determineBaseAmount exBroke "buy" 100 0 ≠
      max (exBroke.availableCapital * (1 - exBroke.cfg.SafetyMargin) *
        exBroke.cfg.CapitalUsage / 100) exBroke.market.SizeTick := by
  have h1 : determineBaseAmount exBroke "buy" 100 0 = 1 := by
    norm_num [determineBaseAmount, exBroke, exDynamic, exDynamicConfig, exConfig, exIdle,
      exHeld, buy_ne_sell]
  have h2 : max (exBroke.availableCapital * (1 - exBroke.cfg.SafetyMargin) *
      exBroke.cfg.CapitalUsage / 100) exBroke.market.SizeTick = 1 / 10 := by
    norm_num [exBroke, exDynamic, exDynamicConfig, exConfig, exIdle, exHeld, exMarket]
  refine ⟨rfl, rfl, h1, h2, ?_⟩
  rw [h1, h2]
  norm_num

/-- C12, amended: on the buy side `determineBaseAmount` returns the fixed
configured base amount when dynamic sizing is disabled, and also when it is
enabled but the available capital or the mid price is not positive; with
dynamic sizing enabled, positive capital and positive mid price it returns
`max(available_capital * (1 - safety_margin) * capital_usage / mid,
size_tick)`; capital 1000, margin 0.01, usage 0.99 and mid 100 give 9.801
for a size tick of at most 9.801. -/
theorem determineBaseAmount_buy (s : Strategy) (mid position : ℚ) :
    (s.cfg.UseDynamicSizing = false →
      determineBaseAmount s "buy" mid position = s.cfg.BaseAmount) ∧
    (s.cfg.UseDynamicSizing = true → s.availableCapital ≤ 0 ∨ mid ≤ 0 →
      determineBaseAmount s "buy" mid position = s.cfg.BaseAmount) ∧
    (s.cfg.UseDynamicSizing = true → 0 < s.availableCapital → 0 < mid →
      determineBaseAmount s "buy" mid position =
        max (s.availableCapital * (1 - s.cfg.SafetyMargin) * s.cfg.CapitalUsage / mid)
          s.market.SizeTick) ∧
    (s.cfg.UseDynamicSizing = true → s.availableCapital = 1000 →
      s.cfg.SafetyMargin = 1 / 100 → s.cfg.CapitalUsage = 99 / 100 →
      s.market.SizeTick ≤ 9801 / 1000 →
      determineBaseAmount s "buy" 100 position = 9801 / 1000) := by
  have hdyn : ∀ m : ℚ, s.cfg.UseDynamicSizing = true → 0 < s.availableCapital → 0 < m →
      determineBaseAmount s "buy" m position =
        max (s.availableCapital * (1 - s.cfg.SafetyMargin) * s.cfg.CapitalUsage / m)
          s.market.SizeTick := by
    intro m hd hc hm
    simp only [determineBaseAmount, buy_ne_sell, hd, not_le.mpr hc, not_le.mpr hm, if_false,
      Bool.true_eq_false]
    split_ifs with h
    · exact (max_eq_right (le_of_lt h)).symm
    · exact (max_eq_left (not_lt.mp h)).symm
  refine ⟨?_, ?_, hdyn mid, ?_⟩
  · intro h
    simp [determineBaseAmount, buy_ne_sell, h]
  · intro hd h
    simp only [determineBaseAmount, buy_ne_sell, hd, if_false, Bool.true_eq_false]
    rcases h with h | h
    · simp [h]
    · simp [h]
  · intro hd hc hm hu ht
    rw [hdyn 100 hd (by rw [hc]; norm_num) (by norm_num), hc, hm, hu]
    have : (1000 : ℚ) * (1 - 1 / 100) * (99 / 100) / 100 = 9801 / 1000 := by norm_num
    rw [this]
    exact max_eq_left ht

/-- C12, amended, at the sample states `exIdle` (fixed size), `exBroke` (no
capital) and `exDynamic` (capital 1000). -/
theorem determineBaseAmount_buy_witness :
    (exIdle.cfg.UseDynamicSizing = false ∧
      determineBaseAmount exIdle "buy" 100 0 = exIdle.cfg.BaseAmount) ∧
    (exBroke.cfg.UseDynamicSizing = true ∧ (exBroke.availableCapital ≤ 0 ∨ (100 : ℚ) ≤ 0) ∧
      determineBaseAmount exBroke "buy" 100 0 = exBroke.cfg.BaseAmount) ∧
    (exDynamic.cfg.UseDynamicSizing = true ∧ 0 < exDynamic.availableCapital ∧ (0 : ℚ) < 100 ∧
      determineBaseAmount exDynamic "buy" 100 0 =
        max (exDynamic.availableCapital * (1 - exDynamic.cfg.SafetyMargin) *
          exDynamic.cfg.CapitalUsage / 100) exDynamic.market.SizeTick) ∧
    (exDynamic.availableCapital = 1000 ∧ exDynamic.cfg.SafetyMargin = 1 / 100 ∧
      exDynamic.cfg.CapitalUsage = 99 / 100 ∧ exDynamic.market.SizeTick ≤ 9801 / 1000 ∧
      determineBaseAmount exDynamic "buy" 100 0 = 9801 / 1000) := by
  have hb : exBroke.availableCapital ≤ 0 ∨ (100 : ℚ) ≤ 0 := Or.inl (le_of_eq rfl)
  have hc : 0 < exDynamic.availableCapital := by norm_num [exDynamic, exIdle, exHeld]
  have hm : (0 : ℚ) < 100 := by norm_num
  have ht : exDynamic.market.SizeTick ≤ 9801 / 1000 := by
    norm_num [exDynamic, exIdle, exHeld, exMarket]
  exact ⟨⟨rfl, (determineBaseAmount_buy exIdle 100 0).1 rfl⟩,
    ⟨rfl, hb, (determineBaseAmount_buy exBroke 100 0).2.1 rfl hb⟩,
    ⟨rfl, hc, hm, (determineBaseAmount_buy exDynamic 100 0).2.2.1 rfl hc hm⟩,
    ⟨rfl, rfl, rfl, ht, (determineBaseAmount_buy exDynamic 100 0).2.2.2 rfl rfl rfl rfl ht⟩⟩

/-! ## Tick rounding -/

theorem floor_mul_tick_le (t x : ℚ) (ht : 0 < t) : ((⌊x / t⌋ : ℤ) : ℚ) * t ≤ x :=
  (le_div_iff₀ ht).1 (Int.floor_le (x / t))

theorem floor_floor_mul_tick (t x : ℚ) (ht : 0 < t) :
    ⌊((⌊x / t⌋ : ℤ) : ℚ) * t / t⌋ = ⌊x / t⌋ := by
  rw [mul_div_cancel_right₀ _ (ne_of_gt ht), Int.floor_intCast]

theorem orderRequest_Price (s : Strategy) (env : PlaceEnv) (side : String)
    (price size : ℚ) (reduceOnly : Bool) (hp : 0 < s.market.PriceTick) :
    (orderRequest s env side price size reduceOnly).Price =
      max 1 ⌊price / s.market.PriceTick⌋ := by
  have h := floor_floor_mul_tick s.market.PriceTick price hp
  simp only [orderRequest, h]
  split_ifs with hlt
  · exact (max_eq_left (by omega)).symm
  · exact (max_eq_right (not_lt.mp hlt)).symm

theorem placeOrder_submit_mem (s : Strategy) (env : PlaceEnv) (side : String)
    (price size : ℚ) (reduceOnly : Bool) (req : CreateOrderTxReq) (ok : Bool)
    (h : Action.submit req ok ∈ (placeOrder s env side price size reduceOnly).trace) :
    req = orderRequest s env side price size reduceOnly ∧
    1 ≤ ⌊size / s.market.SizeTick⌋ ∧ env.tx.signErr = none := by
  unfold placeOrder at h
  by_cases hsz : ⌊size / s.market.SizeTick⌋ < 1
  · simp [hsz] at h
  · simp only [hsz, if_false] at h
    rcases hsign : env.tx.signErr with _ | e
    · rcases hsend : env.tx.sendErr with _ | e
      · simp only [hsign, hsend] at h
        simp at h
        exact ⟨h.1, not_lt.mp hsz, rfl⟩
      · simp only [hsign, hsend] at h
        simp at h
        exact ⟨h.1, not_lt.mp hsz, rfl⟩
    · simp only [hsign] at h
      simp at h

/-- C14: when `floor(size / size_tick) < 1`, `placeOrder` returns the
sizing-failure error having only been entered: its result does not depend on
the signer or the exchange, no transaction is submitted and the state, with
its tracked order, is unchanged. Conversely every request `placeOrder`
submits has at least one size step, so its size is at least one size tick
and so is the requested size. -/
theorem placeOrder_sizing_failure :
    (∀ (s : Strategy) (env : PlaceEnv) (side : String) (price size : ℚ) (reduceOnly : Bool),
      0 < s.market.SizeTick → ⌊size / s.market.SizeTick⌋ < 1 →
      placeOrder s env side price size reduceOnly =
        ⟨s, some "order size below minimum tick", [Action.placeOrder s.openOrder]⟩) ∧
    (∀ (s : Strategy) (env : PlaceEnv) (side : String) (price size : ℚ) (reduceOnly : Bool)
      (req : CreateOrderTxReq) (ok : Bool),
      0 < s.market.SizeTick →
      Action.submit req ok ∈ (placeOrder s env side price size reduceOnly).trace →
      1 ≤ req.BaseAmount ∧
      s.market.SizeTick ≤ (req.BaseAmount : ℚ) * s.market.SizeTick ∧
      s.market.SizeTick ≤ size) := by
  constructor
  · intro s env side price size reduceOnly _ hsmall
    unfold placeOrder
    simp only [hsmall, if_true]
  · intro s env side price size reduceOnly req ok ht hmem
    obtain ⟨hreq, hone, -⟩ := placeOrder_submit_mem s env side price size reduceOnly req ok hmem
    have hb : req.BaseAmount = ⌊size / s.market.SizeTick⌋ := by
      rw [hreq]
      rfl
    have hq : (1 : ℚ) ≤ (req.BaseAmount : ℚ) := by
      rw [hb]
      exact_mod_cast hone
    have hmul : s.market.SizeTick ≤ (req.BaseAmount : ℚ) * s.market.SizeTick := by
      have := mul_le_mul_of_nonneg_right hq (le_of_lt ht)
      rwa [one_mul] at this
    refine ⟨by rw [hb]; exact hone, hmul, ?_⟩
    rw [hb] at hmul
    exact le_trans hmul (floor_mul_tick_le _ _ ht)

/-! ## Feed -/

/-- C16 as stated fails: a sample observed exactly 10 s ago is not strictly
younger than the window, yet `getMidPrice` reports it fresh. -/
theorem getMidPrice_fresh_at_ten_seconds :
    1019 * Second - exHeld.midPriceUpdatedAt = 10 * Second ∧
    ¬ (1019 * Second - exHeld.midPriceUpdatedAt < 10 * Second) ∧
    getMidPrice exHeld (1019 * Second) = (101, true) := by
  refine ⟨?_, ?_, ?_⟩
  · norm_num [exHeld, Second]
  · norm_num [exHeld, Second]
  · norm_num [getMidPrice, exHeld, Second]

/-- C16, amended: `getMidPrice` reports `fresh = true` if and only if
`now - observed_at <= 10s` (the sample is not older than the 10-second
window) and then returns the stored price; a sample older than 10 s is
reported as not fresh, with the price 0, whatever its stored price. -/
theorem getMidPrice_fresh_iff (s : Strategy) (now : Time) :
    ((getMidPrice s now).2 = true ↔ now - s.midPriceUpdatedAt ≤ 10 * Second) ∧
    ((getMidPrice s now).2 = true → (getMidPrice s now).1 = s.midPrice) ∧
    (now - s.midPriceUpdatedAt > 10 * Second → getMidPrice s now = (0, false)) := by
  by_cases h : now - s.midPriceUpdatedAt > 10 * Second
  · have hg : getMidPrice s now = (0, false) := if_pos h
    rw [hg]
    exact ⟨⟨fun hf => Bool.noConfusion hf, fun hle => absurd h (not_lt.mpr hle)⟩,
      fun hf => Bool.noConfusion hf, fun _ => rfl⟩
  · have hg : getMidPrice s now = (s.midPrice, true) := if_neg h
    rw [hg]
    exact ⟨⟨fun _ => not_lt.mp h, fun _ => rfl⟩, fun _ => rfl, fun hgt => absurd hgt h⟩

/-- C16, amended, at the sample state `exHeld`, observed at second 1009:
fresh at second 1019, not fresh at second 1020. -/
theorem getMidPrice_fresh_iff_witness :
    1019 * Second - exHeld.midPriceUpdatedAt ≤ 10 * Second ∧
    (getMidPrice exHeld (1019 * Second)).2 = true ∧
    (getMidPrice exHeld (1019 * Second)).1 = exHeld.midPrice ∧
    1020 * Second - exHeld.midPriceUpdatedAt > 10 * Second ∧
    getMidPrice exHeld (1020 * Second) = (0, false) := by
  have h1 : 1019 * Second - exHeld.midPriceUpdatedAt ≤ 10 * Second := by
    norm_num [exHeld, Second]
  have h2 : 1020 * Second - exHeld.midPriceUpdatedAt > 10 * Second := by
    norm_num [exHeld, Second]
  have hf := (getMidPrice_fresh_iff exHeld (1019 * Second)).1.2 h1
  exact ⟨h1, hf, (getMidPrice_fresh_iff exHeld (1019 * Second)).2.1 hf, h2,
    (getMidPrice_fresh_iff exHeld (1020 * Second)).2.2 h2⟩

/-! ## Parameter store -/

theorem goodCandidate_eq_some (file : String → CandidateFile) (path : String)
    (p : avellanedaParams) :
    goodCandidate file path = some p ↔ file path = .parsed p ∧ 0 < p.DeltaA ∧ 0 < p.DeltaB := by
  unfold goodCandidate
  cases hf : file path with
  | unreadable => simp
  | invalid => simp
  | parsed q =>
    simp only
    split_ifs with h
    · constructor
      · intro hq
        cases hq
        exact ⟨rfl, h⟩
      · rintro ⟨hq, -⟩
        cases hq
        rfl
    · constructor
      · intro hq
        cases hq
      · rintro ⟨hq, h'⟩
        cases hq
        exact absurd h' h

theorem scanCandidates_cons_bad (file : String → CandidateFile) (path : String)
    (rest : List String) (h : goodCandidate file path = none) :
    scanCandidates file (path :: rest) =
      ((scanCandidates file rest).1, Action.readFile path :: (scanCandidates file rest).2) := by
  unfold goodCandidate at h
  rw [scanCandidates]
  cases hf : file path with
  | unreadable => rfl
  | invalid => rfl
  | parsed q =>
    rw [hf] at h
    simp only at h ⊢
    split_ifs at h with hq
    have hq' : q.DeltaA ≤ 0 ∨ q.DeltaB ≤ 0 := by
      by_contra hc
      simp only [not_or, not_le] at hc
      exact hq hc
    simp only [hq', if_true]

theorem scanCandidates_cons_good (file : String → CandidateFile) (path : String)
    (rest : List String) (p : avellanedaParams) (h : goodCandidate file path = some p) :
    scanCandidates file (path :: rest) = (some p, [Action.readFile path]) := by
  obtain ⟨hf, ha, hb⟩ := (goodCandidate_eq_some file path p).1 h
  rw [scanCandidates]
  simp only [hf]
  have hq : ¬ (p.DeltaA ≤ 0 ∨ p.DeltaB ≤ 0) := by
    simp only [not_or, not_le]
    exact ⟨ha, hb⟩
  simp only [hq, if_false]

theorem scanCandidates_first_good (file : String → CandidateFile) (pre : List String)
    (path : String) (post : List String) (p : avellanedaParams)
    (hpre : ∀ q ∈ pre, goodCandidate file q = none) (hgood : goodCandidate file path = some p) :
    scanCandidates file (pre ++ path :: post) =
      (some p, (pre ++ [path]).map Action.readFile) := by
  induction pre with
  | nil => simpa using scanCandidates_cons_good file path post p hgood
  | cons q qs ih =>
    have hq := hpre q (List.mem_cons_self q qs)
    have ih' := ih (fun r hr => hpre r (List.mem_cons_of_mem q hr))
    rw [List.cons_append, scanCandidates_cons_bad file q _ hq, ih']
    simp

theorem scanCandidates_fst (file : String → CandidateFile) (paths : List String) :
    (scanCandidates file paths).1 = paths.findSome? (goodCandidate file) := by
  induction paths with
  | nil => rfl
  | cons path rest ih =>
    cases hg : goodCandidate file path with
    | none =>
      rw [scanCandidates_cons_bad file path rest hg, List.findSome?_cons, hg]
      exact ih
    | some p =>
      rw [scanCandidates_cons_good file path rest p hg, List.findSome?_cons, hg]

theorem scanCandidates_none_iff (file : String → CandidateFile) (paths : List String) :
    (scanCandidates file paths).1 = none ↔ ∀ q ∈ paths, goodCandidate file q = none := by
  rw [scanCandidates_fst, List.findSome?_eq_none_iff]

theorem scanCandidates_head_read (file : String → CandidateFile) (path : String)
    (rest : List String) : Action.readFile path ∈ (scanCandidates file (path :: rest)).2 := by
  cases hg : goodCandidate file path with
  | none =>
    rw [scanCandidates_cons_bad file path rest hg]
    exact List.mem_cons_self _ _
  | some p =>
    rw [scanCandidates_cons_good file path rest p hg]
    exact List.mem_cons_self _ _

theorem loadAvellaneda_expired (s : Strategy) (env : ParamsEnv)
    (hmiss : ∀ p, s.avaParams = some p → s.cfg.AvellanedaRefresh ≤ env.now - s.lastParamsLoad) :
    loadAvellaneda s env = loadFromCandidates s env := by
  unfold loadAvellaneda
  cases hc : s.avaParams with
  | none => rfl
  | some p =>
    simp only [not_lt.mpr (hmiss p hc), if_false]

/-- C18: with parameters cached and `now - loaded_at < refresh_ttl`,
`loadAvellaneda` returns the cached parameters, reads no candidate and
leaves the state, with the cache and its timestamp, as it was. Once
`now - loaded_at >= refresh_ttl` it rescans the candidates: it reads the
first candidate, and what it returns is the first good candidate of the
scan, or nil when there is none, whatever the cached value. -/
theorem loadAvellaneda_cache_within_ttl (s : Strategy) (env : ParamsEnv) (p : avellanedaParams)
    (hcached : s.avaParams = some p) :
    (env.now - s.lastParamsLoad < s.cfg.AvellanedaRefresh →
      loadAvellaneda s env = (some p, s, [])) ∧
    (s.cfg.AvellanedaRefresh ≤ env.now - s.lastParamsLoad →
      loadAvellaneda s env = loadFromCandidates s env ∧
      (loadAvellaneda s env).1 =
        s.cfg.AvellanedaCandidates.findSome? (goodCandidate env.file) ∧
      (loadAvellaneda s env).2.2 = (scanCandidates env.file s.cfg.AvellanedaCandidates).2 ∧
      (∀ path rest, s.cfg.AvellanedaCandidates = path :: rest →
        Action.readFile path ∈ (loadAvellaneda s env).2.2)) := by
  constructor
  · intro h
    unfold loadAvellaneda
    simp only [hcached, h, if_true]
  · intro h
    have hexp := loadAvellaneda_expired s env (fun _ _ => h)
    have hfst : (loadFromCandidates s env).1 =
        (scanCandidates env.file s.cfg.AvellanedaCandidates).1 := by
      unfold loadFromCandidates
      cases hs : (scanCandidates env.file s.cfg.AvellanedaCandidates).1 <;> rfl
    have hreads : (loadFromCandidates s env).2.2 =
        (scanCandidates env.file s.cfg.AvellanedaCandidates).2 := by
      unfold loadFromCandidates
      cases (scanCandidates env.file s.cfg.AvellanedaCandidates).1 <;> rfl
    refine ⟨hexp, ?_, ?_, ?_⟩
    · rw [hexp, hfst, scanCandidates_fst]
    · rw [hexp, hreads]
    · intro path rest hlist
      rw [hexp, hreads, hlist]
      exact scanCandidates_head_read env.file path rest

/-- C19: when no cached parameters are within the TTL, `loadAvellaneda`
returns the parameters of the first candidate, in list order, that reads,
parses and has `delta_ask > 0` and `delta_bid > 0`; it caches them with the
time of loading, and it has read each earlier, failing candidate and this
one, and no later one. It returns nil if and only if every candidate fails,
and then the state, with its cache, is unchanged. A candidate is good
exactly when its file decodes to parameters with both deltas positive. -/
theorem loadAvellaneda_first_good_candidate (s : Strategy) (env : ParamsEnv)
    (hmiss : ∀ p, s.avaParams = some p → s.cfg.AvellanedaRefresh ≤ env.now - s.lastParamsLoad) :
    (∀ pre path post p, s.cfg.AvellanedaCandidates = pre ++ path :: post →
      (∀ q ∈ pre, goodCandidate env.file q = none) → goodCandidate env.file path = some p →
      loadAvellaneda s env =
        (some p, { s with avaParams := some p, lastParamsLoad := env.nowLoad },
          (pre ++ [path]).map Action.readFile)) ∧
    ((loadAvellaneda s env).1 = none ↔
      ∀ q ∈ s.cfg.AvellanedaCandidates, goodCandidate env.file q = none) ∧
    ((loadAvellaneda s env).1 = none → (loadAvellaneda s env).2.1 = s) ∧
    (∀ path p, goodCandidate env.file path = some p ↔
      (env.file path = CandidateFile.parsed p ∧ 0 < p.DeltaA ∧ 0 < p.DeltaB)) := by
  rw [loadAvellaneda_expired s env hmiss]
  refine ⟨?_, ?_, ?_, goodCandidate_eq_some env.file⟩
  · intro pre path post p hlist hpre hgood
    unfold loadFromCandidates
    rw [hlist, scanCandidates_first_good env.file pre path post p hpre hgood]
  · rw [← scanCandidates_none_iff]
    unfold loadFromCandidates
    cases hs : (scanCandidates env.file s.cfg.AvellanedaCandidates).1 <;> simp
  · unfold loadFromCandidates
    cases hs : (scanCandidates env.file s.cfg.AvellanedaCandidates).1 <;> simp

/-! ## Account snapshot -/

theorem findAccount_first (accountID : Int) (pre : List Account) (a : Account)
    (post : List Account) (hpre : ∀ b ∈ pre, b.Index ≠ accountID) (ha : a.Index = accountID) :
    findAccount accountID (pre ++ a :: post) = some a := by
  induction pre with
  | nil => simp [findAccount, ha]
  | cons b bs ih =>
    have hb := hpre b (List.mem_cons_self b bs)
    rw [List.cons_append, findAccount, if_neg hb]
    exact ih (fun c hc => hpre c (List.mem_cons_of_mem b hc))

theorem findAccount_none (accountID : Int) (as : List Account)
    (h : ∀ b ∈ as, b.Index ≠ accountID) : findAccount accountID as = none := by
  induction as with
  | nil => rfl
  | cons b bs ih =>
    rw [findAccount, if_neg (h b (List.mem_cons_self b bs))]
    exact ih (fun c hc => h c (List.mem_cons_of_mem b hc))

theorem refreshAccount_accounts (s : Strategy) (parseFloat : String → ℚ × Bool)
    (first : Account) (rest : List Account) (now : Time) :
    refreshAccount s parseFloat (.accounts (first :: rest)) now =
      ⟨snapshotFrom s parseFloat ((findAccount s.accountID (first :: rest)).getD first) now,
        none, [Action.accountQuery]⟩ := rfl

/-- C20: when the account query itself succeeds, `refreshAccount` fails if
and only if the response is nil or holds no account, and then the state,
with capital, portfolio value, position and refresh time, is unchanged.
Otherwise it succeeds and stores the snapshot of the first returned account
whose index equals `accountID` when there is one, and of the first returned
account when none matches. -/
theorem refreshAccount_selects_account (s : Strategy) (parseFloat : String → ℚ × Bool)
    (now : Time) :
    (∀ resp, (∀ msg, resp ≠ GetAccountResult.failed msg) →
      (((refreshAccount s parseFloat resp now).err ≠ none ↔
          (resp = GetAccountResult.nilResp ∨ resp = GetAccountResult.accounts [])) ∧
        ((refreshAccount s parseFloat resp now).err ≠ none →
          (refreshAccount s parseFloat resp now).state = s))) ∧
    (∀ pre a post, (∀ b ∈ pre, b.Index ≠ s.accountID) → a.Index = s.accountID →
      refreshAccount s parseFloat (GetAccountResult.accounts (pre ++ a :: post)) now =
        ⟨snapshotFrom s parseFloat a now, none, [Action.accountQuery]⟩) ∧
    (∀ first rest, (∀ b ∈ first :: rest, b.Index ≠ s.accountID) →
      refreshAccount s parseFloat (GetAccountResult.accounts (first :: rest)) now =
        ⟨snapshotFrom s parseFloat first now, none, [Action.accountQuery]⟩) := by
  refine ⟨?_, ?_, ?_⟩
  · intro resp hok
    cases resp with
    | failed msg => exact absurd rfl (hok msg)
    | nilResp => simp [refreshAccount]
    | accounts as =>
      cases as with
      | nil => simp [refreshAccount]
      | cons first rest =>
        rw [refreshAccount_accounts]
        simp
  · intro pre a post hpre ha
    have hfind := findAccount_first s.accountID pre a post hpre ha
    cases pre with
    | nil =>
      rw [List.nil_append] at hfind ⊢
      rw [refreshAccount_accounts, hfind]
      rfl
    | cons b bs =>
      rw [List.cons_append] at hfind ⊢
      rw [refreshAccount_accounts, hfind]
      rfl
  · intro first rest hnone
    rw [refreshAccount_accounts, findAccount_none s.accountID _ hnone]
    rfl

/-! ## The new claims at the sample inputs -/

theorem placeOrder_exIdle :
    placeOrder exIdle exEnv.place "buy" (9999 / 100) 1 false =
      ⟨{ exIdle with openOrder := some exNewOrder }, none,
        [Action.placeOrder none, Action.submit exRequest true]⟩ := by
  norm_num [placeOrder, orderRequest, orderRecord, nextOrderID, boolToUint8, exIdle, exHeld,
    exEnv, exMarket, exRequest, exNewOrder, Second, Minute, buy_ne_sell]

/-- C14 at the sample state `exIdle`: the size 0.05 is below the size tick
0.1 and is refused; the submitted request `exRequest` has 10 size steps. -/
theorem placeOrder_sizing_failure_witness :
    0 < exIdle.market.SizeTick ∧ ⌊(1 / 20 : ℚ) / exIdle.market.SizeTick⌋ < 1 ∧
    placeOrder exIdle exEnv.place "buy" (9999 / 100) (1 / 20) false =
      ⟨exIdle, some "order size below minimum tick", [Action.placeOrder exIdle.openOrder]⟩ ∧
    Action.submit exRequest true ∈
      (placeOrder exIdle exEnv.place "buy" (9999 / 100) 1 false).trace ∧
    1 ≤ exRequest.BaseAmount ∧
    exIdle.market.SizeTick ≤ (exRequest.BaseAmount : ℚ) * exIdle.market.SizeTick ∧
    exIdle.market.SizeTick ≤ 1 := by
  have hs : 0 < exIdle.market.SizeTick := by norm_num [exIdle, exHeld, exMarket]
  have hsmall : ⌊(1 / 20 : ℚ) / exIdle.market.SizeTick⌋ < 1 := by
    norm_num [exIdle, exHeld, exMarket]
  have hmem : Action.submit exRequest true ∈
      (placeOrder exIdle exEnv.place "buy" (9999 / 100) 1 false).trace := by
    rw [placeOrder_exIdle]
    simp
  exact ⟨hs, hsmall,
    placeOrder_sizing_failure.1 exIdle exEnv.place "buy" (9999 / 100) (1 / 20) false hs hsmall,
    hmem,
    placeOrder_sizing_failure.2 exIdle exEnv.place "buy" (9999 / 100) 1 false exRequest true hs
      hmem⟩

/-- C18 at the sample states `exCached` (loaded 10 s ago) and `exExpired`
(loaded 910 s ago, beyond the TTL of 900 s). -/
theorem loadAvellaneda_cache_within_ttl_witness :
    exCached.avaParams = some exParams ∧
    exParamsEnv.now - exCached.lastParamsLoad < exCached.cfg.AvellanedaRefresh ∧
    loadAvellaneda exCached exParamsEnv = (some exParams, exCached, []) ∧
    exExpired.avaParams = some exParams ∧
    exExpired.cfg.AvellanedaRefresh ≤ exParamsEnv.now - exExpired.lastParamsLoad ∧
    loadAvellaneda exExpired exParamsEnv = loadFromCandidates exExpired exParamsEnv ∧
    (loadAvellaneda exExpired exParamsEnv).1 =
      exExpired.cfg.AvellanedaCandidates.findSome? (goodCandidate exParamsEnv.file) := by
  have h1 : exParamsEnv.now - exCached.lastParamsLoad < exCached.cfg.AvellanedaRefresh := by
    norm_num [exParamsEnv, exCached, exIdle, exHeld, exConfig, Second]
  have h2 : exExpired.cfg.AvellanedaRefresh ≤ exParamsEnv.now - exExpired.lastParamsLoad := by
    norm_num [exParamsEnv, exExpired, exCached, exIdle, exHeld, exConfig, Second]
  have hc := (loadAvellaneda_cache_within_ttl exCached exParamsEnv exParams rfl).1 h1
  have he := (loadAvellaneda_cache_within_ttl exExpired exParamsEnv exParams rfl).2 h2
  exact ⟨rfl, h1, hc, rfl, h2, he.1, he.2.1⟩

theorem goodCandidate_a : goodCandidate exParamsEnv.file "a.json" = none := by
  norm_num [goodCandidate, exParamsEnv, exFiles, exZeroAsk]

theorem goodCandidate_b : goodCandidate exParamsEnv.file "b.json" = some exParams := by
  have hne : ¬ ("b.json" : String) = "a.json" := by decide
  norm_num [goodCandidate, exParamsEnv, exFiles, exParams, hne]

/-- C19 at the sample state `exTwo`: the candidate `a.json` with
`delta_ask = 0` is skipped and the parameters of `b.json` are returned and
cached; from `exIdle`, whose only candidate is unreadable, nothing is
returned and the state is unchanged. -/
theorem loadAvellaneda_first_good_candidate_witness :
    exTwo.avaParams = none ∧
    exTwo.cfg.AvellanedaCandidates = ["a.json"] ++ "b.json" :: [] ∧
    goodCandidate exParamsEnv.file "a.json" = none ∧
    goodCandidate exParamsEnv.file "b.json" = some exParams ∧
    loadAvellaneda exTwo exParamsEnv =
      (some exParams, { exTwo with avaParams := some exParams,
                                   lastParamsLoad := exParamsEnv.nowLoad },
        (["a.json"] ++ ["b.json"]).map Action.readFile) ∧
    (∀ q ∈ exIdle.cfg.AvellanedaCandidates, goodCandidate exParamsEnv.file q = none) ∧
    (loadAvellaneda exIdle exParamsEnv).1 = none ∧
    (loadAvellaneda exIdle exParamsEnv).2.1 = exIdle := by
  have hmiss : ∀ p, exTwo.avaParams = some p →
      exTwo.cfg.AvellanedaRefresh ≤ exParamsEnv.now - exTwo.lastParamsLoad := by
    intro p hp
    cases hp
  have hmiss' : ∀ p, exIdle.avaParams = some p →
      exIdle.cfg.AvellanedaRefresh ≤ exParamsEnv.now - exIdle.lastParamsLoad := by
    intro p hp
    cases hp
  have hpre : ∀ q ∈ ["a.json"], goodCandidate exParamsEnv.file q = none := by
    intro q hq
    rw [List.mem_singleton] at hq
    rw [hq]
    exact goodCandidate_a
  have hall : ∀ q ∈ exIdle.cfg.AvellanedaCandidates,
      goodCandidate exParamsEnv.file q = none := by
    intro q hq
    have : q = "params/avellaneda_parameters_PAXG.json" := by
      simpa [exIdle, exHeld, exConfig] using hq
    rw [this]
    simp [goodCandidate, exParamsEnv, exFiles]
  have h := loadAvellaneda_first_good_candidate exTwo exParamsEnv hmiss
  have h' := loadAvellaneda_first_good_candidate exIdle exParamsEnv hmiss'
  have hnone := h'.2.1.2 hall
  exact ⟨rfl, rfl, goodCandidate_a, goodCandidate_b,
    h.1 ["a.json"] "b.json" [] exParams rfl hpre goodCandidate_b, hall, hnone,
    h'.2.2.1 hnone⟩

/-- C20 at the sample state `exIdle`, whose account index is 5: an empty
response fails and changes nothing; of the accounts 9 and 5 the second is
stored; of the account 9 alone, that one is stored. -/
theorem refreshAccount_selects_account_witness :
    (refreshAccount exIdle exParse (GetAccountResult.accounts []) (1010 * Second)).err ≠ none ∧
    (refreshAccount exIdle exParse (GetAccountResult.accounts []) (1010 * Second)).state =
      exIdle ∧
    exOtherAccount.Index ≠ exIdle.accountID ∧ exOwnAccount.Index = exIdle.accountID ∧
    refreshAccount exIdle exParse
        (GetAccountResult.accounts ([exOtherAccount] ++ exOwnAccount :: [])) (1010 * Second) =
      ⟨snapshotFrom exIdle exParse exOwnAccount (1010 * Second), none,
        [Action.accountQuery]⟩ ∧
    refreshAccount exIdle exParse (GetAccountResult.accounts (exOtherAccount :: []))
        (1010 * Second) =
      ⟨snapshotFrom exIdle exParse exOtherAccount (1010 * Second), none,
        [Action.accountQuery]⟩ := by
  have hother : exOtherAccount.Index ≠ exIdle.accountID := by decide
  have hown : exOwnAccount.Index = exIdle.accountID := rfl
  have h := refreshAccount_selects_account exIdle exParse (1010 * Second)
  have hok : ∀ msg, GetAccountResult.accounts [] ≠ GetAccountResult.failed msg := by
    intro msg hmsg
    cases hmsg
  have hfail := (h.1 (GetAccountResult.accounts []) hok).1.2 (Or.inr rfl)
  have hpre : ∀ b ∈ [exOtherAccount], b.Index ≠ exIdle.accountID := by
    intro b hb
    rw [List.mem_singleton] at hb
    rw [hb]
    exact hother
  exact ⟨hfail, (h.1 (GetAccountResult.accounts []) hok).2 hfail, hother, hown,
    h.2.1 [exOtherAccount] exOwnAccount [] hpre hown,
    h.2.2 exOtherAccount [] hpre⟩

/-! ## Side and sizing invariants -/

/-- C22: for `mid > 0` and `MinPositionValueUSD >= 0`, if the side is
`sell` after `evaluatePostCycle(mid)`, whether it flipped from `buy` or
remained `sell`, then `determineBaseAmount` for `sell` with the same mid
price and position returns the full position, and that size is strictly
positive. -/
theorem evaluatePostCycle_sell_has_size (s : Strategy) (mid : ℚ) (hmid : 0 < mid)
    (hfloor : 0 ≤ s.cfg.MinPositionValueUSD)
    (hsell : (evaluatePostCycle s mid).currentSide = "sell") :
    determineBaseAmount (evaluatePostCycle s mid) "sell" mid s.positionSize = s.positionSize ∧
    0 < s.positionSize := by
  have hcfg : (evaluatePostCycle s mid).cfg = s.cfg := by
    unfold evaluatePostCycle
    simp only
    split_ifs <;> rfl
  have hkey : 0 < s.positionSize ∧ s.cfg.MinPositionValueUSD ≤ s.positionSize * mid := by
    unfold evaluatePostCycle at hsell
    simp only at hsell
    by_cases hb : s.currentSide = "buy"
    · simp only [hb, if_true] at hsell
      split_ifs at hsell with h1 h2
      · exact ⟨h1, h2⟩
      · rw [hb] at hsell
        exact absurd hsell buy_ne_sell
      · rw [hb] at hsell
        exact absurd hsell buy_ne_sell
    · simp only [hb, if_false] at hsell
      split_ifs at hsell with h0 h1 h2
      · exact absurd hsell buy_ne_sell
      · exact absurd hsell buy_ne_sell
      · have hval : s.cfg.MinPositionValueUSD ≤ s.positionSize * mid := not_lt.mp h2
        have hnn : 0 ≤ s.positionSize := by
          by_contra hneg
          have : s.positionSize * mid < 0 := mul_neg_of_neg_of_pos (not_le.mp hneg) hmid
          linarith
        have habs : (1 : ℚ) / 1000000000 ≤ |s.positionSize| := not_lt.mp h1
        rw [abs_of_nonneg hnn] at habs
        have : (0 : ℚ) < 1 / 1000000000 := by norm_num
        exact ⟨lt_of_lt_of_le this habs, hval⟩
      · exact absurd hsell h0
  refine ⟨?_, hkey.1⟩
  unfold determineBaseAmount
  simp only [hcfg, not_le.mpr hkey.1, not_lt.mpr hkey.2, if_true, if_false]

/-! ## The parameter invariant -/

theorem paramsValid_of_avaParams_eq (s s' : Strategy) (h : s'.avaParams = s.avaParams)
    (hv : paramsValid s) : paramsValid s' := by
  unfold paramsValid at hv ⊢
  rw [h]
  exact hv

theorem paramsValid_newStrategy (cfg : Config) (market : MarketInfo) (accountID : Int) :
    paramsValid (newStrategy cfg market accountID) := trivial

theorem scanCandidates_pos (file : String → CandidateFile) (paths : List String)
    (p : avellanedaParams) (h : (scanCandidates file paths).1 = some p) :
    0 < p.DeltaA ∧ 0 < p.DeltaB := by
  induction paths with
  | nil => simp [scanCandidates] at h
  | cons path rest ih =>
    unfold scanCandidates at h
    cases hf : file path with
    | unreadable =>
      simp only [hf] at h
      exact ih h
    | invalid =>
      simp only [hf] at h
      exact ih h
    | parsed q =>
      simp only [hf] at h
      split_ifs at h with hq
      · exact ih h
      · simp only [Option.some.injEq] at h
        subst h
        simp only [not_or, not_le] at hq
        exact hq

theorem loadFromCandidates_valid (s : Strategy) (env : ParamsEnv) (hv : paramsValid s) :
    (∀ p, (loadFromCandidates s env).1 = some p → 0 < p.DeltaA ∧ 0 < p.DeltaB) ∧
    paramsValid (loadFromCandidates s env).2.1 := by
  unfold loadFromCandidates
  cases hs : (scanCandidates env.file s.cfg.AvellanedaCandidates).1 with
  | none =>
    refine ⟨?_, hv⟩
    intro p hp
    cases hp
  | some q =>
    have hq := scanCandidates_pos env.file s.cfg.AvellanedaCandidates q hs
    refine ⟨?_, hq⟩
    intro p hp
    simp only [Option.some.injEq] at hp
    subst hp
    exact hq

theorem loadAvellaneda_valid (s : Strategy) (env : ParamsEnv) (hv : paramsValid s) :
    (∀ p, (loadAvellaneda s env).1 = some p → 0 < p.DeltaA ∧ 0 < p.DeltaB) ∧
    paramsValid (loadAvellaneda s env).2.1 := by
  unfold loadAvellaneda
  cases hc : s.avaParams with
  | none => exact loadFromCandidates_valid s env hv
  | some q =>
    simp only
    split_ifs
    · refine ⟨?_, hv⟩
      intro p hp
      simp only [Option.some.injEq] at hp
      subst hp
      unfold paramsValid at hv
      rw [hc] at hv
      exact hv
    · exact loadFromCandidates_valid s env hv

theorem cancelAll_avaParams (s : Strategy) (env : TxEnv) :
    (cancelAll s env).state.avaParams = s.avaParams := by
  unfold cancelAll
  cases cancelAllOrders env <;> rfl

theorem evaluatePostCycle_avaParams (s : Strategy) (mid : ℚ) :
    (evaluatePostCycle s mid).avaParams = s.avaParams := by
  unfold evaluatePostCycle
  simp only
  split_ifs <;> rfl

theorem stepPlace_avaParams (s : Strategy) (env : PlaceEnv) (side : String)
    (mid targetPrice pos : ℚ) (pre : List Action) :
    (stepPlace s env side mid targetPrice pos pre).state.avaParams = s.avaParams := by
  obtain ⟨post, -, -, -, h⟩ := stepPlace_spec s env side mid targetPrice pos pre
  rcases h with ⟨-, hst⟩ | ⟨req, placed, -, -, hst, -⟩
  · rw [hst]
  · rw [hst]

theorem quoteState_valid (s : Strategy) (env : StepEnv) (hv : paramsValid s) :
    paramsValid (quoteState s env) := by
  obtain ⟨-, -, -, -, -, hp, -⟩ := stepRefresh_frame s env
  exact (loadAvellaneda_valid _ env.params (paramsValid_of_avaParams_eq s _ hp hv)).2

theorem paramsValid_step (s : Strategy) (env : StepEnv) (hv : paramsValid s) :
    paramsValid (step s env).state := by
  have hq := quoteState_valid s env hv
  by_cases hfresh : (getMidPrice s env.nowMid).2 = false ∨ (getMidPrice s env.nowMid).1 ≤ 0
  · rw [step_stale s env hfresh]
    exact hv
  · have hf : (getMidPrice s env.nowMid).2 = true := by
      cases h : (getMidPrice s env.nowMid).2 with
      | true => rfl
      | false => exact absurd (Or.inl h) hfresh
    have hpos : 0 < (getMidPrice s env.nowMid).1 := not_le.mp (fun h => hfresh (Or.inr h))
    have hmid : getMidPrice s env.nowMid = ((getMidPrice s env.nowMid).1, true) :=
      Prod.ext rfl hf
    cases hprice : (calculateTargetPrice s env.params (getMidPrice s env.nowMid).1
        s.currentSide).1.2 with
    | false =>
      rw [step_unpriced s env _ hmid hpos hprice]
      exact hq
    | true =>
      cases horder : s.openOrder with
      | none =>
        rw [step_no_order s env _ hmid hpos hprice horder]
        exact paramsValid_of_avaParams_eq _ _ (stepPlace_avaParams _ _ _ _ _ _ _) hq
      | some o =>
        by_cases hmove : |(getMidPrice s env.nowMid).1 - s.lastMidPrice| / s.lastMidPrice
            > 1 / 1000
        · rw [step_price_move s env _ o hmid hpos hprice horder hmove]
          exact paramsValid_of_avaParams_eq _ _
            ((stepPlace_avaParams _ _ _ _ _ _ _).trans (cancelAll_avaParams _ _)) hq
        · by_cases hold : env.nowTimeout - o.PlacedAt > s.cfg.OrderTimeout
          · rw [step_timeout s env _ o hmid hpos hprice horder hmove hold]
            exact paramsValid_of_avaParams_eq _ _
              ((evaluatePostCycle_avaParams _ _).trans
                ((refreshAccount_frame _ _ _ _).2.2.2.2.2.1.trans (cancelAll_avaParams _ _)))
              hq
          · have hstep : step s env = ⟨quoteState s env, none, quoteTrace s env⟩ := by
              rw [step_fresh s env _ hmid hpos]
              simp only [hprice, horder, not_priceChanged _ _ hmove, hold, Bool.false_eq_true,
                Bool.true_eq_false, if_false]
            rw [hstep]
            exact hq

theorem handleOrderBook_avaParams (s : Strategy) (parseFloat : String → ℚ × Bool)
    (resp : LighterOrderBookResponse) (now : Time) :
    (handleOrderBook s parseFloat resp now).avaParams = s.avaParams := by
  unfold handleOrderBook
  rcases resp.Bids with _ | ⟨bid, bids⟩
  · rfl
  · rcases resp.Asks with _ | ⟨ask, asks⟩
    · rfl
    · simp only
      split_ifs <;> rfl

theorem paramsValid_run (s : Strategy) (events : List Event) (hv : paramsValid s) :
    paramsValid (run s events).1 := by
  induction events generalizing s with
  | nil => exact hv
  | cons e rest ih =>
    cases e with
    | book pf resp now =>
      simp only [run]
      exact ih _ (paramsValid_of_avaParams_eq s _ (handleOrderBook_avaParams s pf resp now) hv)
    | tick env =>
      simp only [run]
      exact ih _ (paramsValid_step s env hv)

/-- C23, amended: parameters are only ever cached or returned with
`delta_ask > 0` and `delta_bid > 0`: a new strategy caches none,
`loadAvellaneda` returns and caches only such parameters, and every state
the control loop reaches from a new strategy caches only such parameters. In
every such state, for `mid > 0` and `Spread > 0`, whenever
`calculateTargetPrice` returns `ok` the buy target is at most the mid price
and the sell target at least the mid price, with parameters and with the
static spread alike. The bound is on the target, not on the price that
`placeOrder` submits after flooring it to the price tick. -/
theorem calculateTargetPrice_target_within_mid :
    (∀ (s : Strategy) (env : ParamsEnv) (mid : ℚ), 0 < mid → 0 < s.cfg.Spread →
      paramsValid s →
      ((calculateTargetPrice s env mid "buy").1.2 = true →
        (calculateTargetPrice s env mid "buy").1.1 ≤ mid) ∧
      ((calculateTargetPrice s env mid "sell").1.2 = true →
        mid ≤ (calculateTargetPrice s env mid "sell").1.1) ∧
      (∀ p, (loadAvellaneda s env).1 = some p → 0 < p.DeltaA ∧ 0 < p.DeltaB) ∧
      paramsValid (loadAvellaneda s env).2.1) ∧
    (∀ (cfg : Config) (market : MarketInfo) (accountID : Int) (events : List Event),
      paramsValid (run (newStrategy cfg market accountID) events).1) := by
  have hne : ¬ ("sell" : String) = "buy" := fun h => buy_ne_sell h.symm
  constructor
  · intro s env mid hmid hspread hv
    obtain ⟨hret, hcache⟩ := loadAvellaneda_valid s env hv
    refine ⟨?_, ?_, hret, hcache⟩
    · intro hok
      rcases h : (loadAvellaneda s env).1 with _ | p
      · by_cases hreq : s.cfg.RequireParams = true
        · simp [calculateTargetPrice, h, hreq] at hok
        · simp only [calculateTargetPrice, h, hreq, if_true, if_false]
          have hprod : mid * s.cfg.Spread > 0 := mul_pos hmid hspread
          have hexp : mid * (1 - s.cfg.Spread) = mid - mid * s.cfg.Spread := by ring
          show mid * (1 - s.cfg.Spread) ≤ mid
          rw [hexp]
          linarith
      · have hp := (hret p h).2
        simp only [calculateTargetPrice, h, if_true]
        linarith
    · intro hok
      rcases h : (loadAvellaneda s env).1 with _ | p
      · by_cases hreq : s.cfg.RequireParams = true
        · simp [calculateTargetPrice, h, hreq] at hok
        · simp only [calculateTargetPrice, h, hreq, hne, if_false]
          have hprod : mid * s.cfg.Spread > 0 := mul_pos hmid hspread
          have hexp : mid * (1 + s.cfg.Spread) = mid + mid * s.cfg.Spread := by ring
          show mid ≤ mid * (1 + s.cfg.Spread)
          rw [hexp]
          linarith
      · have hp := (hret p h).1
        simp only [calculateTargetPrice, h, hne, if_false]
        linarith
  · intro cfg market accountID events
    exact paramsValid_run _ events (paramsValid_newStrategy cfg market accountID)

theorem determineBaseAmount_dynamic (s : Strategy) (mid position : ℚ)
    (hd : s.cfg.UseDynamicSizing = true) (hc : 0 < s.availableCapital) (hm : 0 < mid) :
    determineBaseAmount s "buy" mid position =
      max (s.availableCapital * (1 - s.cfg.SafetyMargin) * s.cfg.CapitalUsage / mid)
        s.market.SizeTick := by
  simp only [determineBaseAmount, buy_ne_sell, hd, not_le.mpr hc, not_le.mpr hm, if_false,
    Bool.true_eq_false]
  split_ifs with h
  · exact (max_eq_right (le_of_lt h)).symm
  · exact (max_eq_left (not_lt.mp h)).symm

/-- C24 as stated fails: with capital 1, mid price 100 and size tick 0.1
the computed size 0.0000980 is raised to the size tick, whose notional 10
exceeds the capital. -/
theorem determineBaseAmount_buy_exceeds_capital :
    exPoor.cfg.UseDynamicSizing = true ∧ 0 < exPoor.availableCapital ∧
    0 < exPoor.market.SizeTick ∧
    0 ≤ exPoor.cfg.SafetyMargin ∧ exPoor.cfg.SafetyMargin ≤ 1 ∧
    0 ≤ exPoor.cfg.CapitalUsage ∧ exPoor.cfg.CapitalUsage ≤ 1 ∧
    determineBaseAmount exPoor "buy" 100 0 = 1 / 10 ∧
    ¬ determineBaseAmount exPoor "buy" 100 0 * 100 ≤ exPoor.availableCapital := by
  have hsize : determineBaseAmount exPoor "buy" 100 0 = 1 / 10 := by
    norm_num [determineBaseAmount, exPoor, exDynamic, exDynamicConfig, exConfig, exIdle,
      exHeld, exMarket, buy_ne_sell]
  rw [hsize]
  norm_num [exPoor, exDynamic, exDynamicConfig, exConfig, exIdle, exHeld, exMarket]

/-- C24, amended: for available capital > 0, mid > 0, a positive size tick,
and safety margin and capital-usage fraction both in [0, 1], with dynamic
sizing enabled the buy size of `determineBaseAmount` has a notional of at
most the available capital whenever the computed size
`capital * (1 - margin) * usage / mid` is at least one size tick; when it is
smaller the size is one size tick, and in every case the notional is at most
the larger of the available capital and the notional of one size tick. -/
theorem determineBaseAmount_buy_notional (s : Strategy) (mid position : ℚ)
    (hd : s.cfg.UseDynamicSizing = true) (hc : 0 < s.availableCapital) (hm : 0 < mid)
    (_ht : 0 < s.market.SizeTick)
    (hm0 : 0 ≤ s.cfg.SafetyMargin) (hm1 : s.cfg.SafetyMargin ≤ 1)
    (_hu0 : 0 ≤ s.cfg.CapitalUsage) (hu1 : s.cfg.CapitalUsage ≤ 1) :
    (s.market.SizeTick ≤
        s.availableCapital * (1 - s.cfg.SafetyMargin) * s.cfg.CapitalUsage / mid →
      determineBaseAmount s "buy" mid position * mid ≤ s.availableCapital) ∧
    (s.availableCapital * (1 - s.cfg.SafetyMargin) * s.cfg.CapitalUsage / mid <
        s.market.SizeTick →
      determineBaseAmount s "buy" mid position = s.market.SizeTick) ∧
    determineBaseAmount s "buy" mid position * mid ≤
      max s.availableCapital (s.market.SizeTick * mid) := by
  rw [determineBaseAmount_dynamic s mid position hd hc hm]
  have hcap : s.availableCapital * (1 - s.cfg.SafetyMargin) * s.cfg.CapitalUsage / mid * mid
      ≤ s.availableCapital := by
    rw [div_mul_cancel₀ _ (ne_of_gt hm)]
    have h1 : s.availableCapital * (1 - s.cfg.SafetyMargin) ≤ s.availableCapital := by
      have := mul_le_mul_of_nonneg_left (show 1 - s.cfg.SafetyMargin ≤ 1 by linarith)
        (le_of_lt hc)
      rwa [mul_one] at this
    have h2 : 0 ≤ s.availableCapital * (1 - s.cfg.SafetyMargin) :=
      mul_nonneg (le_of_lt hc) (by linarith)
    have := mul_le_mul_of_nonneg_left hu1 h2
    rw [mul_one] at this
    linarith
  refine ⟨?_, ?_, ?_⟩
  · intro h
    rw [max_eq_left h]
    exact hcap
  · intro h
    exact max_eq_right (le_of_lt h)
  · rcases le_total s.market.SizeTick
      (s.availableCapital * (1 - s.cfg.SafetyMargin) * s.cfg.CapitalUsage / mid) with h | h
    · rw [max_eq_left h]
      exact le_trans hcap (le_max_left _ _)
    · rw [max_eq_right h]
      exact le_max_right _ _

/-! ## The recorded order -/

theorem placeOrder_record_matches_request (s : Strategy) (env : PlaceEnv) (side : String)
    (price size : ℚ) (reduceOnly : Bool) :
    (orderRecord s env side price size reduceOnly).BaseAmount =
      ((orderRequest s env side price size reduceOnly).BaseAmount : ℚ) * s.market.SizeTick ∧
    (orderRecord s env side price size reduceOnly).ID =
      (orderRequest s env side price size reduceOnly).ClientOrderIndex ∧
    ((orderRecord s env side price size reduceOnly).Side = "sell" ↔
      (orderRequest s env side price size reduceOnly).IsAsk = 1) ∧
    ((orderRecord s env side price size reduceOnly).ReduceOnly = true ↔
      (orderRequest s env side price size reduceOnly).ReduceOnly = 1) ∧
    (0 < s.market.PriceTick → 1 ≤ ⌊price / s.market.PriceTick⌋ →
      (orderRecord s env side price size reduceOnly).Price =
        ((orderRequest s env side price size reduceOnly).Price : ℚ) * s.market.PriceTick) ∧
    (0 < s.market.PriceTick → ⌊price / s.market.PriceTick⌋ < 1 →
      (orderRequest s env side price size reduceOnly).Price = 1 ∧
      (orderRecord s env side price size reduceOnly).Price <
        ((orderRequest s env side price size reduceOnly).Price : ℚ) * s.market.PriceTick) := by
  refine ⟨rfl, rfl, ?_, ?_, ?_, ?_⟩
  · simp only [orderRecord, orderRequest, boolToUint8]
    by_cases h : side = "sell" <;> simp [h]
  · simp only [orderRecord, orderRequest, boolToUint8]
    cases reduceOnly <;> simp
  · intro hp h1
    rw [orderRequest_Price s env side price size reduceOnly hp, max_eq_right h1]
    rfl
  · intro hp h1
    have hreq : (orderRequest s env side price size reduceOnly).Price = 1 := by
      rw [orderRequest_Price s env side price size reduceOnly hp]
      exact max_eq_left (le_of_lt h1)
    refine ⟨hreq, ?_⟩
    rw [hreq]
    have h0 : ⌊price / s.market.PriceTick⌋ ≤ 0 := by omega
    have hq : ((⌊price / s.market.PriceTick⌋ : ℤ) : ℚ) ≤ 0 := by exact_mod_cast h0
    have hle : ((⌊price / s.market.PriceTick⌋ : ℤ) : ℚ) * s.market.PriceTick ≤ 0 :=
      mul_nonpos_of_nonpos_of_nonneg hq (le_of_lt hp)
    have : (orderRecord s env side price size reduceOnly).Price =
        ((⌊price / s.market.PriceTick⌋ : ℤ) : ℚ) * s.market.PriceTick := rfl
    rw [this]
    have hpos : (0 : ℚ) < ((1 : ℤ) : ℚ) * s.market.PriceTick := by
      rw [Int.cast_one, one_mul]
      exact hp
    linarith

/-- C25, evaluated where the code departs from it: asked for the price
0.005 on a market of price tick 0.01, `placeOrder` submits one price step
(the price 0.01) and, on success, records an order at the price 0. -/
theorem placeOrder_records_unclamped_price :
    placeOrder exIdle exEnv.place "buy" (1 / 200) 1 false =
      ⟨{ exIdle with openOrder := some exLowOrder }, none,
        [Action.placeOrder none, Action.submit exLowRequest true]⟩ ∧
    exLowOrder.Price = 0 ∧
    (exLowRequest.Price : ℚ) * exIdle.market.PriceTick = 1 / 100 ∧
    exLowOrder.Price ≠ (exLowRequest.Price : ℚ) * exIdle.market.PriceTick := by
  refine ⟨?_, ?_, ?_, ?_⟩
  · norm_num [placeOrder, orderRequest, orderRecord, nextOrderID, boolToUint8, exIdle, exHeld,
      exEnv, exMarket, exRequest, exNewOrder, exLowRequest, exLowOrder, Second, Minute,
      buy_ne_sell]
  · rfl
  · norm_num [exLowRequest, exRequest, exIdle, exHeld, exMarket]
  · norm_num [exLowOrder, exNewOrder, exLowRequest, exRequest, exIdle, exHeld, exMarket]

/-! ## The claims on invariants at the sample inputs -/

/-- C22 at the sample state `exBuyFilled` (side `buy`, position 2) and the
mid price 101: the side flips to `sell` and the sell size is 2. -/
theorem evaluatePostCycle_sell_has_size_witness :
    (0 : ℚ) < 101 ∧ 0 ≤ exBuyFilled.cfg.MinPositionValueUSD ∧
    (evaluatePostCycle exBuyFilled 101).currentSide = "sell" ∧
    determineBaseAmount (evaluatePostCycle exBuyFilled 101) "sell" 101 exBuyFilled.positionSize =
      exBuyFilled.positionSize ∧
    0 < exBuyFilled.positionSize := by
  have hmid : (0 : ℚ) < 101 := by norm_num
  have hfloor : 0 ≤ exBuyFilled.cfg.MinPositionValueUSD := by
    norm_num [exBuyFilled, exIdle, exHeld, exConfig]
  have hsell : (evaluatePostCycle exBuyFilled 101).currentSide = "sell" := by
    norm_num [evaluatePostCycle, exBuyFilled, exIdle, exHeld, exConfig]
  have h := evaluatePostCycle_sell_has_size exBuyFilled 101 hmid hfloor hsell
  exact ⟨hmid, hfloor, hsell, h.1, h.2⟩

/-- C23, amended, at the sample state `exIdle`, which quotes with the static
spread of 1%, and at the state `exCached`, which quotes with cached offsets;
and for the run `exStaleRun` from a new strategy. -/
theorem calculateTargetPrice_target_within_mid_witness :
    (0 : ℚ) < 101 ∧ 0 < exIdle.cfg.Spread ∧ paramsValid exIdle ∧
    (calculateTargetPrice exIdle exEnv.params 101 "buy").1.2 = true ∧
    (calculateTargetPrice exIdle exEnv.params 101 "buy").1.1 ≤ 101 ∧
    paramsValid exCached ∧
    (calculateTargetPrice exCached exParamsEnv 101 "sell").1.2 = true ∧
    101 ≤ (calculateTargetPrice exCached exParamsEnv 101 "sell").1.1 ∧
    paramsValid (run (newStrategy exConfig exMarket 5) exStaleRun).1 := by
  have hmid : (0 : ℚ) < 101 := by norm_num
  have hspread : 0 < exIdle.cfg.Spread := by norm_num [exIdle, exHeld, exConfig]
  have hspread' : 0 < exCached.cfg.Spread := by norm_num [exCached, exIdle, exHeld, exConfig]
  have hv : paramsValid exIdle := trivial
  have hv' : paramsValid exCached := by
    norm_num [paramsValid, exCached, exParams]
  have hok : (calculateTargetPrice exIdle exEnv.params 101 "buy").1.2 = true := by
    norm_num [calculateTargetPrice, loadAvellaneda, loadFromCandidates, scanCandidates, exIdle,
      exHeld, exEnv, exConfig]
  have hok' : (calculateTargetPrice exCached exParamsEnv 101 "sell").1.2 = true := by
    have hne : ¬ ("sell" : String) = "buy" := by decide
    norm_num [calculateTargetPrice, loadAvellaneda, exCached, exIdle, exHeld, exParamsEnv,
      exConfig, Second, hne]
  have h := calculateTargetPrice_target_within_mid.1 exIdle exEnv.params 101 hmid hspread hv
  have h' := calculateTargetPrice_target_within_mid.1 exCached exParamsEnv 101 hmid hspread' hv'
  exact ⟨hmid, hspread, hv, hok, h.1 hok, hv', hok', h'.2.1 hok',
    calculateTargetPrice_target_within_mid.2 exConfig exMarket 5 exStaleRun⟩

/-- C24, amended, at the sample state `exDynamic` (capital 1000, size tick
0.1) and the mid price 100: the size 9.801 has the notional 980.1. -/
theorem determineBaseAmount_buy_notional_witness :
    exDynamic.cfg.UseDynamicSizing = true ∧ 0 < exDynamic.availableCapital ∧ (0 : ℚ) < 100 ∧
    0 < exDynamic.market.SizeTick ∧
    0 ≤ exDynamic.cfg.SafetyMargin ∧ exDynamic.cfg.SafetyMargin ≤ 1 ∧
    0 ≤ exDynamic.cfg.CapitalUsage ∧ exDynamic.cfg.CapitalUsage ≤ 1 ∧
    exDynamic.market.SizeTick ≤
      exDynamic.availableCapital * (1 - exDynamic.cfg.SafetyMargin) *
        exDynamic.cfg.CapitalUsage / 100 ∧
    determineBaseAmount exDynamic "buy" 100 0 * 100 ≤ exDynamic.availableCapital ∧
    determineBaseAmount exDynamic "buy" 100 0 * 100 ≤
      max exDynamic.availableCapital (exDynamic.market.SizeTick * 100) := by
  have hc : 0 < exDynamic.availableCapital := by norm_num [exDynamic, exIdle, exHeld]
  have hm : (0 : ℚ) < 100 := by norm_num
  have ht : 0 < exDynamic.market.SizeTick := by norm_num [exDynamic, exIdle, exHeld, exMarket]
  have hm0 : 0 ≤ exDynamic.cfg.SafetyMargin := by
    norm_num [exDynamic, exDynamicConfig, exConfig]
  have hm1 : exDynamic.cfg.SafetyMargin ≤ 1 := by
    norm_num [exDynamic, exDynamicConfig, exConfig]
  have hu0 : 0 ≤ exDynamic.cfg.CapitalUsage := by
    norm_num [exDynamic, exDynamicConfig, exConfig]
  have hu1 : exDynamic.cfg.CapitalUsage ≤ 1 := by
    norm_num [exDynamic, exDynamicConfig, exConfig]
  have hbig : exDynamic.market.SizeTick ≤
      exDynamic.availableCapital * (1 - exDynamic.cfg.SafetyMargin) *
        exDynamic.cfg.CapitalUsage / 100 := by
    norm_num [exDynamic, exDynamicConfig, exConfig, exIdle, exHeld, exMarket]
  have h := determineBaseAmount_buy_notional exDynamic 100 0 rfl hc hm ht hm0 hm1 hu0 hu1
  exact ⟨rfl, hc, hm, ht, hm0, hm1, hu0, hu1, hbig, h.1 hbig, h.2.2⟩

/-! ## float64 arithmetic, evaluated -/

theorem log_two_eq (x : ℚ) (e : ℤ) (hlo : (2 : ℚ) ^ e ≤ |x|) (hhi : |x| < (2 : ℚ) ^ (e + 1)) :
    Int.log 2 |x| = e := by
  have hpos : 0 < |x| := lt_of_lt_of_le (zpow_pos (by norm_num) e) hlo
  have h1 : e ≤ Int.log 2 |x| :=
    (Int.zpow_le_iff_le_log (by norm_num) hpos).1 (by exact_mod_cast hlo)
  have h2 : Int.log 2 |x| < e + 1 :=
    (Int.lt_zpow_iff_log_lt (by norm_num) hpos).1 (by exact_mod_cast hhi)
  omega

theorem ulp64_eq (x : ℚ) (e : ℤ) (hlo : (2 : ℚ) ^ e ≤ |x|) (hhi : |x| < (2 : ℚ) ^ (e + 1))
    (he : -1022 ≤ e) : ulp64 x = 2 ^ (e - 52) := by
  unfold ulp64
  rw [log_two_eq x e hlo hhi, max_eq_left he]

theorem round64_eq (x : ℚ) (e m : ℤ) (hlo : (2 : ℚ) ^ e ≤ |x|) (hhi : |x| < (2 : ℚ) ^ (e + 1))
    (he : -1022 ≤ e) (hm : roundHalfEven (x / 2 ^ (e - 52)) = m) :
    round64 x = m * 2 ^ (e - 52) := by
  unfold round64
  rw [ulp64_eq x e hlo hhi he, hm]

theorem ofRat_eq (x y : ℚ) (h : round64 x = y) (hy : |y| < 2 ^ 1024) :
    Float64.ofRat x = .finite y := by
  unfold Float64.ofRat
  rw [h, if_neg (not_le.mpr hy)]

theorem div_finite (a b y : ℚ) (hb : b ≠ 0) (h : round64 (a / b) = y) (hy : |y| < 2 ^ 1024) :
    Float64.div (.finite a) (.finite b) = .finite y := by
  simp only [Float64.div, hb, if_false]
  exact ofRat_eq _ _ h hy

theorem mul_finite (a b y : ℚ) (h : round64 (a * b) = y) (hy : |y| < 2 ^ 1024) :
    Float64.mul (.finite a) (.finite b) = .finite y := by
  simp only [Float64.mul]
  exact ofRat_eq _ _ h hy

theorem add_finite (a b y : ℚ) (h : round64 (a + b) = y) (hy : |y| < 2 ^ 1024) :
    Float64.add (.finite a) (.finite b) = .finite y := by
  simp only [Float64.add]
  exact ofRat_eq _ _ h hy

/-- The sample values are the float64 values nearest to the decimals they
are named after. -/
theorem round64_samples :
    round64 (1 / 100) = tick001 ∧ round64 (1 / 10) = tick01 ∧
    round64 (128205 / 1000) = price128205 ∧ round64 (1282 / 10) = price1282 ∧
    round64 (12819 / 100) = price12819 := by
  refine ⟨?_, ?_, ?_, ?_, ?_⟩
  · rw [round64_eq _ (-7) 5764607523034235 (by norm_num [abs_of_pos])
      (by norm_num [abs_of_pos]) (by norm_num) (by norm_num [roundHalfEven])]
    norm_num [tick001]
  · rw [round64_eq _ (-4) 7205759403792794 (by norm_num [abs_of_pos])
      (by norm_num [abs_of_pos]) (by norm_num) (by norm_num [roundHalfEven])]
    norm_num [tick01]
  · rw [round64_eq _ 7 4510812423648707 (by norm_num [abs_of_pos])
      (by norm_num [abs_of_pos]) (by norm_num) (by norm_num [roundHalfEven])]
    norm_num [price128205]
  · rw [round64_eq _ 7 4510636501788262 (by norm_num [abs_of_pos])
      (by norm_num [abs_of_pos]) (by norm_num) (by norm_num [roundHalfEven])]
    norm_num [price1282]
  · rw [round64_eq _ 7 4510284658067374 (by norm_num [abs_of_pos])
      (by norm_num [abs_of_pos]) (by norm_num) (by norm_num [roundHalfEven])]
    norm_num [price12819]

theorem round64_more_samples :
    round64 (105 / 100) = size105 ∧ round64 (100005 / 1000) = mid100005 ∧
    round64 (1 / 1000) = delta0001 ∧ round64 (9999 / 100) = price9999 ∧
    round64 (5 / 1000) = price0005 ∧ round64 (100006 / 1000) = target100006 := by
  refine ⟨?_, ?_, ?_, ?_, ?_, ?_⟩
  · rw [round64_eq _ 0 4728779608739021 (by norm_num [abs_of_pos])
      (by norm_num [abs_of_pos]) (by norm_num) (by norm_num [roundHalfEven])]
    norm_num [size105]
  · rw [round64_eq _ 6 7037226261487288 (by norm_num [abs_of_pos])
      (by norm_num [abs_of_pos]) (by norm_num) (by norm_num [roundHalfEven])]
    norm_num [mid100005]
  · rw [round64_eq _ (-10) 4611686018427388 (by norm_num [abs_of_pos])
      (by norm_num [abs_of_pos]) (by norm_num) (by norm_num [roundHalfEven])]
    norm_num [delta0001]
  · rw [round64_eq _ 6 7036170730324623 (by norm_num [abs_of_pos])
      (by norm_num [abs_of_pos]) (by norm_num) (by norm_num [roundHalfEven])]
    norm_num [price9999]
  · rw [round64_eq _ (-8) 5764607523034235 (by norm_num [abs_of_pos])
      (by norm_num [abs_of_pos]) (by norm_num) (by norm_num [roundHalfEven])]
    norm_num [price0005]
  · rw [round64_eq _ 6 7037296630231466 (by norm_num [abs_of_pos])
      (by norm_num [abs_of_pos]) (by norm_num) (by norm_num [roundHalfEven])]
    norm_num [target100006]

theorem div_price128205 :
    Float64.div (.finite price128205) (.finite tick001) =
      .finite (7048144411951105 / 549755813888) := by
  apply div_finite _ _ _ (by norm_num [tick001]) _ (by norm_num [abs_of_pos])
  rw [round64_eq _ 13 7048144411951105 (by norm_num [abs_of_pos, price128205, tick001])
    (by norm_num [abs_of_pos, price128205, tick001]) (by norm_num)
    (by norm_num [roundHalfEven, price128205, tick001])]
  norm_num

theorem mul_12820_tick001 :
    Float64.mul (.finite 12820) (.finite tick001) = .finite price1282 := by
  apply mul_finite _ _ _ _ (by norm_num [abs_of_pos, price1282])
  rw [round64_eq _ 7 4510636501788262 (by norm_num [abs_of_pos, tick001])
    (by norm_num [abs_of_pos, tick001]) (by norm_num) (by norm_num [roundHalfEven, tick001])]
  norm_num [price1282]

theorem div_price1282 :
    Float64.div (.finite price1282) (.finite tick001) =
      .finite (7047869534044159 / 549755813888) := by
  apply div_finite _ _ _ (by norm_num [tick001]) _ (by norm_num [abs_of_pos])
  rw [round64_eq _ 13 7047869534044159 (by norm_num [abs_of_pos, price1282, tick001])
    (by norm_num [abs_of_pos, price1282, tick001]) (by norm_num)
    (by norm_num [roundHalfEven, price1282, tick001])]
  norm_num

theorem mul_12819_tick001 :
    Float64.mul (.finite 12819) (.finite tick001) = .finite price12819 := by
  apply mul_finite _ _ _ _ (by norm_num [abs_of_pos, price12819])
  rw [round64_eq _ 7 4510284658067374 (by norm_num [abs_of_pos, tick001])
    (by norm_num [abs_of_pos, tick001]) (by norm_num) (by norm_num [roundHalfEven, tick001])]
  norm_num [price12819]

theorem div_size105_tick01 :
    Float64.div (.finite size105) (.finite tick01) = .finite (21 / 2) := by
  apply div_finite _ _ _ (by norm_num [tick01]) _ (by norm_num [abs_of_pos])
  rw [round64_eq _ 3 5910974510923776 (by norm_num [abs_of_pos, size105, tick01])
    (by norm_num [abs_of_pos, size105, tick01]) (by norm_num)
    (by norm_num [roundHalfEven, size105, tick01])]
  norm_num

theorem mul_10_tick01 : Float64.mul (.finite 10) (.finite tick01) = .finite 1 := by
  apply mul_finite _ _ _ _ (by norm_num [abs_of_pos])
  rw [round64_eq _ 0 4503599627370496 (by norm_num [abs_of_pos, tick01])
    (by norm_num [abs_of_pos, tick01]) (by norm_num) (by norm_num [roundHalfEven, tick01])]
  norm_num

theorem floor_div_price128205 :
    Float64.floor (Float64.div (.finite price128205) (.finite tick001)) = .finite 12820 := by
  rw [div_price128205]
  norm_num [Float64.floor]

theorem floor_div_price1282 :
    Float64.floor (Float64.div (.finite price1282) (.finite tick001)) = .finite 12819 := by
  rw [div_price1282]
  norm_num [Float64.floor]

theorem floor_div_size105 :
    Float64.floor (Float64.div (.finite size105) (.finite tick01)) = .finite 10 := by
  rw [div_size105_tick01]
  norm_num [Float64.floor]

theorem roundToTick64_price128205 :
    roundToTick64 (.finite tick001) (.finite price128205) = .finite price1282 := by
  unfold roundToTick64
  rw [floor_div_price128205]
  exact mul_12820_tick001

theorem roundToTick64_price1282 :
    roundToTick64 (.finite tick001) (.finite price1282) = .finite price12819 := by
  unfold roundToTick64
  rw [floor_div_price1282]
  exact mul_12819_tick001

theorem div_one_tick01 : Float64.div (.finite 1) (.finite tick01) = .finite 10 := by
  apply div_finite _ _ _ (by norm_num [tick01]) _ (by norm_num [abs_of_pos])
  rw [round64_eq _ 3 5629499534213120 (by norm_num [abs_of_pos, tick01])
    (by norm_num [abs_of_pos, tick01]) (by norm_num) (by norm_num [roundHalfEven, tick01])]
  norm_num

/-! ## Rounding does not cross a float64 value -/

theorem roundHalfEven_intCast (n : ℤ) : roundHalfEven (n : ℚ) = n := by
  unfold roundHalfEven
  simp

theorem floor_le_roundHalfEven (x : ℚ) : ⌊x⌋ ≤ roundHalfEven x := by
  unfold roundHalfEven
  split_ifs <;> omega

theorem roundHalfEven_le_floor_add_one (x : ℚ) : roundHalfEven x ≤ ⌊x⌋ + 1 := by
  unfold roundHalfEven
  split_ifs <;> omega

theorem roundHalfEven_mono (x y : ℚ) (h : x ≤ y) : roundHalfEven x ≤ roundHalfEven y := by
  rcases lt_or_eq_of_le (Int.floor_mono h) with hlt | heq
  · calc roundHalfEven x ≤ ⌊x⌋ + 1 := roundHalfEven_le_floor_add_one x
      _ ≤ ⌊y⌋ := hlt
      _ ≤ roundHalfEven y := floor_le_roundHalfEven y
  · have hfr : x - ⌊x⌋ ≤ y - ⌊y⌋ := by
      rw [heq]
      linarith
    unfold roundHalfEven
    rw [heq]
    rw [heq] at hfr
    split_ifs with h1 h2 h3 h4 h5 h6 h7 h8 <;> first | omega | (exfalso; linarith)

theorem roundHalfEven_neg (x : ℚ) : roundHalfEven (-x) = -roundHalfEven x := by
  by_cases hint : (⌊x⌋ : ℚ) = x
  · rw [← hint, ← Int.cast_neg, roundHalfEven_intCast, roundHalfEven_intCast]
  · have hlt : (⌊x⌋ : ℚ) < x := lt_of_le_of_ne (Int.floor_le x) hint
    have hfl : ⌊-x⌋ = -⌊x⌋ - 1 := by
      rw [Int.floor_eq_iff]
      push_cast
      constructor
      · have := Int.lt_floor_add_one x
        linarith
      · linarith
    unfold roundHalfEven
    rw [hfl]
    push_cast
    split_ifs <;> first | omega | (exfalso; linarith)

theorem ulp64_pos (x : ℚ) : 0 < ulp64 x := by
  unfold ulp64
  exact zpow_pos (by norm_num) _

theorem ulp64_neg (x : ℚ) : ulp64 (-x) = ulp64 x := by
  unfold ulp64
  rw [abs_neg]

theorem round64_neg (x : ℚ) : round64 (-x) = -round64 x := by
  unfold round64
  rw [ulp64_neg, neg_div, roundHalfEven_neg]
  push_cast
  ring

theorem round64_zero : round64 0 = 0 := by
  norm_num [round64, roundHalfEven]

/-- Rounding does not cross a float64 value from below: if `x ≤ y` and `y`
is a float64 value, the float64 nearest to `x` is at most `y`. -/
theorem round64_le_of_le (x y : ℚ) (hxy : x ≤ y) (hy : round64 y = y) : round64 x ≤ y := by
  by_cases hE : max (Int.log 2 |x|) (-1022) ≤ max (Int.log 2 |y|) (-1022)
  · obtain ⟨k, hk⟩ := Int.eq_ofNat_of_zero_le (sub_nonneg.mpr hE)
    have hu : ulp64 y = (2 : ℚ) ^ k * ulp64 x := by
      unfold ulp64
      rw [← zpow_natCast, ← zpow_add₀ (by norm_num)]
      congr 1
      omega
    have hyrep : y = ((roundHalfEven (y / ulp64 y) * 2 ^ k : ℤ) : ℚ) * ulp64 x := by
      conv_lhs => rw [← hy]
      unfold round64
      push_cast
      rw [hu]
      ring
    have hdiv : x / ulp64 x ≤ ((roundHalfEven (y / ulp64 y) * 2 ^ k : ℤ) : ℚ) := by
      rw [div_le_iff₀ (ulp64_pos x), ← hyrep]
      exact hxy
    have hr := roundHalfEven_mono _ _ hdiv
    rw [roundHalfEven_intCast] at hr
    have hr' : (roundHalfEven (x / ulp64 x) : ℚ) ≤
        ((roundHalfEven (y / ulp64 y) * 2 ^ k : ℤ) : ℚ) := by exact_mod_cast hr
    calc round64 x = roundHalfEven (x / ulp64 x) * ulp64 x := rfl
      _ ≤ ((roundHalfEven (y / ulp64 y) * 2 ^ k : ℤ) : ℚ) * ulp64 x :=
        mul_le_mul_of_nonneg_right hr' (le_of_lt (ulp64_pos x))
      _ = y := hyrep.symm
  · rw [not_le] at hE
    by_cases hx0 : x = 0
    · rw [hx0, round64_zero]
      rw [hx0] at hxy
      exact hxy
    · have hxpos : 0 < |x| := abs_pos.mpr hx0
      have hlx : max (Int.log 2 |x|) (-1022) = Int.log 2 |x| := by
        apply max_eq_left
        by_contra hc
        rw [not_le] at hc
        rw [max_eq_right (le_of_lt hc)] at hE
        have := le_max_right (Int.log 2 |y|) (-1022)
        omega
      rw [hlx] at hE
      have hly : Int.log 2 |y| + 1 ≤ Int.log 2 |x| := by
        have := le_max_left (Int.log 2 |y|) (-1022)
        omega
      have h1 : (2 : ℚ) ^ Int.log 2 |x| ≤ |x| := by
        have := Int.zpow_log_le_self (b := 2) (by norm_num) hxpos
        exact_mod_cast this
      have h2 : |y| < (2 : ℚ) ^ Int.log 2 |x| := by
        have := Int.lt_zpow_succ_log_self (b := 2) (by norm_num) |y|
        have h3 : ((2 : ℕ) : ℚ) ^ (Int.log 2 |y| + 1) ≤ ((2 : ℕ) : ℚ) ^ Int.log 2 |x| :=
          zpow_le_zpow_right₀ (by norm_num) hly
        have h4 := lt_of_lt_of_le this h3
        exact_mod_cast h4
      have hxneg : x < 0 := by
        by_contra hc
        rw [not_lt] at hc
        have hax : |x| = x := abs_of_nonneg hc
        have : y ≤ |y| := le_abs_self y
        linarith
      have hxle : x ≤ -(2 : ℚ) ^ Int.log 2 |x| := by
        have hax : |x| = -x := abs_of_neg hxneg
        linarith
      have hux : ulp64 x = (2 : ℚ) ^ (Int.log 2 |x| - 52) := by
        unfold ulp64
        rw [hlx]
      have hpow : (2 : ℚ) ^ Int.log 2 |x| = ((4503599627370496 : ℤ) : ℚ) * ulp64 x := by
        rw [hux, zpow_sub₀ (by norm_num)]
        have : (2 : ℚ) ^ (52 : ℤ) = 4503599627370496 := by norm_num
        rw [this]
        push_cast
        field_simp
      have hdiv : x / ulp64 x ≤ ((-4503599627370496 : ℤ) : ℚ) := by
        rw [div_le_iff₀ (ulp64_pos x)]
        push_cast
        rw [hpow] at hxle
        push_cast at hxle
        linarith
      have hr := roundHalfEven_mono _ _ hdiv
      rw [roundHalfEven_intCast] at hr
      have hr' : (roundHalfEven (x / ulp64 x) : ℚ) ≤ ((-4503599627370496 : ℤ) : ℚ) := by
        exact_mod_cast hr
      have hfin : round64 x ≤ -(2 : ℚ) ^ Int.log 2 |x| := by
        calc round64 x = roundHalfEven (x / ulp64 x) * ulp64 x := rfl
          _ ≤ ((-4503599627370496 : ℤ) : ℚ) * ulp64 x :=
            mul_le_mul_of_nonneg_right hr' (le_of_lt (ulp64_pos x))
          _ = -(2 : ℚ) ^ Int.log 2 |x| := by
            rw [hpow]
            push_cast
            ring
      have : -|y| ≤ y := neg_abs_le y
      linarith

/-- Rounding does not cross a float64 value from above. -/
theorem le_round64_of_le (x y : ℚ) (hxy : y ≤ x) (hy : round64 y = y) : y ≤ round64 x := by
  have h := round64_le_of_le (-x) (-y) (neg_le_neg hxy) (by rw [round64_neg, hy])
  rw [round64_neg] at h
  linarith

theorem round64_one : round64 1 = 1 := by
  rw [round64_eq _ 0 4503599627370496 (by norm_num [abs_of_pos]) (by norm_num [abs_of_pos])
    (by norm_num) (by norm_num [roundHalfEven])]
  norm_num

theorem ofRat_le (x m : ℚ) (hxm : x ≤ m) (hm : round64 m = m)
    (hfin : m < 2 ^ 1024) : Float64.le (Float64.ofRat x) (.finite m) = true := by
  unfold Float64.ofRat
  have hle := round64_le_of_le x m hxm hm
  by_cases hov : (2 : ℚ) ^ 1024 ≤ |round64 x|
  · rw [if_pos hov]
    have hx : ¬ 0 < x := by
      intro hx
      have h0 := le_round64_of_le x 0 (le_of_lt hx) round64_zero
      rw [abs_of_nonneg h0] at hov
      linarith
    rw [if_neg hx]
    rfl
  · rw [if_neg hov]
    simp only [Float64.le, decide_eq_true_eq]
    exact hle

theorem le_ofRat (x m : ℚ) (hmx : m ≤ x) (hm : round64 m = m) (hm0 : 0 < m) :
    Float64.le (.finite m) (Float64.ofRat x) = true := by
  unfold Float64.ofRat
  have hle := le_round64_of_le x m hmx hm
  by_cases hov : (2 : ℚ) ^ 1024 ≤ |round64 x|
  · rw [if_pos hov, if_pos (lt_of_lt_of_le hm0 hmx)]
    rfl
  · rw [if_neg hov]
    simp only [Float64.le, decide_eq_true_eq]
    exact hle

theorem mul_le_of_le_one (m : ℚ) (c : Float64) (hm0 : 0 < m) (hm : round64 m = m)
    (hfin : m < 2 ^ 1024) (hc : Float64.le c (.finite 1) = true) :
    Float64.le (Float64.mul (.finite m) c) (.finite m) = true := by
  cases c with
  | nan => simp [Float64.le] at hc
  | posInf => simp [Float64.le] at hc
  | negInf => simp [Float64.mul, ne_of_gt hm0, hm0, Float64.le]
  | finite c =>
    have hc1 : c ≤ 1 := by simpa [Float64.le] using hc
    simp only [Float64.mul]
    apply ofRat_le _ _ _ hm hfin
    have := mul_le_mul_of_nonneg_left hc1 (le_of_lt hm0)
    linarith

theorem le_mul_of_one_le (m : ℚ) (c : Float64) (hm0 : 0 < m) (hm : round64 m = m)
    (hc : Float64.le (.finite 1) c = true) :
    Float64.le (.finite m) (Float64.mul (.finite m) c) = true := by
  cases c with
  | nan => simp [Float64.le] at hc
  | negInf => simp [Float64.le] at hc
  | posInf => simp [Float64.mul, ne_of_gt hm0, hm0, Float64.le]
  | finite c =>
    have hc1 : 1 ≤ c := by simpa [Float64.le] using hc
    simp only [Float64.mul]
    apply le_ofRat _ _ _ hm hm0
    have := mul_le_mul_of_nonneg_left hc1 (le_of_lt hm0)
    linarith

theorem one_sub_le_one (spread : Float64) (hs : Float64.lt (.finite 0) spread = true) :
    Float64.le (Float64.sub (.finite 1) spread) (.finite 1) = true := by
  cases spread with
  | nan => simp [Float64.lt] at hs
  | negInf => simp [Float64.lt] at hs
  | posInf => simp [Float64.sub, Float64.neg, Float64.add, Float64.le]
  | finite s =>
    have hs0 : 0 < s := by simpa [Float64.lt] using hs
    simp only [Float64.sub, Float64.neg, Float64.add]
    exact ofRat_le _ _ (by linarith) round64_one (by norm_num)

theorem one_le_one_add (spread : Float64) (hs : Float64.lt (.finite 0) spread = true) :
    Float64.le (.finite 1) (Float64.add (.finite 1) spread) = true := by
  cases spread with
  | nan => simp [Float64.lt] at hs
  | negInf => simp [Float64.lt] at hs
  | posInf => simp [Float64.add, Float64.le]
  | finite s =>
    have hs0 : 0 < s := by simpa [Float64.lt] using hs
    simp only [Float64.add]
    exact le_ofRat _ _ (by linarith) round64_one (by norm_num)

/-! ## Tick rounding in float64 -/

/-- C13, evaluated where the code departs from it: for the price 128.205
and the size 1.05 (as float64 values) on a market of price tick 0.01 and
size tick 0.1, `placeOrder` records the price 128.2 and submits 10 size
steps and 12819 price steps, while `floor(price / price_tick)` is 12820,
in exact arithmetic and in float64 alike: the division of the rounded price
128.2 by the tick gives 12819.999999999998 in float64, and the second floor
loses a tick. -/
theorem placeOrder64_price_one_tick_low :
    placeOrder64 (.finite tick001) (.finite tick01) (.finite price128205) (.finite size105) =
      some { priceRounded := .finite price1282, baseRounded := .finite 1,
             BaseAmount := 10, Price := 12819 } ∧
    ⌊size105 / tick01⌋ = 10 ∧
    max 1 ⌊price128205 / tick001⌋ = 12820 ∧
    Float64.floor (Float64.div (.finite price128205) (.finite tick001)) = .finite 12820 := by
  refine ⟨?_, by norm_num [size105, tick01], by norm_num [price128205, tick001],
    floor_div_price128205⟩
  unfold placeOrder64
  simp only [floor_div_price128205, mul_12820_tick001, floor_div_size105, mul_10_tick01,
    floor_div_price1282]
  norm_num [Float64.lt, Float64.toInt64, Float64.toUint32]

/-- C15, evaluated where the code departs from it, on the price tick 0.01:
the rounding `r(x) = math.Floor(x / t) * t` takes 128.205 to 128.2 and takes
128.2, which is the float64 product of 12820 and the tick, to 128.19, so it
is not idempotent and does not keep a multiple of the tick; and the step
count re-floored from the rounded price, `floor(r(price) / t)`, is 12819
where `floor(price / t)` is 12820. -/
theorem roundToTick64_not_idempotent :
    roundToTick64 (.finite tick001) (.finite price128205) = .finite price1282 ∧
    roundToTick64 (.finite tick001) (roundToTick64 (.finite tick001) (.finite price128205)) =
      .finite price12819 ∧
    price12819 < price1282 ∧
    Float64.mul (.finite 12820) (.finite tick001) = .finite price1282 ∧
    roundToTick64 (.finite tick001) (.finite price1282) ≠ .finite price1282 ∧
    Float64.floor (Float64.div (roundToTick64 (.finite tick001) (.finite price128205))
      (.finite tick001)) = .finite 12819 ∧
    Float64.floor (Float64.div (.finite price128205) (.finite tick001)) = .finite 12820 ∧
    ⌊price128205 / tick001⌋ = 12820 := by
  have hlt : price12819 < price1282 := by norm_num [price12819, price1282]
  refine ⟨roundToTick64_price128205, ?_, hlt, mul_12820_tick001, ?_, ?_, floor_div_price128205,
    by norm_num [price128205, tick001]⟩
  · rw [roundToTick64_price128205, roundToTick64_price1282]
  · rw [roundToTick64_price1282]
    intro h
    injection h with h
    exact absurd h (ne_of_lt hlt)
  · rw [roundToTick64_price128205]
    exact floor_div_price1282

/-- Beyond the range of `uint32` the price field wraps: 5000000000 price
steps (the price 5000000000 on a market of price tick 1) are submitted as
705032704. -/
theorem placeOrder64_price_wraps :
    placeOrder64 (.finite 1) (.finite 1) (.finite 5000000000) (.finite 1) =
      some { priceRounded := .finite 5000000000, baseRounded := .finite 1,
             BaseAmount := 1, Price := 705032704 } := by
  have h1 : round64 1 = 1 := round64_one
  have h5 : round64 5000000000 = 5000000000 := by
    rw [round64_eq _ 32 5242880000000000 (by norm_num [abs_of_pos]) (by norm_num [abs_of_pos])
      (by norm_num) (by norm_num [roundHalfEven])]
    norm_num
  have hd1 : Float64.div (.finite 1) (.finite 1) = .finite 1 :=
    div_finite _ _ _ (by norm_num) (by rw [div_one]; exact h1) (by norm_num [abs_of_pos])
  have hd5 : Float64.div (.finite 5000000000) (.finite 1) = .finite 5000000000 :=
    div_finite _ _ _ (by norm_num) (by rw [div_one]; exact h5) (by norm_num [abs_of_pos])
  have hm1 : Float64.mul (.finite 1) (.finite 1) = .finite 1 :=
    mul_finite _ _ _ (by rw [mul_one]; exact h1) (by norm_num [abs_of_pos])
  have hm5 : Float64.mul (.finite 5000000000) (.finite 1) = .finite 5000000000 :=
    mul_finite _ _ _ (by rw [mul_one]; exact h5) (by norm_num [abs_of_pos])
  have hf1 : Float64.floor (.finite 1) = .finite 1 := by norm_num [Float64.floor]
  have hf5 : Float64.floor (.finite 5000000000) = .finite 5000000000 := by
    norm_num [Float64.floor]
  unfold placeOrder64
  simp only [hd1, hd5, hf1, hf5, hm1, hm5]
  norm_num [Float64.lt, Float64.toInt64, Float64.toUint32]

/-- At the price 99.99 and the size 1 of the sample ticks, and at the price
0.005, the float64 arithmetic gives the step counts of the exact one: 9999
price steps and 10 size steps, and one price step for the price 0.005,
recorded at the price 0. -/
theorem placeOrder64_at_samples :
    placeOrder64 (.finite tick001) (.finite tick01) (.finite price9999) (.finite 1) =
      some { priceRounded := .finite (439760670645289 / 4398046511104),
             baseRounded := .finite 1, BaseAmount := exRequest.BaseAmount,
             Price := exRequest.Price } ∧
    placeOrder64 (.finite tick001) (.finite tick01) (.finite price0005) (.finite 1) =
      some { priceRounded := .finite 0, baseRounded := .finite 1,
             BaseAmount := exLowRequest.BaseAmount, Price := exLowRequest.Price } := by
  have hs : Float64.floor (Float64.div (.finite 1) (.finite tick01)) = .finite 10 := by
    rw [div_one_tick01]
    norm_num [Float64.floor]
  have hd1 : Float64.floor (Float64.div (.finite price9999) (.finite tick001)) =
      .finite 9999 := by
    have h : Float64.div (.finite price9999) (.finite tick001) = .finite 9999 := by
      apply div_finite _ _ _ (by norm_num [tick001]) _ (by norm_num [abs_of_pos])
      rw [round64_eq _ 13 5497008383066112 (by norm_num [abs_of_pos, price9999, tick001])
        (by norm_num [abs_of_pos, price9999, tick001]) (by norm_num)
        (by norm_num [roundHalfEven, price9999, tick001])]
      norm_num
    rw [h]
    norm_num [Float64.floor]
  have hm : Float64.mul (.finite 9999) (.finite tick001) =
      .finite (439760670645289 / 4398046511104) := by
    apply mul_finite _ _ _ _ (by norm_num [abs_of_pos])
    rw [round64_eq _ 6 7036170730324624 (by norm_num [abs_of_pos, tick001])
      (by norm_num [abs_of_pos, tick001]) (by norm_num) (by norm_num [roundHalfEven, tick001])]
    norm_num
  have hd2 : Float64.floor (Float64.div (.finite (439760670645289 / 4398046511104))
      (.finite tick001)) = .finite 9999 := by
    have h : Float64.div (.finite (439760670645289 / 4398046511104)) (.finite tick001) =
        .finite 9999 := by
      apply div_finite _ _ _ (by norm_num [tick001]) _ (by norm_num [abs_of_pos])
      rw [round64_eq _ 13 5497008383066112 (by norm_num [abs_of_pos, tick001])
        (by norm_num [abs_of_pos, tick001]) (by norm_num)
        (by norm_num [roundHalfEven, tick001])]
      norm_num
    rw [h]
    norm_num [Float64.floor]
  have hl1 : Float64.floor (Float64.div (.finite price0005) (.finite tick001)) = .finite 0 := by
    have h : Float64.div (.finite price0005) (.finite tick001) = .finite (1 / 2) := by
      apply div_finite _ _ _ (by norm_num [tick001]) _ (by norm_num [abs_of_pos])
      rw [round64_eq _ (-1) 4503599627370496 (by norm_num [abs_of_pos, price0005, tick001])
        (by norm_num [abs_of_pos, price0005, tick001]) (by norm_num)
        (by norm_num [roundHalfEven, price0005, tick001])]
      norm_num
    rw [h]
    norm_num [Float64.floor]
  have hr0 : round64 0 = 0 := round64_zero
  have hlm : Float64.mul (.finite 0) (.finite tick001) = .finite 0 :=
    mul_finite _ _ _ (by rw [zero_mul]; exact hr0) (by norm_num)
  have hl2 : Float64.floor (Float64.div (.finite 0) (.finite tick001)) = .finite 0 := by
    have h : Float64.div (.finite 0) (.finite tick001) = .finite 0 :=
      div_finite _ _ _ (by norm_num [tick001]) (by rw [zero_div]; exact hr0) (by norm_num)
    rw [h]
    norm_num [Float64.floor]
  constructor
  · unfold placeOrder64
    simp only [hd1, hm, hd2, hs, mul_10_tick01]
    norm_num [Float64.lt, Float64.toInt64, Float64.toUint32, exRequest]
  · unfold placeOrder64
    simp only [hl1, hlm, hl2, hs, mul_10_tick01]
    norm_num [Float64.lt, Float64.toInt64, Float64.toUint32, exLowRequest, exRequest]

/-! ## The feed and the account snapshot in float64 -/

theorem handleOrderBook64_spec (sample : MidSample) (parseFloat : String → Float64 × Bool)
    (resp : LighterOrderBookResponse) (now : Time) :
    (∀ bid ask, resp.Bids.head? = some bid → resp.Asks.head? = some ask →
      (parseFloat bid.Price).2 = true → (parseFloat ask.Price).2 = true →
      Float64.le (parseFloat bid.Price).1 (.finite 0) = false →
      Float64.le (parseFloat ask.Price).1 (.finite 0) = false →
      handleOrderBook64 sample parseFloat resp now =
        { midPrice := Float64.div
            (Float64.add (parseFloat bid.Price).1 (parseFloat ask.Price).1) (.finite 2),
          midPriceUpdatedAt := now }) ∧
    ((¬ ∃ bid ask, resp.Bids.head? = some bid ∧ resp.Asks.head? = some ask ∧
        (parseFloat bid.Price).2 = true ∧ (parseFloat ask.Price).2 = true ∧
        Float64.le (parseFloat bid.Price).1 (.finite 0) = false ∧
        Float64.le (parseFloat ask.Price).1 (.finite 0) = false) →
      handleOrderBook64 sample parseFloat resp now = sample) := by
  unfold handleOrderBook64
  rcases hb : resp.Bids with _ | ⟨bid, bids⟩
  · refine ⟨?_, fun _ => rfl⟩
    intro b a h
    simp at h
  · rcases ha : resp.Asks with _ | ⟨ask, asks⟩
    · refine ⟨?_, fun _ => rfl⟩
      intro b a _ h
      simp at h
    · simp only [List.head?_cons, Option.some.injEq]
      constructor
      · intro b a hb' ha' h1 h2 h3 h4
        subst hb' ha'
        have hcond : ¬ ((!(parseFloat bid.Price).2) = true ∨ (!(parseFloat ask.Price).2) = true ∨
            Float64.le (parseFloat bid.Price).1 (.finite 0) = true ∨
            Float64.le (parseFloat ask.Price).1 (.finite 0) = true) := by
          simp [h1, h2, h3, h4]
        simp only [hcond, if_false]
      · intro hno
        have hcond : (!(parseFloat bid.Price).2) = true ∨ (!(parseFloat ask.Price).2) = true ∨
            Float64.le (parseFloat bid.Price).1 (.finite 0) = true ∨
            Float64.le (parseFloat ask.Price).1 (.finite 0) = true := by
          by_contra hc
          simp only [not_or, Bool.not_eq_true', Bool.not_eq_false, Bool.not_eq_true] at hc
          exact hno ⟨bid, ask, rfl, rfl, hc.1, hc.2.1, hc.2.2.1, hc.2.2.2⟩
        simp only [hcond, if_true]

/-- The push `exPush`, with best bid 100 and best ask 102, stores the mid
price 101 in float64 arithmetic as in the exact one. -/
theorem handleOrderBook64_exPush :
    handleOrderBook64 exSample exParse64 exPush (1012 * Second) =
      { midPrice := .finite 101, midPriceUpdatedAt := 1012 * Second } ∧
    (handleOrderBook exIdle exParse exPush (1012 * Second)).midPrice = 101 := by
  have hb : exParse64 "100" = (.finite 100, true) := by simp [exParse64]
  have ha : exParse64 "102" = (.finite 102, true) := by simp [exParse64]
  have hadd : Float64.add (.finite 100) (.finite 102) = .finite 202 := by
    apply add_finite _ _ _ _ (by norm_num [abs_of_pos])
    rw [round64_eq _ 7 7107243161944064 (by norm_num [abs_of_pos]) (by norm_num [abs_of_pos])
      (by norm_num) (by norm_num [roundHalfEven])]
    norm_num
  have hdiv : Float64.div (.finite 202) (.finite 2) = .finite 101 := by
    apply div_finite _ _ _ (by norm_num) _ (by norm_num [abs_of_pos])
    rw [round64_eq _ 6 7107243161944064 (by norm_num [abs_of_pos]) (by norm_num [abs_of_pos])
      (by norm_num) (by norm_num [roundHalfEven])]
    norm_num
  constructor
  · simp [handleOrderBook64, exPush, hb, ha, Float64.le, hadd, hdiv]
  · have hb' : exParse "100" = (100, true) := by simp [exParse]
    have ha' : exParse "102" = (102, true) := by simp [exParse]
    norm_num [handleOrderBook, exPush, hb', ha']

/-- C17, evaluated where the code departs from it: the best bid of the push
`exNaNPush` is the text `NaN`, which `strconv.ParseFloat` reads without error
as NaN, no strictly positive number; `NaN <= 0` is false, so `handleOrderBook`
does not drop the push: it overwrites the stored sample (101, observed at
second 1009) with the mid price NaN and the current time. -/
theorem handleOrderBook64_stores_nan :
    exNaNPush.Bids.head? = some { Price := "NaN" } ∧
    exParse64 "NaN" = (.nan, true) ∧
    Float64.lt (.finite 0) (exParse64 "NaN").1 = false ∧
    Float64.le (exParse64 "NaN").1 (.finite 0) = false ∧
    handleOrderBook64 exSample exParse64 exNaNPush (1012 * Second) =
      { midPrice := .nan, midPriceUpdatedAt := 1012 * Second } ∧
    handleOrderBook64 exSample exParse64 exNaNPush (1012 * Second) ≠ exSample := by
  have hn : exParse64 "NaN" = (.nan, true) := by simp [exParse64]
  have ha : exParse64 "102" = (.finite 102, true) := by simp [exParse64]
  have hst : handleOrderBook64 exSample exParse64 exNaNPush (1012 * Second) =
      { midPrice := .nan, midPriceUpdatedAt := 1012 * Second } := by
    simp [handleOrderBook64, exNaNPush, hn, ha, Float64.le, Float64.add, Float64.div]
  refine ⟨rfl, hn, ?_, ?_, hst, ?_⟩
  · rw [hn]
    rfl
  · rw [hn]
    rfl
  · rw [hst]
    intro h
    have := congrArg MidSample.midPrice h
    simp [exSample] at this

theorem findPosition_first (marketID : Nat) (pre : List AccountPosition) (p : AccountPosition)
    (post : List AccountPosition) (hpre : ∀ q ∈ pre, q.MarketId ≠ marketID)
    (hp : p.MarketId = marketID) :
    findPosition marketID (pre ++ p :: post) = some p.Position := by
  induction pre with
  | nil => simp [findPosition, hp]
  | cons q rest ih =>
    have hq : q.MarketId ≠ marketID := hpre q (List.mem_cons_self _ _)
    simp only [List.cons_append, findPosition, hq, if_false]
    exact ih (fun r hr => hpre r (List.mem_cons_of_mem _ hr))

theorem findPosition_none (marketID : Nat) (ps : List AccountPosition)
    (h : ∀ q ∈ ps, q.MarketId ≠ marketID) : findPosition marketID ps = none := by
  induction ps with
  | nil => rfl
  | cons q rest ih =>
    have hq : q.MarketId ≠ marketID := h q (List.mem_cons_self _ _)
    simp only [findPosition, hq, if_false]
    exact ih (fun r hr => h r (List.mem_cons_of_mem _ hr))

/-- C21 as stated fails: the available balance `1e999` of `exHugeAccount`
fails to parse (`strconv.ParseFloat` returns `+Inf` with a range error), yet
`refreshAccount` succeeds and stores `+Inf`, not 0, as the available
capital. -/
theorem refreshAccount64_stores_infinity :
    (exParse64 exHugeAccount.AvailableBalance).2 = false ∧
    refreshAccount64 exSnapshot 5 1 exParse64 (.accounts [exHugeAccount]) (1010 * Second) =
      ({ availableCapital := .posInf, portfolioValue := .finite 100,
         positionSize := .finite (5 / 2), lastAccountFetch := 1010 * Second }, none) ∧
    Float64.posInf ≠ .finite 0 := by
  have h1 : exParse64 "1e999" = (.posInf, false) := by simp [exParse64]
  have h2 : exParse64 "100" = (.finite 100, true) := by simp [exParse64]
  have h3 : exParse64 "2.5" = (.finite (5 / 2), true) := by simp [exParse64]
  refine ⟨?_, ?_, ?_⟩
  · simp [exHugeAccount, h1]
  · simp [refreshAccount64, findAccount, findPosition, exHugeAccount, h1, h2, h3]
  · intro h
    cases h

/-- C21, amended: for a response with at least one account `refreshAccount`
succeeds whatever the texts of the selected account are, and stores for the
available balance, the total asset value and the position of the tracked
market the value `strconv.ParseFloat` returns for the text, its error
discarded; so a field whose text fails to parse is stored as the value
returned with the error, and the other fields take their parsed values. The
position is that of the first position whose `MarketId` is the tracked
market, and 0 when the selected account has no position in that market. -/
theorem refreshAccount64_stores_returned_values (snap : AccountSnapshot) (accountID : Int)
    (marketID : Nat) (parseFloat : String → Float64 × Bool) (first : Account)
    (rest : List Account) (now : Time) (a : Account)
    (hsel : (findAccount accountID (first :: rest)).getD first = a) :
    (refreshAccount64 snap accountID marketID parseFloat (.accounts (first :: rest)) now).2 =
      none ∧
    (refreshAccount64 snap accountID marketID parseFloat
      (.accounts (first :: rest)) now).1.availableCapital = (parseFloat a.AvailableBalance).1 ∧
    (refreshAccount64 snap accountID marketID parseFloat
      (.accounts (first :: rest)) now).1.portfolioValue = (parseFloat a.TotalAssetValue).1 ∧
    (∀ pre p post, a.Positions = pre ++ p :: post → (∀ q ∈ pre, q.MarketId ≠ marketID) →
      p.MarketId = marketID →
      (refreshAccount64 snap accountID marketID parseFloat
        (.accounts (first :: rest)) now).1.positionSize = (parseFloat p.Position).1) ∧
    ((∀ q ∈ a.Positions, q.MarketId ≠ marketID) →
      (refreshAccount64 snap accountID marketID parseFloat
        (.accounts (first :: rest)) now).1.positionSize = .finite 0) ∧
    (refreshAccount64 snap accountID marketID parseFloat
      (.accounts (first :: rest)) now).1.lastAccountFetch = now := by
  simp only [refreshAccount64, hsel]
  refine ⟨trivial, trivial, trivial, ?_, ?_, trivial⟩
  · intro pre p post hpos hpre hp
    rw [hpos, findPosition_first marketID pre p post hpre hp]
  · intro hnone
    rw [findPosition_none marketID a.Positions hnone]

/-- C21, amended, at the parser `exParse64`: of `exGarbledAccount` the
balance text `n/a` and the position text `?` are no numbers, `ParseFloat`
returns 0 with its error and 0 is stored, while the asset value `100` is
stored as parsed; `exOtherAccount` has no position and its position is
stored as 0. -/
theorem refreshAccount64_stores_returned_values_witness :
    (findAccount 5 (exGarbledAccount :: [])).getD exGarbledAccount = exGarbledAccount ∧
    exParse64 exGarbledAccount.AvailableBalance = (.finite 0, false) ∧
    exGarbledAccount.Positions = [] ++ { MarketId := 1, Position := "?" } :: [] ∧
    exParse64 "?" = (.finite 0, false) ∧
    (refreshAccount64 exSnapshot 5 1 exParse64 (.accounts (exGarbledAccount :: []))
      (1010 * Second)).2 = none ∧
    (refreshAccount64 exSnapshot 5 1 exParse64 (.accounts (exGarbledAccount :: []))
      (1010 * Second)).1.availableCapital = .finite 0 ∧
    (refreshAccount64 exSnapshot 5 1 exParse64 (.accounts (exGarbledAccount :: []))
      (1010 * Second)).1.portfolioValue = .finite 100 ∧
    (refreshAccount64 exSnapshot 5 1 exParse64 (.accounts (exGarbledAccount :: []))
      (1010 * Second)).1.positionSize = .finite 0 ∧
    (∀ q ∈ exOtherAccount.Positions, q.MarketId ≠ 1) ∧
    (refreshAccount64 exSnapshot 5 1 exParse64 (.accounts (exOtherAccount :: []))
      (1010 * Second)).1.positionSize = .finite 0 := by
  have hsel : (findAccount 5 (exGarbledAccount :: [])).getD exGarbledAccount =
      exGarbledAccount := by
    simp [findAccount, exGarbledAccount]
  have hsel' : (findAccount 5 (exOtherAccount :: [])).getD exOtherAccount = exOtherAccount := by
    simp [findAccount, exOtherAccount]
  have hbal : exParse64 exGarbledAccount.AvailableBalance = (.finite 0, false) := by
    simp [exParse64, exGarbledAccount]
  have hval : exParse64 exGarbledAccount.TotalAssetValue = (.finite 100, true) := by
    simp [exParse64, exGarbledAccount]
  have hq : exParse64 "?" = (.finite 0, false) := by simp [exParse64]
  have hnone : ∀ q ∈ exOtherAccount.Positions, q.MarketId ≠ 1 := by
    intro q hq
    simp [exOtherAccount] at hq
  have h := refreshAccount64_stores_returned_values exSnapshot 5 1 exParse64 exGarbledAccount []
    (1010 * Second) exGarbledAccount hsel
  have h' := refreshAccount64_stores_returned_values exSnapshot 5 1 exParse64 exOtherAccount []
    (1010 * Second) exOtherAccount hsel'
  refine ⟨hsel, hbal, rfl, hq, h.1, ?_, ?_, ?_, hnone, h'.2.2.2.2.1 hnone⟩
  · rw [h.2.1, hbal]
  · rw [h.2.2.1, hval]
  · rw [h.2.2.2.1 [] { MarketId := 1, Position := "?" } [] rfl (fun _ hq => by cases hq) rfl, hq]

/-! ## The quote and the mid price -/

theorem step_exTight_exEnv :
    step exTight exEnv =
      ⟨{ exTight with openOrder := some exTightOrder, lastMidPrice := 100005 / 1000,
                      lastOrderBase := 1 },
        none, [.placeOrder none, .submit exTightRequest true]⟩ := by
  have hne : ¬ ("sell" : String) = "buy" := by decide
  norm_num [step, getMidPrice, exTight, exTightParams, exTightRequest, exTightOrder, exIdle,
    exHeld, exEnv, exConfig, exMarket, exRequest,
    exNewOrder, Second, Minute, stepRefresh, priceChanged, calculateTargetPrice, loadAvellaneda,
    loadFromCandidates, scanCandidates, cancelAll, cancelAllOrders, stepPlace,
    determineBaseAmount, placeOrder, orderRequest, orderRecord, nextOrderID, boolToUint8,
    hne]

/-- C23 as stated fails: the state `exTight` quotes the sell side at the mid
price 100.005 with an ask offset of 0.001, a tenth of the price tick 0.01.
The target 100.006 is above the mid price, but `placeOrder` floors it to the
tick: the ask that `step` submits is 10000 price steps, the price 100.00,
below the mid price. -/
theorem step_sell_quote_below_mid :
    getMidPrice exTight exEnv.nowMid = (100005 / 1000, true) ∧
    0 < exTight.cfg.Spread ∧ paramsValid exTight ∧
    (calculateTargetPrice exTight exEnv.params (100005 / 1000) "sell").1 =
      (100006 / 1000, true) ∧
    Action.submit exTightRequest true ∈ (step exTight exEnv).trace ∧
    exTightRequest.IsAsk = 1 ∧
    (exTightRequest.Price : ℚ) * exTight.market.PriceTick = 100 ∧
    (exTightRequest.Price : ℚ) * exTight.market.PriceTick < 100005 / 1000 ∧
    (step exTight exEnv).state.openOrder = some exTightOrder ∧
    exTightOrder.Price < 100005 / 1000 := by
  have hne : ¬ ("sell" : String) = "buy" := by decide
  refine ⟨?_, ?_, ?_, ?_, ?_, rfl, ?_, ?_, ?_, ?_⟩
  · norm_num [getMidPrice, exTight, exIdle, exHeld, exEnv, Second]
  · norm_num [exTight, exIdle, exHeld, exConfig]
  · norm_num [paramsValid, exTight, exTightParams]
  · norm_num [calculateTargetPrice, loadAvellaneda, exTight, exTightParams, exIdle, exHeld,
      exEnv, exConfig, Second, hne]
  · rw [step_exTight_exEnv]
    simp
  · norm_num [exTightRequest, exRequest, exTight, exIdle, exHeld, exMarket]
  · norm_num [exTightRequest, exRequest, exTight, exIdle, exHeld, exMarket]
  · rw [step_exTight_exEnv]
  · norm_num [exTightOrder, exNewOrder]

/-- The sell quote of `step_exTight_exEnv` in float64 arithmetic: the mid
price 100.005 plus the ask offset 0.001 is the target 100.006, above the mid
price, and `placeOrder` submits it as 10000 price steps, the price 100. -/
theorem placeOrder64_sell_quote_below_mid :
    Float64.add (.finite mid100005) (.finite delta0001) = .finite target100006 ∧
    mid100005 < target100006 ∧
    placeOrder64 (.finite tick001) (.finite tick01) (.finite target100006) (.finite 1) =
      some { priceRounded := .finite 100, baseRounded := .finite 1,
             BaseAmount := 10, Price := 10000 } ∧
    (100 : ℚ) < mid100005 := by
  have hadd : Float64.add (.finite mid100005) (.finite delta0001) = .finite target100006 := by
    apply add_finite _ _ _ _ (by norm_num [abs_of_pos, target100006])
    rw [round64_eq _ 6 7037296630231466 (by norm_num [abs_of_pos, mid100005, delta0001])
      (by norm_num [abs_of_pos, mid100005, delta0001]) (by norm_num)
      (by norm_num [roundHalfEven, mid100005, delta0001])]
    norm_num [target100006]
  have hd1 : Float64.floor (Float64.div (.finite target100006) (.finite tick001)) =
      .finite 10000 := by
    have h : Float64.div (.finite target100006) (.finite tick001) =
        .finite (5497887992368333 / 549755813888) := by
      apply div_finite _ _ _ (by norm_num [tick001]) _ (by norm_num [abs_of_pos])
      rw [round64_eq _ 13 5497887992368333 (by norm_num [abs_of_pos, target100006, tick001])
        (by norm_num [abs_of_pos, target100006, tick001]) (by norm_num)
        (by norm_num [roundHalfEven, target100006, tick001])]
      norm_num
    rw [h]
    norm_num [Float64.floor]
  have hm : Float64.mul (.finite 10000) (.finite tick001) = .finite 100 := by
    apply mul_finite _ _ _ _ (by norm_num [abs_of_pos])
    rw [round64_eq _ 6 7036874417766400 (by norm_num [abs_of_pos, tick001])
      (by norm_num [abs_of_pos, tick001]) (by norm_num) (by norm_num [roundHalfEven, tick001])]
    norm_num
  have hd2 : Float64.floor (Float64.div (.finite 100) (.finite tick001)) = .finite 10000 := by
    have h : Float64.div (.finite 100) (.finite tick001) = .finite 10000 := by
      apply div_finite _ _ _ (by norm_num [tick001]) _ (by norm_num [abs_of_pos])
      rw [round64_eq _ 13 5497558138880000 (by norm_num [abs_of_pos, tick001])
        (by norm_num [abs_of_pos, tick001]) (by norm_num) (by norm_num [roundHalfEven, tick001])]
      norm_num
    rw [h]
    norm_num [Float64.floor]
  have hs : Float64.floor (Float64.div (.finite 1) (.finite tick01)) = .finite 10 := by
    rw [div_one_tick01]
    norm_num [Float64.floor]
  refine ⟨hadd, by norm_num [mid100005, target100006], ?_, by norm_num [mid100005]⟩
  unfold placeOrder64
  simp only [hd1, hm, hd2, hs, mul_10_tick01]
  norm_num [Float64.lt, Float64.toInt64, Float64.toUint32]

/-- In float64 arithmetic: for a mid price `m > 0` (a float64 value), a
spread `> 0` and offsets `> 0`, whenever `calculateTargetPrice` returns `ok`
the buy target is at most `m` and the sell target is at least `m`. -/
theorem calculateTargetPrice64_within_mid (requireParams : Bool) (spread : Float64)
    (params : Option avellanedaParams) (m : ℚ) (hm0 : 0 < m) (hm : round64 m = m)
    (hfin : m < 2 ^ 1024) (hs : Float64.lt (.finite 0) spread = true)
    (hp : ∀ p, params = some p → 0 < p.DeltaA ∧ 0 < p.DeltaB) :
    ((calculateTargetPrice64 requireParams spread params (.finite m) "buy").2 = true →
      Float64.le (calculateTargetPrice64 requireParams spread params (.finite m) "buy").1
        (.finite m) = true) ∧
    ((calculateTargetPrice64 requireParams spread params (.finite m) "sell").2 = true →
      Float64.le (.finite m)
        (calculateTargetPrice64 requireParams spread params (.finite m) "sell").1 = true) := by
  have hne : ¬ ("sell" : String) = "buy" := fun h => buy_ne_sell h.symm
  rcases params with _ | p
  · by_cases hreq : requireParams = true
    · simp [calculateTargetPrice64, hreq]
    · have hb : calculateTargetPrice64 requireParams spread none (.finite m) "buy" =
          (Float64.mul (.finite m) (Float64.sub (.finite 1) spread), true) := by
        simp only [calculateTargetPrice64, if_neg hreq, if_true]
      have hsl : calculateTargetPrice64 requireParams spread none (.finite m) "sell" =
          (Float64.mul (.finite m) (Float64.add (.finite 1) spread), true) := by
        simp only [calculateTargetPrice64, if_neg hreq, if_neg hne]
      rw [hb, hsl]
      exact ⟨fun _ => mul_le_of_le_one m _ hm0 hm hfin (one_sub_le_one spread hs),
        fun _ => le_mul_of_one_le m _ hm0 hm (one_le_one_add spread hs)⟩
  · obtain ⟨ha, hb⟩ := hp p rfl
    have hbuy : calculateTargetPrice64 requireParams spread (some p) (.finite m) "buy" =
        (Float64.sub (.finite m) (.finite p.DeltaB), true) := by
      simp only [calculateTargetPrice64, if_true]
    have hsell : calculateTargetPrice64 requireParams spread (some p) (.finite m) "sell" =
        (Float64.add (.finite m) (.finite p.DeltaA), true) := by
      simp only [calculateTargetPrice64, if_neg hne]
    rw [hbuy, hsell]
    refine ⟨fun _ => ?_, fun _ => ?_⟩
    · simp only [Float64.sub, Float64.neg, Float64.add]
      exact ofRat_le _ _ (by linarith) hm hfin
    · simp only [Float64.add]
      exact le_ofRat _ _ (by linarith) hm hm0

theorem round64_mid100005 : round64 mid100005 = mid100005 := by
  rw [round64_eq _ 6 7037226261487288 (by norm_num [abs_of_pos, mid100005])
    (by norm_num [abs_of_pos, mid100005]) (by norm_num)
    (by norm_num [roundHalfEven, mid100005])]
  norm_num [mid100005]

/-- An offset of 1e-15 is lost in float64 at the mid price 100.005. -/
theorem calculateTargetPrice64_offset_lost :
    round64 (1 / 1000000000000000) = delta1e15 ∧ 0 < delta1e15 ∧
    calculateTargetPrice64 false (.finite tick001)
        (some { DeltaA := delta1e15, DeltaB := delta1e15 }) (.finite mid100005) "buy" =
      (.finite mid100005, true) ∧
    calculateTargetPrice64 false (.finite tick001)
        (some { DeltaA := delta1e15, DeltaB := delta1e15 }) (.finite mid100005) "sell" =
      (.finite mid100005, true) := by
  have hne : ¬ ("sell" : String) = "buy" := by decide
  refine ⟨?_, by norm_num [delta1e15], ?_, ?_⟩
  · rw [round64_eq _ (-50) 5070602400912918 (by norm_num [abs_of_pos])
      (by norm_num [abs_of_pos]) (by norm_num) (by norm_num [roundHalfEven])]
    norm_num [delta1e15]
  · simp only [calculateTargetPrice64, if_true, Float64.sub, Float64.neg]
    rw [add_finite _ _ mid100005 _ (by norm_num [abs_of_pos, mid100005])]
    rw [round64_eq _ 6 7037226261487288 (by norm_num [abs_of_pos, mid100005, delta1e15])
      (by norm_num [abs_of_pos, mid100005, delta1e15]) (by norm_num)
      (by norm_num [roundHalfEven, mid100005, delta1e15])]
    norm_num [mid100005]
  · simp only [calculateTargetPrice64, hne, if_false]
    rw [add_finite _ _ mid100005 _ (by norm_num [abs_of_pos, mid100005])]
    rw [round64_eq _ 6 7037226261487288 (by norm_num [abs_of_pos, mid100005, delta1e15])
      (by norm_num [abs_of_pos, mid100005, delta1e15]) (by norm_num)
      (by norm_num [roundHalfEven, mid100005, delta1e15])]
    norm_num [mid100005]

end MarketMaker

/-! # The form of `SendTx` -/

namespace client

theorem foldl_priceProtection (opts : List (Option (options → options))) (cfg : options)
    (h : ∀ f, some f ∈ opts → ∀ o, (f o).priceProtection = o.priceProtection) :
    (opts.foldl applyOption cfg).priceProtection = cfg.priceProtection := by
  induction opts generalizing cfg with
  | nil => rfl
  | cons opt rest ih =>
    rw [List.foldl_cons, ih _ (fun f hf => h f (List.mem_cons_of_mem _ hf))]
    cases opt with
    | none => rfl
    | some f => exact h f (List.mem_cons_self _ _) cfg

/-- C26: the form `SendTx` sends always holds `tx_type`, the decimal digits
of the request's `TxType`, and `tx_info`, the request's `TxInfo` as it is.
Its `price_protection` field is the request's own `PriceProtection` when the
request sets one, otherwise the default of the client when it has one, and
it is absent exactly when neither is set; the form holds no other field.
The default of a client is the value of the last `WithPriceProtection`
among the options it was built with, and there is none when no option sets
one; `WithHTTPClient` and `WithRequestEditor` leave it as it is. -/
theorem SendTx_price_protection_field :
    (∀ (c : Client) (req : ReqSendTx),
      SendTx c req "tx_type" = some [Itoa req.TxType] ∧
      SendTx c req "tx_info" = some [req.TxInfo] ∧
      (∀ b, req.PriceProtection = some b →
        SendTx c req "price_protection" = some [FormatBool b]) ∧
      (∀ d, req.PriceProtection = none → c.opts.priceProtection = some d →
        SendTx c req "price_protection" = some [FormatBool d]) ∧
      (SendTx c req "price_protection" = none ↔
        (req.PriceProtection = none ∧ c.opts.priceProtection = none)) ∧
      (∀ key, key ≠ "tx_type" → key ≠ "tx_info" → key ≠ "price_protection" →
        SendTx c req key = none)) ∧
    (∀ (pre post : List (Option (options → options))) (enabled : Bool),
      (∀ f, some f ∈ post → ∀ o, (f o).priceProtection = o.priceProtection) →
      (applyOptions (pre ++ some (WithPriceProtection enabled) :: post)).priceProtection =
        some enabled) ∧
    (∀ (opts : List (Option (options → options))),
      (∀ f, some f ∈ opts → ∀ o, (f o).priceProtection = o.priceProtection) →
      (applyOptions opts).priceProtection = none) ∧
    (∀ (client : Option Nat) (o : options),
      (WithHTTPClient client o).priceProtection = o.priceProtection) ∧
    (∀ (fn : Option Nat) (o : options),
      (WithRequestEditor fn o).priceProtection = o.priceProtection) := by
  have h1 : ¬ ("tx_type" : String) = "tx_info" := by decide
  have h2 : ¬ ("tx_type" : String) = "price_protection" := by decide
  have h3 : ¬ ("tx_info" : String) = "price_protection" := by decide
  have h4 : ¬ ("price_protection" : String) = "tx_info" := by decide
  have h5 : ¬ ("price_protection" : String) = "tx_type" := by decide
  refine ⟨?_, ?_, ?_, ?_, ?_⟩
  · intro c req
    refine ⟨?_, ?_, ?_, ?_, ?_, ?_⟩
    · unfold SendTx
      rcases req.PriceProtection with _ | b
      · rcases c.opts.priceProtection with _ | d
        · simp [Values.Set, h1]
        · simp [Values.Set, h1, h2]
      · simp [Values.Set, h1, h2]
    · unfold SendTx
      rcases req.PriceProtection with _ | b
      · rcases c.opts.priceProtection with _ | d
        · simp [Values.Set]
        · simp [Values.Set, h3]
      · simp [Values.Set, h3]
    · intro b hb
      simp [SendTx, hb, Values.Set]
    · intro d hreq hd
      simp [SendTx, hreq, hd, Values.Set]
    · unfold SendTx
      rcases req.PriceProtection with _ | b
      · rcases c.opts.priceProtection with _ | d
        · simp [Values.Set, Values.empty, h4, h5]
        · simp [Values.Set]
      · simp [Values.Set]
    · intro key k1 k2 k3
      unfold SendTx
      rcases req.PriceProtection with _ | b
      · rcases c.opts.priceProtection with _ | d
        · simp [Values.Set, Values.empty, k1, k2]
        · simp [Values.Set, Values.empty, k1, k2, k3]
      · simp [Values.Set, Values.empty, k1, k2, k3]
  · intro pre post enabled hpost
    unfold applyOptions
    rw [List.foldl_append, List.foldl_cons, foldl_priceProtection post _ hpost]
    rfl
  · intro opts h
    unfold applyOptions
    rw [foldl_priceProtection opts _ h]
    rfl
  · intro client o
    cases client <;> rfl
  · intro fn o
    cases fn <;> rfl

/-- C26 at the sample clients `exProtected` and `exPlain` and the sample
requests `exReq` and `exReqOff`. -/
theorem SendTx_price_protection_field_witness :
    exProtected.opts.priceProtection = some true ∧
    exReqOff.PriceProtection = some false ∧
    SendTx exProtected exReqOff "price_protection" = some [FormatBool false] ∧
    exReq.PriceProtection = none ∧
    SendTx exProtected exReq "price_protection" = some [FormatBool true] ∧
    exPlain.opts.priceProtection = none ∧
    SendTx exPlain exReq "price_protection" = none ∧
    SendTx exPlain exReq "tx_type" = some ["14"] ∧
    SendTx exPlain exReq "tx_info" = some ["0xab12"] ∧
    SendTx exPlain exReq "Tx_Type" = none := by
  have hpost : ∀ f, some f ∈ ([] : List (Option (options → options))) →
      ∀ o, (f o).priceProtection = o.priceProtection := by
    intro f hf
    cases hf
  have hprot : exProtected.opts.priceProtection = some true :=
    SendTx_price_protection_field.2.1
      [some (WithPriceProtection false), none, some (WithRequestEditor (some 3))] [] true hpost
  have hplainopts : ∀ f, some f ∈ [some (WithHTTPClient (some 2))] →
      ∀ o, (f o).priceProtection = o.priceProtection := by
    intro f hf o
    rw [List.mem_singleton] at hf
    cases hf
    rfl
  have hplain : exPlain.opts.priceProtection = none :=
    SendTx_price_protection_field.2.2.1 [some (WithHTTPClient (some 2))] hplainopts
  have hkey : ∀ k : String, k = "Tx_Type" → k ≠ "tx_type" ∧ k ≠ "tx_info" ∧
      k ≠ "price_protection" := by
    intro k hk
    subst hk
    decide
  obtain ⟨k1, k2, k3⟩ := hkey "Tx_Type" rfl
  have hP := SendTx_price_protection_field.1 exProtected
  have hQ := SendTx_price_protection_field.1 exPlain exReq
  exact ⟨hprot, rfl, (hP exReqOff).2.2.1 false rfl, rfl, (hP exReq).2.2.2.1 true rfl hprot,
    hplain, hQ.2.2.2.2.1.2 ⟨rfl, hplain⟩, hQ.1, hQ.2.1, hQ.2.2.2.2.2 "Tx_Type" k1 k2 k3⟩

end client
